import Mathlib

/-!
Logger: a shallow embedding of the mutex-protected logging core.

The definitions below follow `loggerexp.h` and `loggerexp.c`.

* A `char` array is a `List Char`; the byte `NUL` ends the C string held in it.
* An `unsigned` or `int` value is a `Nat` or an `Int`.
* What the C library hands to the code (the local time, the thread id, the result of
  `fopen`, the result of `strdup`) is read from an `Env` value.
* What the code does to the outside world (files, stderr, syslog, the mutex) is the
  list of `Event`s an operation returns.
* A read or write through a null pointer or outside an array is a `Fault`.
-/

namespace Logger

/-! ## C strings and character buffers -/

/-- The terminating byte of a C string. -/
def NUL : Char := Char.ofNat 0

/-- The C string held in a character array: the bytes before the first `NUL`. -/
def cstr (b : List Char) : List Char :=
  b.takeWhile (fun c => c != NUL)

/-- A faulting memory access. -/
inductive Fault where
  | null_deref
  | out_of_bounds
  deriving DecidableEq, Repr

/-- `strlen(b)`: the offset of the first `NUL`; scanning an array that holds no `NUL`
runs past its end. -/
def strlen (b : List Char) : Except Fault Nat :=
  if NUL ∈ b then .ok (cstr b).length else .error Fault.out_of_bounds

/-- `snprintf(b + off, size, ...)` where the formatted text is `text`: at most
`size - 1` characters of the text are stored at `off`, followed by `NUL`; nothing is
stored when `size` is zero. -/
def snprintf (b : List Char) (off size : Nat) (text : List Char) : List Char :=
  if size = 0 then b
  else b.take off ++ text.take (size - 1) ++ NUL :: b.drop (off + (text.take (size - 1)).length + 1)

/-- The value an `unsigned` has when it is printed with `%d`. -/
def int_of_unsigned (u : Nat) : Int :=
  if u % 2 ^ 32 < 2 ^ 31 then ((u % 2 ^ 32 : Nat) : Int) else ((u % 2 ^ 32 : Nat) : Int) - 2 ^ 32

/-- Conversion `%d` of printf. -/
def fmt_d (x : Int) : List Char :=
  if x < 0 then '-' :: Nat.toDigits 10 x.natAbs else Nat.toDigits 10 x.natAbs

/-- Conversion `%0wd` of printf: the sign, then zeros up to the field width `w`, then the
decimal digits. -/
def fmt_0d (w : Nat) (x : Int) : List Char :=
  if x < 0 then
    '-' :: (List.replicate (w - 1 - (Nat.toDigits 10 x.natAbs).length) '0' ++ Nat.toDigits 10 x.natAbs)
  else
    List.replicate (w - (Nat.toDigits 10 x.natAbs).length) '0' ++ Nat.toDigits 10 x.natAbs

/-! ## Constants of loggerexp.h -/

def LOGGER_LEVEL_FATAL : Nat := 0
def LOGGER_LEVEL_ERROR : Nat := 1
def LOGGER_LEVEL_WARNING : Nat := 2
def LOGGER_LEVEL_WARN : Nat := 2
def LOGGER_LEVEL_INFO : Nat := 3
def LOGGER_LEVEL_DEBUG : Nat := 4
def LOGGER_LEVEL_TRACE : Nat := 5

def LOGGER_OPTION_KEEP_FILE_OPEN : Nat := 1 <<< 0
def LOGGER_OPTION_FLUSH_FILE : Nat := 1 <<< 1
def LOGGER_OPTION_FILE : Nat := 1 <<< 2
def LOGGER_OPTION_SYSLOG : Nat := 1 <<< 3
def LOGGER_OPTION_STDERR : Nat := 1 <<< 4
def LOGGER_OPTION_MILLISECONDS : Nat := 1 <<< 5

/-- The C truth value of `options & flag`. -/
def has_option (options flag : Nat) : Bool :=
  options &&& flag != 0

/-! ## The environment, the effects and the global state -/

/-- The fields of `struct tm` that the code reads. -/
structure Tm where
  tm_year : Int
  tm_mon : Int
  tm_mday : Int
  tm_hour : Int
  tm_min : Int
  tm_sec : Int
  deriving DecidableEq, Repr

/-- What the C library returns to the code during one operation. -/
structure Env where
  /-- The result of `localtime`. -/
  TM : Tm
  /-- The field `tv_usec` filled in by `gettimeofday`. -/
  tv_usec : Nat
  /-- The result of `GETPID()`. -/
  tid : Nat
  /-- The result of `fopen(log_file, "a")`: a handle, or nothing when the file cannot be opened. -/
  fopen_result : Option Nat
  /-- Whether `strdup` finds memory. -/
  strdup_ok : Bool
  deriving DecidableEq, Repr

/-- The syslog priorities the code uses. -/
inductive Priority where
  | LOG_CRIT
  | LOG_ERR
  | LOG_WARNING
  | LOG_INFO
  | LOG_DEBUG
  deriving DecidableEq, Repr

/-- The calls by which the code acts on the outside world. -/
inductive Event where
  | mutex_init
  | mutex_destroy
  | lock
  | unlock
  | fopen (path : List Char) (result : Option Nat)
  | fwrite (handle : Nat) (text : List Char)
  | fflush (handle : Nat)
  | fclose (handle : Nat)
  | stderr_write (text : List Char)
  | free
  | openlog
  | closelog
  | syslog (priority : Priority) (text : List Char)
  deriving DecidableEq, Repr

/-- The global variables of loggerexp.c. `file_name_prefix` holds the bytes of the
allocated array, `fp` the open handle. -/
structure LoggerState where
  logger_log_level_ : Nat
  logger_debug_mask_ : Nat
  logger_trace_mask_ : Nat
  logger_options_ : Nat
  log_file : Option (List Char)
  fp : Option Nat
  file_name_prefix : Option (List Char)
  syslog_open : Bool
  deriving DecidableEq, Repr

/-- The values the globals are initialised with. -/
def initial_state : LoggerState :=
  { logger_log_level_ := 0
    logger_debug_mask_ := 0
    logger_trace_mask_ := 0
    logger_options_ := LOGGER_OPTION_FILE
    log_file := none
    fp := none
    file_name_prefix := none
    syslog_open := false }

/-! ## make_timestamp -/

/-- The text the format of `make_timestamp` produces from the local time `TM` and the
millisecond count `ms`. -/
def timestamp_text (options : Nat) (TM : Tm) (ms : Nat) : List Char :=
  if has_option options LOGGER_OPTION_MILLISECONDS then
    fmt_0d 4 (TM.tm_year + 1900) ++ '-' :: fmt_0d 2 (TM.tm_mon + 1) ++ '-' :: fmt_0d 2 TM.tm_mday
      ++ ' ' :: fmt_0d 2 TM.tm_hour ++ ':' :: fmt_0d 2 TM.tm_min ++ ':' :: fmt_0d 2 TM.tm_sec
      ++ '.' :: fmt_0d 3 (int_of_unsigned ms)
  else
    fmt_0d 4 (TM.tm_year + 1900) ++ '-' :: fmt_0d 2 (TM.tm_mon + 1) ++ '-' :: fmt_0d 2 TM.tm_mday
      ++ ' ' :: fmt_0d 2 TM.tm_hour ++ ':' :: fmt_0d 2 TM.tm_min ++ ':' :: fmt_0d 2 TM.tm_sec

/-- The function `make_timestamp(buffer, buff_size)`: the array after the call. -/
def make_timestamp (options : Nat) (env : Env) (buffer : List Char) (buff_size : Nat) : List Char :=
  snprintf buffer 0 buff_size (timestamp_text options env.TM (env.tv_usec / 1000))

/-! ## logger_open_ex and logger_close -/

/-- `strrchr(s, c)` for a character `c` other than `NUL`: the offset of the last `c` in the
C string `s`, or nothing (the null pointer). -/
def strrchr (s : List Char) (c : Char) : Option Nat :=
  match s with
  | [] => none
  | x :: xs =>
    match strrchr xs c with
    | some i => some (i + 1)
    | none => if x = c then some 0 else none

/-- The separator search of `logger_open_ex` on the copy `buf` of the init-site: the
array after `p1[1] = 0` or `p2[1] = 0`. With both pointers null the last branch stores
through `p2`. -/
def cut_at_separator (buf : List Char) : Except Fault (List Char) :=
  match strrchr (cstr buf) '/', strrchr (cstr buf) '\\' with
  | some p1, none => .ok (buf.set (p1 + 1) NUL)
  | none, some p2 => .ok (buf.set (p2 + 1) NUL)
  | some p1, some p2 => if p1 > p2 then .ok (buf.set (p1 + 1) NUL) else .ok (buf.set (p2 + 1) NUL)
  | none, none => .error Fault.null_deref

/-- The function `logger_syslog_open_`. -/
def logger_syslog_open_ (st : LoggerState) : LoggerState × List Event :=
  if !st.syslog_open then ({ st with syslog_open := true }, [Event.openlog]) else (st, [])

/-- The eager opening of the file in `logger_open_ex`; `fopen` of a null path is a fault. -/
def open_file_eagerly (st : LoggerState) (env : Env) : Except Fault (LoggerState × List Event) :=
  if has_option st.logger_options_ LOGGER_OPTION_FILE then
    match st.log_file with
    | none => .error Fault.null_deref
    | some path =>
      .ok ({ st with fp := env.fopen_result },
        (match st.fp with
          | some h => [Event.fclose h]
          | none => []) ++ [Event.fopen path env.fopen_result])
  else .ok (st, [])

/-- The function `logger_open_ex(log_file_name, options, file)`. -/
def logger_open_ex (st : LoggerState) (env : Env) (log_file_name : Option (List Char))
    (options : Nat) (file : List Char) : Except Fault (LoggerState × List Event) :=
  let st1 := { st with log_file := log_file_name, logger_options_ := options }
  match (if env.strdup_ok then (cut_at_separator (file ++ [NUL])).map some else .ok none) with
  | .error e => .error e
  | .ok pfx =>
    let st2 := { st1 with file_name_prefix := pfx }
    if has_option options LOGGER_OPTION_KEEP_FILE_OPEN then
      match open_file_eagerly st2 env with
      | .error e => .error e
      | .ok (st3, ev3) =>
        if has_option options LOGGER_OPTION_SYSLOG then
          .ok ((logger_syslog_open_ st3).1, Event.mutex_init :: ev3 ++ (logger_syslog_open_ st3).2)
        else .ok (st3, Event.mutex_init :: ev3)
    else .ok (st2, [Event.mutex_init])

/-- The function `logger_close`. -/
def logger_close (st : LoggerState) : LoggerState × List Event :=
  ({ st with fp := none, file_name_prefix := none, syslog_open := false },
    (match st.fp with
      | some h => [Event.fclose h]
      | none => [])
    ++ (match st.file_name_prefix with
      | some _ => [Event.free]
      | none => [])
    ++ (if st.syslog_open then [Event.closelog] else [])
    ++ [Event.mutex_destroy])

/-- The function `logger_set_log_level`. -/
def logger_set_log_level (st : LoggerState) (level : Nat) : LoggerState :=
  { st with logger_log_level_ := level }

/-- The function `logger_set_debug_mask`. -/
def logger_set_debug_mask (st : LoggerState) (mask : Nat) : LoggerState :=
  { st with logger_debug_mask_ := mask }

/-- The function `logger_set_trace_mask`. -/
def logger_set_trace_mask (st : LoggerState) (mask : Nat) : LoggerState :=
  { st with logger_trace_mask_ := mask }

/-! ## The predicates of loggerexp.h -/

def logger_is_info (st : LoggerState) : Bool := decide (st.logger_log_level_ ≥ LOGGER_LEVEL_INFO)
def logger_is_warn (st : LoggerState) : Bool := decide (st.logger_log_level_ ≥ LOGGER_LEVEL_WARN)
def logger_is_error (st : LoggerState) : Bool := decide (st.logger_log_level_ ≥ LOGGER_LEVEL_ERROR)
def logger_is_debug (st : LoggerState) : Bool := decide (st.logger_log_level_ ≥ LOGGER_LEVEL_DEBUG)
def logger_is_trace (st : LoggerState) : Bool := decide (st.logger_log_level_ ≥ LOGGER_LEVEL_TRACE)

/-- The macro `logger_is_debug_feature(feature)`, as a C truth value. -/
def logger_is_debug_feature (st : LoggerState) (feature : Nat) : Bool :=
  st.logger_debug_mask_ &&& feature != 0

/-- The macro `logger_is_trace_feature(feature)`, as a C truth value. -/
def logger_is_trace_feature (st : LoggerState) (feature : Nat) : Bool :=
  st.logger_trace_mask_ &&& feature != 0

/-! ## logger_stripfile and logger_stralpha -/

/-- The loop `while(*p == *file) ++p, ++file;` on the bytes at `p` and at `file`; it ends
at the first difference, and a comparison past the end of either array is a fault. -/
def stripfile_loop : List Char → List Char → Except Fault (List Char)
  | c :: p, d :: file => if c = d then stripfile_loop p file else .ok (d :: file)
  | _, _ => .error Fault.out_of_bounds

/-- The function `logger_stripfile(file)`; the first argument is the global
`file_name_prefix`. The result is the C string at the returned pointer. -/
def logger_stripfile (p : Option (List Char)) (file : Option (List Char)) :
    Except Fault (Option (List Char)) :=
  match file with
  | none => .ok none
  | some f =>
    match p with
    | none => .error Fault.null_deref
    | some pbytes =>
      match stripfile_loop pbytes (f ++ [NUL]) with
      | .error e => .error e
      | .ok rest => .ok (some (cstr rest))

/-- The loop of `logger_stralpha` at offset `i`, where `rest` is `name + i`. -/
def stralpha_loop (name : List Char) : List Char → List Char
  | [] => name
  | c :: rest => if c ≥ '0' ∧ c ≤ '9' then stralpha_loop name rest else c :: rest

/-- The function `logger_stralpha(name)`. -/
def logger_stralpha (name : Option (List Char)) : Option (List Char) :=
  match name with
  | none => none
  | some n => some (stralpha_loop n n)

/-! ## logger_msg_ex_ -/

/-- The text produced by the three formats of the metadata part. -/
def metadata_text (pid : Nat) (severity : List Char) (theclass func : Option (List Char))
    (class_name file_name : List Char) (line : Int) : List Char :=
  match func with
  | none => [' ', '('] ++ fmt_d (int_of_unsigned pid) ++ [')', ' '] ++ severity
  | some f =>
    match theclass with
    | none =>
      [' ', '('] ++ fmt_d (int_of_unsigned pid) ++ [')', ' '] ++ severity ++ [' '] ++ f
        ++ [' ', '@', ' '] ++ file_name ++ [':'] ++ fmt_d line
    | some _ =>
      [' ', '('] ++ fmt_d (int_of_unsigned pid) ++ [')', ' '] ++ severity ++ [' '] ++ class_name
        ++ [':', ':'] ++ f ++ [' ', '@', ' '] ++ file_name ++ [':'] ++ fmt_d line

/-- The first part of `logger_msg_ex_`: the timestamp and the metadata are printed into
the caller's array `buff`, whose size is the parameter `len`. -/
def render_prefix (st : LoggerState) (env : Env) (buff : List Char) (severity : List Char)
    (theclass func file : Option (List Char)) (line : Int) : Except Fault (List Char) :=
  match logger_stripfile st.file_name_prefix file with
  | .error e => .error e
  | .ok file_name =>
    match strlen (make_timestamp st.logger_options_ env buff buff.length) with
    | .error e => .error e
    | .ok off =>
      if buff.length - off = 0 then .error Fault.out_of_bounds
      else
        .ok ((snprintf (make_timestamp st.logger_options_ env buff buff.length) off (buff.length - off)
          (metadata_text (env.tid % 2 ^ 32) severity theclass func
            ((logger_stralpha theclass).getD []) (file_name.getD []) line)).set
              (off + (buff.length - off - 1)) NUL)

/-- The file sink of `logger_msg_ex_`, where `text` is what `vfprintf` prints. -/
def file_sink (st : LoggerState) (env : Env) (text : List Char) : LoggerState × List Event :=
  if has_option st.logger_options_ LOGGER_OPTION_FILE then
    match st.fp, st.log_file with
    | some h, _ =>
      if has_option st.logger_options_ LOGGER_OPTION_KEEP_FILE_OPEN then
        (st, Event.fwrite h text ::
          (if has_option st.logger_options_ LOGGER_OPTION_FLUSH_FILE then [Event.fflush h] else []))
      else
        ({ st with fp := none }, Event.fwrite h text ::
          (if has_option st.logger_options_ LOGGER_OPTION_FLUSH_FILE then [Event.fflush h] else [])
            ++ [Event.fclose h])
    | none, none => (st, [])
    | none, some path =>
      match env.fopen_result with
      | none => (st, [Event.fopen path none])
      | some h =>
        if has_option st.logger_options_ LOGGER_OPTION_KEEP_FILE_OPEN then
          ({ st with fp := some h }, Event.fopen path (some h) :: Event.fwrite h text ::
            (if has_option st.logger_options_ LOGGER_OPTION_FLUSH_FILE then [Event.fflush h] else []))
        else
          ({ st with fp := none }, Event.fopen path (some h) :: Event.fwrite h text ::
            (if has_option st.logger_options_ LOGGER_OPTION_FLUSH_FILE then [Event.fflush h] else [])
              ++ [Event.fclose h])
  else (st, [])

/-- The stderr sink of `logger_msg_ex_`. -/
def stderr_sink (st : LoggerState) (text : List Char) : List Event :=
  if has_option st.logger_options_ LOGGER_OPTION_STDERR then [Event.stderr_write text] else []

/-- The `switch(nseverity)` of the syslog part. -/
def syslog_priority (nseverity : Int) : Priority :=
  if nseverity = 0 then Priority.LOG_CRIT
  else if nseverity = 1 then Priority.LOG_ERR
  else if nseverity = 2 then Priority.LOG_WARNING
  else if nseverity = 3 then Priority.LOG_INFO
  else Priority.LOG_DEBUG

/-- The number of characters the syslog part removes from the front of the array. -/
def syslog_strip_len (options : Nat) : Nat :=
  if has_option options LOGGER_OPTION_MILLISECONDS then 24 else 20

/-- The array after `memmove(buff, buff + len, slen - len); buff[slen - len - 1] = 0;`.
A count `slen - len` below zero is a huge `size_t`, and with `slen = len` the store is at
offset `-1`: both run outside the array. -/
def syslog_strip (buff : List Char) (len : Nat) : Except Fault (List Char) :=
  match strlen buff with
  | .error e => .error e
  | .ok slen =>
    if slen ≤ len then .error Fault.out_of_bounds
    else .ok (((buff.drop len).take (slen - len) ++ buff.drop (slen - len)).set (slen - len - 1) NUL)

/-- The syslog part of `logger_msg_ex_`; `format` maps the C string in the array (the
first variadic argument) to the text printed. -/
def syslog_sink (st : LoggerState) (buff : List Char) (nseverity : Int)
    (format : List Char → List Char) : Except Fault (LoggerState × List Event) :=
  if has_option st.logger_options_ LOGGER_OPTION_SYSLOG then
    match syslog_strip buff (syslog_strip_len st.logger_options_) with
    | .error e => .error e
    | .ok b =>
      .ok ((logger_syslog_open_ st).1,
        (logger_syslog_open_ st).2 ++ [Event.syslog (syslog_priority nseverity) (format (cstr b))])
  else .ok (st, [])

/-- The function `logger_msg_ex_(buff, len, nseverity, severity, theclass, func, file, line,
format, ...)`. The pair `buff`, `len` is the list of the `len` bytes at `buff`; `format`
maps the C string in that array to the text the format and its arguments print. -/
def logger_msg_ex_ (st : LoggerState) (env : Env) (buff : List Char) (nseverity : Int)
    (severity : List Char) (theclass func file : Option (List Char)) (line : Int)
    (format : List Char → List Char) : Except Fault (LoggerState × List Event) :=
  if has_option st.logger_options_ (LOGGER_OPTION_FILE ||| LOGGER_OPTION_STDERR) then
    match render_prefix st env buff severity theclass func file line with
    | .error e => .error e
    | .ok b =>
      match syslog_sink (file_sink st env (format (cstr b))).1 b nseverity format with
      | .error e => .error e
      | .ok (st2, ev2) =>
        .ok (st2, Event.lock :: (file_sink st env (format (cstr b))).2
          ++ stderr_sink st (format (cstr b)) ++ [Event.unlock] ++ ev2)
  else syslog_sink st buff nseverity format

/-! ## The entry points of loggerexp.h -/

/-- The arguments of one call of `logger_msg_ex_`. -/
structure MsgCall where
  nseverity : Int
  severity : List Char
  theclass : Option (List Char)
  func : Option (List Char)
  file : Option (List Char)
  line : Int
  format : List Char → List Char

/-- The format `"%s " format "\n"` applied to the array and the caller's arguments, where
`m` is the text the caller's own format and arguments print. -/
def line_format (m : List Char) : List Char → List Char :=
  fun b => b ++ ' ' :: m ++ ['\n']

/-- The values of `__func__`, `__FILE__` and `__LINE__` at a call site. -/
structure Site where
  func : List Char
  file : List Char
  line : Int

/-- The macro `log_fatal`: the call of `logger_msg_ex_` it makes. -/
def log_fatal (_st : LoggerState) (m : List Char) : Option MsgCall :=
  some ⟨0, "[FATAL]".toList, none, none, none, 0, line_format m⟩

/-- The macro `log_error`: the call of `logger_msg_ex_` it makes, if any. -/
def log_error (st : LoggerState) (m : List Char) : Option MsgCall :=
  if logger_is_error st then some ⟨1, "[ERROR]".toList, none, none, none, 0, line_format m⟩
  else none

/-- The macro `log_warn`. -/
def log_warn (st : LoggerState) (m : List Char) : Option MsgCall :=
  if logger_is_warn st then some ⟨2, "[WARN]".toList, none, none, none, 0, line_format m⟩
  else none

/-- The macro `log_info`. -/
def log_info (st : LoggerState) (m : List Char) : Option MsgCall :=
  if logger_is_info st then some ⟨2, "[INFO]".toList, none, none, none, 0, line_format m⟩
  else none

/-- The macro `log_debug(feature, format, ...)`; `static_mask` is the value of
`DEBUG_STATIC_MASK`, which the including program defines, and `feature_text` the
spelling of the argument `feature`. -/
def log_debug (static_mask : Nat) (st : LoggerState) (feature : Nat) (feature_text : List Char)
    (site : Site) (m : List Char) : Option MsgCall :=
  if feature &&& static_mask != 0 && logger_is_debug st && logger_is_debug_feature st feature
      && has_option st.logger_options_ (LOGGER_OPTION_FILE ||| LOGGER_OPTION_STDERR) then
    some ⟨-1, '[' :: feature_text ++ [']'], none, some site.func, some site.file, site.line,
      line_format m⟩
  else none

/-- The macro `log_trace_enter`. -/
def log_trace_enter (st : LoggerState) (site : Site) (m : List Char) : Option MsgCall :=
  if logger_is_trace st
      && has_option st.logger_options_ (LOGGER_OPTION_FILE ||| LOGGER_OPTION_STDERR) then
    some ⟨-1, "  >>>>  ".toList, none, some site.func, some site.file, site.line, line_format m⟩
  else none

/-- The macro `log_trace_exit`. -/
def log_trace_exit (st : LoggerState) (site : Site) (m : List Char) : Option MsgCall :=
  if logger_is_trace st
      && has_option st.logger_options_ (LOGGER_OPTION_FILE ||| LOGGER_OPTION_STDERR) then
    some ⟨-1, "  <<<<  ".toList, none, some site.func, some site.file, site.line, line_format m⟩
  else none

/-- The macro `log_condtrace_enter(cond, format, ...)`; `static_mask` is the value of
`TRACE_STATIC_MASK`, which the including program defines. -/
def log_condtrace_enter (static_mask : Nat) (st : LoggerState) (cond : Nat) (site : Site)
    (m : List Char) : Option MsgCall :=
  if cond &&& static_mask != 0 && logger_is_trace st && logger_is_trace_feature st cond
      && has_option st.logger_options_ (LOGGER_OPTION_FILE ||| LOGGER_OPTION_STDERR) then
    some ⟨-1, "  >>>>  ".toList, none, some site.func, some site.file, site.line, line_format m⟩
  else none

/-- The macro `log_condtrace_exit(cond, format, ...)`. -/
def log_condtrace_exit (static_mask : Nat) (st : LoggerState) (cond : Nat) (site : Site)
    (m : List Char) : Option MsgCall :=
  if cond &&& static_mask != 0 && logger_is_trace st && logger_is_trace_feature st cond
      && has_option st.logger_options_ (LOGGER_OPTION_FILE ||| LOGGER_OPTION_STDERR) then
    some ⟨-1, "  <<<<  ".toList, none, some site.func, some site.file, site.line, line_format m⟩
  else none

/-- The body of an entry point: nothing happens without a call, otherwise
`logger_msg_ex_` runs on the local array `logger_tmp_buffer__`, whose bytes before the
call are `buff`. -/
def run_call (st : LoggerState) (env : Env) (buff : List Char) :
    Option MsgCall → Except Fault (LoggerState × List Event)
  | none => .ok (st, [])
  | some c =>
    logger_msg_ex_ st env buff c.nseverity c.severity c.theclass c.func c.file c.line c.format

/-! ## Observations on the effects -/

/-- Whether a list of effects contains a write to the file, to stderr or to syslog. -/
def writes_output (evs : List Event) : Bool :=
  evs.any (fun e =>
    match e with
    | Event.fwrite _ _ => true
    | Event.stderr_write _ => true
    | Event.syslog _ _ => true
    | _ => false)

/-- The stderr sink is enabled, or the file sink is enabled and its file is open or can
be opened. -/
def sink_ready (st : LoggerState) (env : Env) : Bool :=
  has_option st.logger_options_ LOGGER_OPTION_STDERR
    || (has_option st.logger_options_ LOGGER_OPTION_FILE
      && (st.fp.isSome || (st.log_file.isSome && env.fopen_result.isSome)))

/-- The texts written to stderr, in order. -/
def stderr_writes (evs : List Event) : List (List Char) :=
  evs.filterMap (fun e =>
    match e with
    | Event.stderr_write t => some t
    | _ => none)

/-- The texts written to the log file, in order. -/
def file_writes (evs : List Event) : List (List Char) :=
  evs.filterMap (fun e =>
    match e with
    | Event.fwrite _ t => some t
    | _ => none)

/-- The texts submitted to syslog, in order. -/
def syslog_writes (evs : List Event) : List (List Char) :=
  evs.filterMap (fun e =>
    match e with
    | Event.syslog _ t => some t
    | _ => none)

/-- The values of the C type `int`. -/
def int_range (x : Int) : Prop := -2 ^ 31 ≤ x ∧ x < 2 ^ 31

/-- Every field of the local time is an `int`, and so is the year plus 1900. -/
def tm_in_range (TM : Tm) : Prop :=
  int_range TM.tm_year ∧ int_range (TM.tm_year + 1900) ∧ int_range TM.tm_mon
    ∧ int_range (TM.tm_mon + 1) ∧ int_range TM.tm_mday ∧ int_range TM.tm_hour
    ∧ int_range TM.tm_min ∧ int_range TM.tm_sec

/-- The C string that the first part of `logger_msg_ex_` leaves in an array of `len`
bytes: the timestamp and the metadata, cut to `len - 1` characters. -/
def rendered (st : LoggerState) (env : Env) (len : Nat) (severity : List Char)
    (theclass func : Option (List Char)) (fn : Option (List Char)) (line : Int) : List Char :=
  (timestamp_text st.logger_options_ env.TM (env.tv_usec / 1000)
    ++ metadata_text (env.tid % 2 ^ 32) severity theclass func
      ((logger_stralpha theclass).getD []) (fn.getD []) line).take (len - 1)

/-! ## The timestamp as the specification words it -/

/-- The decimal digit character of `d mod 10`. -/
def digit (d : Nat) : Char := Char.ofNat (48 + d % 10)

/-- A number below 100 as two digits, zero-padded. -/
def two_digits (n : Nat) : List Char := [digit (n / 10), digit n]

/-- A number below 1000 as three digits, zero-padded. -/
def three_digits (n : Nat) : List Char := [digit (n / 100), digit (n / 10), digit n]

/-- A number below 10000 as four digits, zero-padded. -/
def four_digits (n : Nat) : List Char :=
  [digit (n / 1000), digit (n / 100), digit (n / 10), digit n]

/-- The text `YYYY-MM-DD HH:MM:SS` of the specification, followed by `.mmm` when
milliseconds are included, where `mmm` is the microsecond part `u` divided by 1000. -/
def spec_timestamp (milliseconds : Bool) (year month day hour minute second u : Nat) : List Char :=
  four_digits year ++ ['-'] ++ two_digits month ++ ['-'] ++ two_digits day ++ [' ']
    ++ two_digits hour ++ [':'] ++ two_digits minute ++ [':'] ++ two_digits second
    ++ (if milliseconds then '.' :: three_digits (u / 1000) else [])

/-! ## Sample values -/

/-- A sample environment: 5 January 2024, 07:08:09.045678, thread 4242, `fopen` returns
handle 3. -/
def sample_env : Env :=
  { TM := ⟨124, 0, 5, 7, 8, 9⟩, tv_usec := 45678, tid := 4242, fopen_result := some 3,
    strdup_ok := true }

/-- A sample content of the 512 bytes of `logger_tmp_buffer__` before a call. -/
def sample_buffer : List Char := List.replicate 512 'x'

/-- The initial state with only the stderr sink enabled. -/
def stderr_state : LoggerState :=
  { initial_state with logger_options_ := LOGGER_OPTION_STDERR }

/-- A call site whose `__FILE__` is a path of 602 characters outside the prefix. -/
def long_path : List Char := List.replicate 600 'd' ++ ['.', 'c']

/-- A state as left by `logger_open_ex` with the init-site `/src/main.c` and the stderr
sink. -/
def opened_state : LoggerState :=
  { initial_state with
    logger_options_ := LOGGER_OPTION_STDERR
    file_name_prefix := some ['/', 's', 'r', 'c', '/', NUL, 'a', 'i', 'n', '.', 'c', NUL] }

/-! ## The mask setters of loggerexp.c -/

/-- The C operator `~` on an `unsigned` of 32 bits. -/
def bitnot32 (x : Nat) : Nat := (2 ^ 32 - 1) ^^^ (x % 2 ^ 32)

/-- The function `logger_get_debug_mask`. -/
def logger_get_debug_mask (st : LoggerState) : Nat := st.logger_debug_mask_

/-- The function `logger_get_trace_mask`. -/
def logger_get_trace_mask (st : LoggerState) : Nat := st.logger_trace_mask_

/-- The function `logger_enable_debug`: `logger_debug_mask_ |= feature`. -/
def logger_enable_debug (st : LoggerState) (feature : Nat) : LoggerState :=
  { st with logger_debug_mask_ := st.logger_debug_mask_ ||| feature }

/-- The function `logger_disable_debug`: `logger_debug_mask_ &= ~feature`. -/
def logger_disable_debug (st : LoggerState) (feature : Nat) : LoggerState :=
  { st with logger_debug_mask_ := st.logger_debug_mask_ &&& bitnot32 feature }

/-- The function `logger_enable_trace`: `logger_trace_mask_ |= feature`. -/
def logger_enable_trace (st : LoggerState) (feature : Nat) : LoggerState :=
  { st with logger_trace_mask_ := st.logger_trace_mask_ ||| feature }

/-- The function `logger_disable_trace`: `logger_trace_mask_ &= ~feature`. -/
def logger_disable_trace (st : LoggerState) (feature : Nat) : LoggerState :=
  { st with logger_trace_mask_ := st.logger_trace_mask_ &&& bitnot32 feature }

/-! ## Sequences of emissions and their effects on the file -/

/-- Consecutive calls of `logger_msg_ex_`, each with its own environment and its own
array: the state is threaded through and the effects are concatenated. -/
def run_calls (st : LoggerState) :
    List (Env × List Char × MsgCall) → Except Fault (LoggerState × List Event)
  | [] => .ok (st, [])
  | (env, buff, c) :: rest =>
    match run_call st env buff (some c) with
    | .error e => .error e
    | .ok (st1, ev1) =>
      match run_calls st1 rest with
      | .error e => .error e
      | .ok (st2, ev2) => .ok (st2, ev1 ++ ev2)

/-- The effects on the log file, in order: `fopen`, `vfprintf`, `fflush` and `fclose`. -/
def file_events (evs : List Event) : List Event :=
  evs.filter (fun e =>
    match e with
    | Event.fopen _ _ => true
    | Event.fwrite _ _ => true
    | Event.fflush _ => true
    | Event.fclose _ => true
    | _ => false)

/-- The number of calls of `fopen`. -/
def fopen_count (evs : List Event) : Nat :=
  evs.countP (fun e =>
    match e with
    | Event.fopen _ _ => true
    | _ => false)

/-- The number of calls of `fclose`. -/
def fclose_count (evs : List Event) : Nat :=
  evs.countP (fun e =>
    match e with
    | Event.fclose _ => true
    | _ => false)

/-- The number of writes to the log file. -/
def fwrite_count (evs : List Event) : Nat :=
  evs.countP (fun e =>
    match e with
    | Event.fwrite _ _ => true
    | _ => false)

/-- The priorities of the syslog submissions, in order. -/
def syslog_priorities (evs : List Event) : List Priority :=
  evs.filterMap (fun e =>
    match e with
    | Event.syslog p _ => some p
    | _ => none)

/-- The arguments of a call of `logger_msg_ex_` are well formed: the array has at least
26 bytes, the strings are C strings, and `logger_stripfile` returns on the file name
(`p` is the global `file_name_prefix`). -/
def call_ready (p : Option (List Char)) (x : Env × List Char × MsgCall) : Prop :=
  26 ≤ x.2.1.length ∧ NUL ∉ x.2.2.severity
    ∧ (∀ f, x.2.2.func = some f → NUL ∉ f)
    ∧ (∀ t, x.2.2.theclass = some t → NUL ∉ t)
    ∧ ∃ fn, logger_stripfile p x.2.2.file = .ok fn

/-! ## More sample values -/

/-- A sample call of `logger_msg_ex_`, as `log_warn("disk almost full")` makes it. -/
def sample_call : MsgCall :=
  ⟨2, "[WARN]".toList, none, none, none, 0, line_format "disk almost full".toList⟩

/-- The initial state after `t.log` was set as log file, with the file sink and the flush
flag, without keep-open. -/
def reopen_state : LoggerState :=
  { initial_state with
    logger_options_ := LOGGER_OPTION_FILE ||| LOGGER_OPTION_FLUSH_FILE
    log_file := some "t.log".toList }

/-- The initial state with the file and the stderr sinks and a log file. -/
def file_stderr_state : LoggerState :=
  { initial_state with
    logger_options_ := LOGGER_OPTION_FILE ||| LOGGER_OPTION_STDERR
    log_file := some "t.log".toList }

/-- The sample environment when the log file cannot be opened. -/
def failing_env : Env := { sample_env with fopen_result := none }

/-- The initial state at level INFO with the stderr and the syslog sinks. -/
def syslog_state : LoggerState :=
  { initial_state with
    logger_log_level_ := LOGGER_LEVEL_INFO
    logger_options_ := LOGGER_OPTION_STDERR ||| LOGGER_OPTION_SYSLOG }

/-! ## The variant loggerex.h and loggerex.c -/

namespace Ex

/-- The global variables of loggerex.c. -/
structure State where
  _logger_log_level : Nat
  _logger_debug_mask : Nat
  _logger_options : Nat
  log_file : Option (List Char)
  fp : Option Nat
  syslog_open : Bool
  deriving DecidableEq, Repr

/-- The values the globals of loggerex.c are initialised with. -/
def initial_state : State :=
  { _logger_log_level := 0
    _logger_debug_mask := 0
    _logger_options := LOGGER_OPTION_FILE
    log_file := none
    fp := none
    syslog_open := false }

/-- The function `_logger_syslog_open`. -/
def _logger_syslog_open (st : State) : State × List Event :=
  if !st.syslog_open then ({ st with syslog_open := true }, [Event.openlog]) else (st, [])

/-- The function `logger_open(log_file_name, options)` of loggerex.c; `fopen` of a null
path is a fault. -/
def logger_open (st : State) (env : Env) (log_file_name : Option (List Char)) (options : Nat) :
    Except Fault (State × List Event) :=
  if has_option options LOGGER_OPTION_KEEP_FILE_OPEN then
    match (if has_option options LOGGER_OPTION_FILE then
        match log_file_name with
        | none => Except.error Fault.null_deref
        | some path =>
          Except.ok ({ st with log_file := log_file_name, _logger_options := options,
                               fp := env.fopen_result },
            (match st.fp with
              | some h => [Event.fclose h]
              | none => []) ++ [Event.fopen path env.fopen_result])
      else Except.ok ({ st with log_file := log_file_name, _logger_options := options }, [])) with
    | .error e => .error e
    | .ok (st1, ev1) =>
      if has_option options LOGGER_OPTION_SYSLOG then
        .ok ((_logger_syslog_open st1).1, ev1 ++ (_logger_syslog_open st1).2)
      else .ok (st1, ev1)
  else .ok ({ st with log_file := log_file_name, _logger_options := options }, [])

/-- The function `logger_set_log_level` of loggerex.c. -/
def logger_set_log_level (st : State) (level : Nat) : State :=
  { st with _logger_log_level := level }

/-- The function `logger_set_debug_mask` of loggerex.c. -/
def logger_set_debug_mask (st : State) (mask : Nat) : State :=
  { st with _logger_debug_mask := mask }

def logger_is_info (st : State) : Bool := decide (st._logger_log_level ≥ LOGGER_LEVEL_INFO)
def logger_is_warn (st : State) : Bool := decide (st._logger_log_level ≥ LOGGER_LEVEL_WARN)
def logger_is_error (st : State) : Bool := decide (st._logger_log_level ≥ LOGGER_LEVEL_ERROR)

/-- The function `_logger_msg_ex(format, ...)` of loggerex.c, where `text` is what the
format and its arguments print. -/
def _logger_msg_ex (st : State) (env : Env) (text : List Char) : State × List Event :=
  let file : State × List Event :=
    if has_option st._logger_options LOGGER_OPTION_FILE then
      match st.fp, st.log_file with
      | some h, _ =>
        if has_option st._logger_options LOGGER_OPTION_KEEP_FILE_OPEN then
          (st, Event.fwrite h text ::
            (if has_option st._logger_options LOGGER_OPTION_FLUSH_FILE then [Event.fflush h] else []))
        else
          ({ st with fp := none }, Event.fwrite h text ::
            (if has_option st._logger_options LOGGER_OPTION_FLUSH_FILE then [Event.fflush h] else [])
              ++ [Event.fclose h])
      | none, none => (st, [])
      | none, some path =>
        match env.fopen_result with
        | none => (st, [Event.fopen path none])
        | some h =>
          if has_option st._logger_options LOGGER_OPTION_KEEP_FILE_OPEN then
            ({ st with fp := some h }, Event.fopen path (some h) :: Event.fwrite h text ::
              (if has_option st._logger_options LOGGER_OPTION_FLUSH_FILE then [Event.fflush h]
                else []))
          else
            ({ st with fp := none }, Event.fopen path (some h) :: Event.fwrite h text ::
              (if has_option st._logger_options LOGGER_OPTION_FLUSH_FILE then [Event.fflush h]
                else []) ++ [Event.fclose h])
    else (st, [])
  (file.1, file.2 ++
    (if has_option st._logger_options LOGGER_OPTION_STDERR then [Event.stderr_write text] else []))

/-- The functions `_logger_syslog_fatal`, `_logger_syslog_err`, `_logger_syslog_warn` and
`_logger_syslog_info`, which differ in the priority only. -/
def _logger_syslog (priority : Priority) (st : State) (text : List Char) : State × List Event :=
  ((_logger_syslog_open st).1, (_logger_syslog_open st).2 ++ [Event.syslog priority text])

/-- The body shared by the macros `log_fatal`, `log_error`, `log_warn` and `log_info` once
their test has passed (with `LOGGER_SYSLOG` set): the syslog submission, then the
timestamp in the local array `_log_time_stamp` (32 bytes, `stamp` before the call) and
the call of `_logger_msg_ex`. -/
def log_body (priority : Priority) (tag : List Char) (st : State) (env : Env)
    (stamp m : List Char) : State × List Event :=
  let sys : State × List Event :=
    if has_option st._logger_options LOGGER_OPTION_SYSLOG then
      _logger_syslog priority st (tag ++ ' ' :: m ++ ['\n'])
    else (st, [])
  if has_option st._logger_options (LOGGER_OPTION_FILE ||| LOGGER_OPTION_STDERR) then
    ((_logger_msg_ex sys.1 env
        (cstr (make_timestamp st._logger_options env stamp 32) ++ [' ', '(']
          ++ fmt_d (int_of_unsigned env.tid) ++ [')', ' '] ++ tag ++ ' ' :: m ++ ['\n'])).1,
      sys.2 ++ (_logger_msg_ex sys.1 env
        (cstr (make_timestamp st._logger_options env stamp 32) ++ [' ', '(']
          ++ fmt_d (int_of_unsigned env.tid) ++ [')', ' '] ++ tag ++ ' ' :: m ++ ['\n'])).2)
  else sys

/-- The macro `log_fatal` of loggerex.h. -/
def log_fatal (st : State) (env : Env) (stamp m : List Char) : State × List Event :=
  log_body Priority.LOG_CRIT "[FATAL]".toList st env stamp m

/-- The macro `log_error` of loggerex.h: the test is `_logger_log_level & (1 << 0)`. -/
def log_error (st : State) (env : Env) (stamp m : List Char) : State × List Event :=
  if st._logger_log_level &&& (1 <<< 0) != 0 then
    log_body Priority.LOG_ERR "[ERROR]".toList st env stamp m
  else (st, [])

/-- The macro `log_warn` of loggerex.h: the test is `_logger_log_level & (1 << 1)`. -/
def log_warn (st : State) (env : Env) (stamp m : List Char) : State × List Event :=
  if st._logger_log_level &&& (1 <<< 1) != 0 then
    log_body Priority.LOG_WARNING "[WARN]".toList st env stamp m
  else (st, [])

/-- The macro `log_info` of loggerex.h: the test is `_logger_log_level & (1 << 2)`. -/
def log_info (st : State) (env : Env) (stamp m : List Char) : State × List Event :=
  if st._logger_log_level &&& (1 <<< 2) != 0 then
    log_body Priority.LOG_INFO "[INFO]".toList st env stamp m
  else (st, [])

end Ex

/-! ## The variant loggerux.h and loggerux.c -/

namespace Ux

/-- The two levels and debug-mask globals of loggerux.c: the packed word
`_logger_log_level` (bits 0 to 2 the levels, bits 3 to 31 the debug features) and the
options. -/
structure State where
  _logger_log_level : Nat
  _logger_options : Nat
  deriving DecidableEq, Repr

def LEVEL_BITS : Nat := 3
def LEVEL_BITS_MASK : Nat := (1 <<< LEVEL_BITS) - 1
def DEBUG_MASK_START : Nat := 1 <<< LEVEL_BITS

/-- The function `logger_set_level(level)`: the `switch` has the cases 0, 1, 2 and 3 and
no default. -/
def logger_set_level (st : State) (level : Nat) : State :=
  if level = LOGGER_LEVEL_FATAL then
    { st with _logger_log_level := (st._logger_log_level &&& bitnot32 LEVEL_BITS_MASK) ||| 0 }
  else if level = LOGGER_LEVEL_ERROR then
    { st with _logger_log_level := (st._logger_log_level &&& bitnot32 LEVEL_BITS_MASK) ||| 1 }
  else if level = LOGGER_LEVEL_WARN then
    { st with _logger_log_level := (st._logger_log_level &&& bitnot32 LEVEL_BITS_MASK) ||| 3 }
  else if level = LOGGER_LEVEL_INFO then
    { st with _logger_log_level := (st._logger_log_level &&& bitnot32 LEVEL_BITS_MASK) ||| 7 }
  else st

/-- The function `logger_set_debug_mask(mask)`: the shift is one of `unsigned`, of 32
bits. -/
def logger_set_debug_mask (st : State) (mask : Nat) : State :=
  { st with _logger_log_level :=
      (st._logger_log_level &&& LEVEL_BITS_MASK) ||| ((mask % 2 ^ 32) <<< LEVEL_BITS) % 2 ^ 32 }

/-- The function `logger_get_debug_mask`. -/
def logger_get_debug_mask (st : State) : Nat :=
  st._logger_log_level >>> LEVEL_BITS

/-- The macro `logger_is_info()`, with the value of the C expression. -/
def logger_is_info (st : State) : Nat := st._logger_log_level &&& (1 <<< 2)

/-- The macro `logger_is_warn()`. -/
def logger_is_warn (st : State) : Nat := st._logger_log_level &&& (1 <<< 1)

/-- The macro `logger_is_error()`. -/
def logger_is_error (st : State) : Nat := st._logger_log_level &&& (1 <<< 0)

/-- The macro `logger_is_debug(feature)`: `(feature < 29) && (_logger_log_level &
(8 << feature))`, 0 or 1; the shift is taken in 32 bits. -/
def logger_is_debug (st : State) (feature : Nat) : Nat :=
  if feature < 29 ∧ st._logger_log_level &&& ((8 <<< feature) % 2 ^ 32) ≠ 0 then 1 else 0

end Ux

/-! ## Sample values for the variants and for the syslog part -/

/-- The options of the test program `loggerex-test/main.c`: all six flags. -/
def test_options : Nat :=
  LOGGER_OPTION_STDERR ||| LOGGER_OPTION_SYSLOG ||| LOGGER_OPTION_FILE
    ||| LOGGER_OPTION_FLUSH_FILE ||| LOGGER_OPTION_KEEP_FILE_OPEN ||| LOGGER_OPTION_MILLISECONDS

/-- A sample content of the 32 bytes of `_log_time_stamp` before a call. -/
def sample_stamp : List Char := List.replicate 32 'x'

/-- The initial state at level ERROR with only the syslog sink enabled. -/
def syslog_only_state : LoggerState :=
  { initial_state with
    logger_log_level_ := LOGGER_LEVEL_ERROR
    logger_options_ := LOGGER_OPTION_SYSLOG }

/-- An array of 512 bytes that holds a C string of 30 characters `c`. -/
def stale_buffer (c : Char) : List Char :=
  List.replicate 30 c ++ NUL :: List.replicate 481 'x'

/-- Every field of the time of `env` is in its calendar range, with the year in 0..9999. -/
abbrev calendar_time (env : Env) : Prop :=
  (0 ≤ env.TM.tm_year + 1900 ∧ env.TM.tm_year + 1900 ≤ 9999)
    ∧ (0 ≤ env.TM.tm_mon ∧ env.TM.tm_mon ≤ 11)
    ∧ (1 ≤ env.TM.tm_mday ∧ env.TM.tm_mday ≤ 31)
    ∧ (0 ≤ env.TM.tm_hour ∧ env.TM.tm_hour ≤ 23)
    ∧ (0 ≤ env.TM.tm_min ∧ env.TM.tm_min ≤ 59)
    ∧ (0 ≤ env.TM.tm_sec ∧ env.TM.tm_sec ≤ 60)
    ∧ env.tv_usec ≤ 999999

/-- The thread field `(%d)` of the metadata, as printed for the thread id of `env`. -/
def thread_field (env : Env) : List Char :=
  '(' :: fmt_d (int_of_unsigned (env.tid % 2 ^ 32)) ++ [')']

/-- Whether the mutex is held after a list of effects that starts with the mutex free. -/
def mutex_held (evs : List Event) : Bool :=
  evs.foldl (fun held e =>
    match e with
    | Event.lock => true
    | Event.unlock => false
    | _ => held) false

/-- The initial state with the file, stderr and syslog sinks, the flush flag and a log
file, without keep-open. -/
def all_sinks_state : LoggerState :=
  { initial_state with
    logger_log_level_ := LOGGER_LEVEL_INFO
    logger_options_ := LOGGER_OPTION_FILE ||| LOGGER_OPTION_STDERR ||| LOGGER_OPTION_SYSLOG
      ||| LOGGER_OPTION_FLUSH_FILE
    log_file := some "t.log".toList }

/-! # Lemmas -/

/-! ## Decimal digits -/

theorem toDigitsCore_eq (fuel : Nat) : ∀ n ds, n < fuel →
    Nat.toDigitsCore 10 fuel n ds = Nat.toDigits 10 n ++ ds := by
  induction fuel using Nat.strong_induction_on with
  | _ fuel ih =>
    intro n ds hn
    cases fuel with
    | zero => omega
    | succ f =>
      have hself : Nat.toDigits 10 n = Nat.toDigitsCore 10 (n + 1) n [] := rfl
      by_cases h0 : n / 10 = 0
      · simp [hself, Nat.toDigitsCore, h0]
      · have hlt : n / 10 < n := Nat.div_lt_self (by omega) (by decide)
        have h1 := ih f (by omega) (n / 10) (Nat.digitChar (n % 10) :: ds) (by omega)
        have h2 := ih n (by omega) (n / 10) [Nat.digitChar (n % 10)] hlt
        simp [hself, Nat.toDigitsCore, h0, h1, h2]

theorem toDigits_lt (n : Nat) (h : n < 10) : Nat.toDigits 10 n = [Nat.digitChar n] := by
  have h0 : n / 10 = 0 := by omega
  have h1 : n % 10 = n := by omega
  simp [Nat.toDigits, Nat.toDigitsCore, h0, h1]

theorem toDigits_ge (n : Nat) (h : 10 ≤ n) :
    Nat.toDigits 10 n = Nat.toDigits 10 (n / 10) ++ [Nat.digitChar (n % 10)] := by
  have h0 : n / 10 ≠ 0 := by omega
  have hlt : n / 10 < n := Nat.div_lt_self (by omega) (by decide)
  have h2 := toDigitsCore_eq n (n / 10) [Nat.digitChar (n % 10)] hlt
  have hself : Nat.toDigits 10 n = Nat.toDigitsCore 10 (n + 1) n [] := rfl
  simp [hself, Nat.toDigitsCore, h0, h2]

theorem digitChar_eq (k : Nat) (h : k < 10) : Nat.digitChar k = Char.ofNat (48 + k) := by
  interval_cases k <;> rfl

theorem digitChar_ne_NUL (k : Nat) (h : k < 10) : Nat.digitChar k ≠ NUL := by
  interval_cases k <;> decide

theorem toDigits_no_NUL (n : Nat) : NUL ∉ Nat.toDigits 10 n := by
  induction n using Nat.strong_induction_on with
  | _ n ih =>
    by_cases h : n < 10
    · rw [toDigits_lt n h]
      simp
      exact (digitChar_ne_NUL n h).symm
    · rw [toDigits_ge n (by omega)]
      have hlt : n / 10 < n := Nat.div_lt_self (by omega) (by decide)
      simp
      exact ⟨ih _ hlt, (digitChar_ne_NUL _ (Nat.mod_lt _ (by decide))).symm⟩

theorem toDigits_length_pos (n : Nat) : 1 ≤ (Nat.toDigits 10 n).length := by
  by_cases h : n < 10
  · rw [toDigits_lt n h]; simp
  · rw [toDigits_ge n (by omega)]; simp

theorem toDigits_length_le (n e : Nat) (he : 0 < e) (h : n < 10 ^ e) :
    (Nat.toDigits 10 n).length ≤ e :=
  Nat.toDigitsCore_length 10 (by decide) (n + 1) n e h he

theorem fmt_d_no_NUL (x : Int) : NUL ∉ fmt_d x := by
  unfold fmt_d
  split
  · simp only [List.mem_cons, not_or]
    exact ⟨by decide, toDigits_no_NUL _⟩
  · exact toDigits_no_NUL _

theorem fmt_d_length_pos (x : Int) : 1 ≤ (fmt_d x).length := by
  have := toDigits_length_pos x.natAbs
  unfold fmt_d
  split
  · simp
  · omega

theorem fmt_0d_no_NUL (w : Nat) (x : Int) : NUL ∉ fmt_0d w x := by
  have h0 : NUL ≠ '0' := by decide
  have h1 : NUL ≠ '-' := by decide
  have h2 := toDigits_no_NUL x.natAbs
  unfold fmt_0d
  split <;> simp [List.mem_replicate, h0, h1, h2]

theorem fmt_0d_length_ge (w : Nat) (x : Int) : w ≤ (fmt_0d w x).length := by
  have := toDigits_length_pos x.natAbs
  unfold fmt_0d
  split <;> simp <;> omega

/-! ## C strings in arrays -/

theorem cstr_append_NUL (s r : List Char) (h : NUL ∉ s) : cstr (s ++ NUL :: r) = s := by
  unfold cstr
  induction s with
  | nil => simp
  | cons a s ih =>
    simp only [List.mem_cons, not_or] at h
    have ha : (a != NUL) = true := by
      simp only [bne_iff_ne, ne_eq]
      exact fun e => h.1 e.symm
    simp only [List.cons_append, List.takeWhile_cons, ha, if_true]
    rw [ih h.2]

theorem strlen_append_NUL (s r : List Char) (h : NUL ∉ s) :
    strlen (s ++ NUL :: r) = .ok s.length := by
  unfold strlen
  simp [cstr_append_NUL s r h]

theorem set_NUL_after (s r : List Char) (i : Nat) (h : s.length ≤ i) :
    ∃ r2, (s ++ NUL :: r).set i NUL = s ++ NUL :: r2 := by
  obtain ⟨k, rfl⟩ : ∃ k, i = s.length + k := ⟨i - s.length, by omega⟩
  rw [List.set_append_right _ _ (by omega)]
  cases k with
  | zero => exact ⟨r, by simp⟩
  | succ k => exact ⟨r.set k NUL, by simp⟩

theorem cstr_no_NUL (b : List Char) : NUL ∉ cstr b := by
  unfold cstr
  intro h
  have := List.mem_takeWhile_imp h
  simp at this

theorem cstr_of_no_NUL (s : List Char) (h : NUL ∉ s) : cstr s = s := by
  unfold cstr
  rw [List.takeWhile_eq_self_iff]
  intro c hc
  simp only [bne_iff_ne, ne_eq]
  intro e
  exact h (e ▸ hc)

theorem timestamp_text_no_NUL (options : Nat) (TM : Tm) (ms : Nat) :
    NUL ∉ timestamp_text options TM ms := by
  have h1 : NUL ≠ '-' := by decide
  have h2 : NUL ≠ ' ' := by decide
  have h3 : NUL ≠ ':' := by decide
  have h4 : NUL ≠ '.' := by decide
  unfold timestamp_text
  split <;> simp [fmt_0d_no_NUL, h1, h2, h3, h4]

theorem timestamp_text_length_ge (options : Nat) (TM : Tm) (ms : Nat) :
    19 ≤ (timestamp_text options TM ms).length := by
  have a := fmt_0d_length_ge 4 (TM.tm_year + 1900)
  have b := fmt_0d_length_ge 2 (TM.tm_mon + 1)
  have c := fmt_0d_length_ge 2 TM.tm_mday
  have d := fmt_0d_length_ge 2 TM.tm_hour
  have e := fmt_0d_length_ge 2 TM.tm_min
  have f := fmt_0d_length_ge 2 TM.tm_sec
  unfold timestamp_text
  split <;> simp <;> omega

theorem timestamp_text_length_ge_ms (options : Nat) (TM : Tm) (ms : Nat)
    (h : has_option options LOGGER_OPTION_MILLISECONDS = true) :
    23 ≤ (timestamp_text options TM ms).length := by
  have a := fmt_0d_length_ge 4 (TM.tm_year + 1900)
  have b := fmt_0d_length_ge 2 (TM.tm_mon + 1)
  have c := fmt_0d_length_ge 2 TM.tm_mday
  have d := fmt_0d_length_ge 2 TM.tm_hour
  have e := fmt_0d_length_ge 2 TM.tm_min
  have f := fmt_0d_length_ge 2 TM.tm_sec
  have g := fmt_0d_length_ge 3 (int_of_unsigned ms)
  unfold timestamp_text
  simp [h]
  omega

/-- What `make_timestamp` leaves in an array of at least one byte. -/
theorem make_timestamp_eq (options : Nat) (env : Env) (buffer : List Char) (h : 1 ≤ buffer.length) :
    make_timestamp options env buffer buffer.length
      = (timestamp_text options env.TM (env.tv_usec / 1000)).take (buffer.length - 1)
        ++ NUL :: buffer.drop
          (((timestamp_text options env.TM (env.tv_usec / 1000)).take (buffer.length - 1)).length + 1) := by
  unfold make_timestamp snprintf
  have : buffer.length ≠ 0 := by omega
  simp [this]

/-- The array `render_prefix` produces: the timestamp and the metadata, cut to the size
of the array less one, then `NUL`. -/
theorem render_prefix_eq (st : LoggerState) (env : Env) (buff severity : List Char)
    (theclass func file : Option (List Char)) (line : Int) (fn : Option (List Char))
    (hlen : 1 ≤ buff.length)
    (hstrip : logger_stripfile st.file_name_prefix file = .ok fn)
    (hmd : NUL ∉ metadata_text (env.tid % 2 ^ 32) severity theclass func
      ((logger_stralpha theclass).getD []) (fn.getD []) line) :
    ∃ r, render_prefix st env buff severity theclass func file line
      = .ok ((timestamp_text st.logger_options_ env.TM (env.tv_usec / 1000)
          ++ metadata_text (env.tid % 2 ^ 32) severity theclass func
            ((logger_stralpha theclass).getD []) (fn.getD []) line).take (buff.length - 1)
          ++ NUL :: r) := by
  have htsN : NUL ∉ timestamp_text st.logger_options_ env.TM (env.tv_usec / 1000) :=
    timestamp_text_no_NUL _ _ _
  unfold render_prefix
  rw [hstrip]
  simp only []
  rw [make_timestamp_eq _ _ _ hlen]
  generalize metadata_text (env.tid % 2 ^ 32) severity theclass func
      ((logger_stralpha theclass).getD []) (fn.getD []) line = md at hmd ⊢
  generalize timestamp_text st.logger_options_ env.TM (env.tv_usec / 1000) = ts at htsN ⊢
  have htakeN : NUL ∉ ts.take (buff.length - 1) := fun h => htsN (List.mem_of_mem_take h)
  have hmdN : NUL ∉ md.take (buff.length - (ts.take (buff.length - 1)).length - 1) :=
    fun h => hmd (List.mem_of_mem_take h)
  rw [strlen_append_NUL _ _ htakeN]
  simp only []
  have hoff : (ts.take (buff.length - 1)).length ≤ buff.length - 1 := by
    simp only [List.length_take]; omega
  have hne : ¬ (buff.length - (ts.take (buff.length - 1)).length = 0) := by omega
  rw [if_neg hne]
  unfold snprintf
  rw [if_neg hne]
  rw [List.take_left' rfl]
  have hsplit : (ts ++ md).take (buff.length - 1)
      = ts.take (buff.length - 1) ++ md.take (buff.length - (ts.take (buff.length - 1)).length - 1) := by
    rw [List.take_append_eq_append_take]
    congr 1
    by_cases hc : ts.length ≤ buff.length - 1
    · rw [List.length_take, Nat.min_eq_right hc]
      congr 1
      omega
    · rw [List.length_take, Nat.min_eq_left (by omega)]
      have e1 : buff.length - 1 - ts.length = 0 := by omega
      have e2 : buff.length - (buff.length - 1) - 1 = 0 := by omega
      rw [e1, e2]
  rw [hsplit]
  refine Exists.imp (fun r h => congrArg Except.ok h) (set_NUL_after _ _ _ ?_)
  simp only [List.length_append, List.length_take]
  omega

/-! ## Option flags -/

theorem lor_eq_zero (x y : Nat) : x ||| y = 0 ↔ x = 0 ∧ y = 0 := by
  constructor
  · intro h
    have hb : ∀ i, (x.testBit i || y.testBit i) = false := by
      intro i
      rw [← Nat.testBit_or, h, Nat.zero_testBit]
    constructor
    · apply Nat.eq_of_testBit_eq
      intro i
      have := hb i
      simp only [Bool.or_eq_false_iff] at this
      rw [this.1, Nat.zero_testBit]
    · apply Nat.eq_of_testBit_eq
      intro i
      have := hb i
      simp only [Bool.or_eq_false_iff] at this
      rw [this.2, Nat.zero_testBit]
  · rintro ⟨rfl, rfl⟩
    rfl

theorem has_option_or (options a b : Nat) :
    has_option options (a ||| b) = (has_option options a || has_option options b) := by
  unfold has_option
  rw [Nat.and_or_distrib_left]
  by_cases h : options &&& a ||| options &&& b = 0
  · have h2 := (lor_eq_zero _ _).1 h
    simp [h, h2.1, h2.2]
  · have h2 : ¬ (options &&& a = 0 ∧ options &&& b = 0) := fun e => h ((lor_eq_zero _ _).2 e)
    have h3 : (options &&& a ||| options &&& b != 0) = true := by simpa using h
    rw [h3]
    by_cases ha : options &&& a = 0
    · have hb : options &&& b ≠ 0 := fun e => h2 ⟨ha, e⟩
      simp [ha, hb]
    · simp [ha]

/-! ## The metadata text -/

theorem metadata_text_no_NUL (pid : Nat) (severity : List Char) (theclass func : Option (List Char))
    (class_name file_name : List Char) (line : Int)
    (hs : NUL ∉ severity) (hc : NUL ∉ class_name) (hn : NUL ∉ file_name)
    (hf : ∀ f, func = some f → NUL ∉ f) :
    NUL ∉ metadata_text pid severity theclass func class_name file_name line := by
  have h1 : NUL ≠ ' ' := by decide
  have h2 : NUL ≠ '(' := by decide
  have h3 : NUL ≠ ')' := by decide
  have h4 : NUL ≠ '@' := by decide
  have h5 : NUL ≠ ':' := by decide
  have h6 := fmt_d_no_NUL (int_of_unsigned pid)
  have h7 := fmt_d_no_NUL line
  unfold metadata_text
  cases func with
  | none => simp [h1, h2, h3, h6, hs]
  | some f =>
    have h8 := hf f rfl
    cases theclass with
    | none => simp [h1, h2, h3, h4, h5, h6, h7, h8, hs, hn]
    | some c => simp [h1, h2, h3, h4, h5, h6, h7, h8, hs, hn, hc]

theorem metadata_text_length_ge (pid : Nat) (severity : List Char) (theclass func : Option (List Char))
    (class_name file_name : List Char) (line : Int) :
    5 ≤ (metadata_text pid severity theclass func class_name file_name line).length := by
  have h6 := fmt_d_length_pos (int_of_unsigned pid)
  unfold metadata_text
  cases func with
  | none => simp; omega
  | some f =>
    cases theclass with
    | none => simp; omega
    | some c => simp; omega

/-! ## The sinks -/

theorem file_sink_options (st : LoggerState) (env : Env) (text : List Char) :
    (file_sink st env text).1.logger_options_ = st.logger_options_ := by
  unfold file_sink
  split
  · split
    · split <;> rfl
    · rfl
    · split
      · rfl
      · split <;> rfl
  · rfl

theorem file_sink_syslog_open (st : LoggerState) (env : Env) (text : List Char) :
    (file_sink st env text).1.syslog_open = st.syslog_open := by
  unfold file_sink
  split
  · split
    · split <;> rfl
    · rfl
    · split
      · rfl
      · split <;> rfl
  · rfl

/-- The array the syslog part makes of an array holding the C string `s`: the first
`len` characters and the last one are gone. -/
theorem syslog_strip_eq (s r : List Char) (len : Nat) (hN : NUL ∉ s) (h : len < s.length) :
    ∃ r2, syslog_strip (s ++ NUL :: r) len
      = .ok ((s.drop len).take (s.length - len - 1) ++ NUL :: r2) := by
  unfold syslog_strip
  rw [strlen_append_NUL s r hN]
  simp only []
  rw [if_neg (by omega)]
  rw [List.drop_append_of_le_length (by omega)]
  rw [List.take_left' (by simp)]
  rw [List.set_append_left _ _ (by simp; omega)]
  rw [List.set_eq_take_append_cons_drop]
  rw [if_pos (by simp; omega)]
  exact ⟨_, by rw [List.append_assoc, List.cons_append]⟩

theorem syslog_sink_eq (st : LoggerState) (s r : List Char) (nseverity : Int)
    (format : List Char → List Char) (hN : NUL ∉ s)
    (h : syslog_strip_len st.logger_options_ < s.length) :
    syslog_sink st (s ++ NUL :: r) nseverity format
      = .ok (if has_option st.logger_options_ LOGGER_OPTION_SYSLOG then (logger_syslog_open_ st).1
          else st,
        if has_option st.logger_options_ LOGGER_OPTION_SYSLOG then
          (logger_syslog_open_ st).2 ++ [Event.syslog (syslog_priority nseverity)
            (format ((s.drop (syslog_strip_len st.logger_options_)).take
              (s.length - syslog_strip_len st.logger_options_ - 1)))]
        else []) := by
  unfold syslog_sink
  split
  · obtain ⟨r2, hr2⟩ := syslog_strip_eq s r _ hN h
    rw [hr2]
    simp only []
    rw [cstr_append_NUL _ _ (fun hm => hN (List.mem_of_mem_drop (List.mem_of_mem_take hm)))]
  · rfl

theorem rendered_no_NUL (st : LoggerState) (env : Env) (len : Nat) (severity : List Char)
    (theclass func : Option (List Char)) (fn : Option (List Char)) (line : Int)
    (hmd : NUL ∉ metadata_text (env.tid % 2 ^ 32) severity theclass func
      ((logger_stralpha theclass).getD []) (fn.getD []) line) :
    NUL ∉ rendered st env len severity theclass func fn line := by
  unfold rendered
  intro h
  have h2 := List.mem_of_mem_take h
  simp only [List.mem_append] at h2
  rcases h2 with h2 | h2
  · exact timestamp_text_no_NUL _ _ _ h2
  · exact hmd h2

theorem rendered_length_gt (st : LoggerState) (env : Env) (len : Nat) (severity : List Char)
    (theclass func : Option (List Char)) (fn : Option (List Char)) (line : Int)
    (hlen : 26 ≤ len) :
    syslog_strip_len st.logger_options_
      < (rendered st env len severity theclass func fn line).length := by
  have h1 := timestamp_text_length_ge st.logger_options_ env.TM (env.tv_usec / 1000)
  have h3 := metadata_text_length_ge (env.tid % 2 ^ 32) severity theclass func
      ((logger_stralpha theclass).getD []) (fn.getD []) line
  unfold rendered syslog_strip_len
  rw [List.length_take, List.length_append]
  by_cases hms : has_option st.logger_options_ LOGGER_OPTION_MILLISECONDS = true
  · have h2 := timestamp_text_length_ge_ms st.logger_options_ env.TM (env.tv_usec / 1000) hms
    rw [if_pos hms]
    omega
  · rw [if_neg hms]
    omega

/-- What `logger_msg_ex_` does when the file or the stderr sink is enabled, the array
has at least 26 bytes and the strings passed are C strings. -/
theorem logger_msg_ex_eq (st : LoggerState) (env : Env) (buff : List Char) (nseverity : Int)
    (severity : List Char) (theclass func file : Option (List Char)) (line : Int)
    (format : List Char → List Char) (fn : Option (List Char))
    (hopt : has_option st.logger_options_ (LOGGER_OPTION_FILE ||| LOGGER_OPTION_STDERR) = true)
    (hlen : 26 ≤ buff.length)
    (hstrip : logger_stripfile st.file_name_prefix file = .ok fn)
    (hmd : NUL ∉ metadata_text (env.tid % 2 ^ 32) severity theclass func
      ((logger_stralpha theclass).getD []) (fn.getD []) line) :
    logger_msg_ex_ st env buff nseverity severity theclass func file line format
      = .ok (
        if has_option st.logger_options_ LOGGER_OPTION_SYSLOG then
          (logger_syslog_open_ (file_sink st env
            (format (rendered st env buff.length severity theclass func fn line))).1).1
        else (file_sink st env (format (rendered st env buff.length severity theclass func fn line))).1,
        Event.lock :: (file_sink st env
            (format (rendered st env buff.length severity theclass func fn line))).2
          ++ stderr_sink st (format (rendered st env buff.length severity theclass func fn line))
          ++ [Event.unlock]
          ++ (if has_option st.logger_options_ LOGGER_OPTION_SYSLOG then
            (logger_syslog_open_ (file_sink st env
              (format (rendered st env buff.length severity theclass func fn line))).1).2
              ++ [Event.syslog (syslog_priority nseverity)
                (format (((rendered st env buff.length severity theclass func fn line).drop
                  (syslog_strip_len st.logger_options_)).take
                    ((rendered st env buff.length severity theclass func fn line).length
                      - syslog_strip_len st.logger_options_ - 1)))]
          else [])) := by
  have hN := rendered_no_NUL st env buff.length severity theclass func fn line hmd
  have hL := rendered_length_gt st env buff.length severity theclass func fn line hlen
  obtain ⟨r, hr⟩ := render_prefix_eq st env buff severity theclass func file line fn
    (by omega) hstrip hmd
  have hr2 : render_prefix st env buff severity theclass func file line
      = .ok (rendered st env buff.length severity theclass func fn line ++ NUL :: r) := hr
  unfold logger_msg_ex_
  rw [if_pos hopt, hr2]
  simp only []
  rw [cstr_append_NUL _ _ hN]
  rw [syslog_sink_eq _ _ _ _ _ hN (by rw [file_sink_options]; exact hL)]
  simp only [file_sink_options]

theorem file_sink_writes (st : LoggerState) (env : Env) (text : List Char)
    (hf : has_option st.logger_options_ LOGGER_OPTION_FILE = true)
    (hr : (st.fp.isSome || (st.log_file.isSome && env.fopen_result.isSome)) = true) :
    writes_output (file_sink st env text).2 = true := by
  unfold file_sink
  rw [if_pos hf]
  cases hfp : st.fp with
  | some h =>
    simp only []
    split <;> simp [writes_output]
  | none =>
    rw [hfp] at hr
    cases hlf : st.log_file with
    | none => rw [hlf] at hr; simp at hr
    | some path =>
      rw [hlf] at hr
      cases hfo : env.fopen_result with
      | none => rw [hfo] at hr; simp at hr
      | some h =>
        simp only []
        split <;> simp [writes_output]

theorem writes_output_append (a b : List Event) :
    writes_output (a ++ b) = (writes_output a || writes_output b) := by
  unfold writes_output
  rw [List.any_append]

/-- A call of `logger_msg_ex_` without type, function and file returns normally, and it
writes when a sink is ready. -/
theorem plain_call_writes (st : LoggerState) (env : Env) (buff : List Char) (nseverity : Int)
    (severity : List Char) (format : List Char → List Char)
    (hlen : 26 ≤ buff.length) (hsev : NUL ∉ severity) (hsink : sink_ready st env = true) :
    ∃ st2 evs, logger_msg_ex_ st env buff nseverity severity none none none 0 format = .ok (st2, evs)
      ∧ writes_output evs = true := by
  have hmd : NUL ∉ metadata_text (env.tid % 2 ^ 32) severity none none
      ((logger_stralpha none).getD []) ((none : Option (List Char)).getD []) 0 :=
    metadata_text_no_NUL _ _ _ _ _ _ _ hsev (by simp [logger_stralpha]) (by simp) (by simp)
  have hopt : has_option st.logger_options_ (LOGGER_OPTION_FILE ||| LOGGER_OPTION_STDERR) = true := by
    rw [has_option_or]
    unfold sink_ready at hsink
    simp only [Bool.or_eq_true, Bool.and_eq_true] at hsink ⊢
    rcases hsink with h | h
    · exact Or.inr h
    · exact Or.inl h.1
  refine ⟨_, _, logger_msg_ex_eq st env buff nseverity severity none none none 0 format none
    hopt hlen rfl hmd, ?_⟩
  simp only [writes_output_append, Bool.or_eq_true]
  unfold sink_ready at hsink
  simp only [Bool.or_eq_true, Bool.and_eq_true] at hsink
  rcases hsink with h | h
  · left; left; right
    unfold stderr_sink
    rw [if_pos h]
    rfl
  · left; left; left
    have := file_sink_writes st env
      (format (rendered st env buff.length severity none none none 0)) h.1 (by simpa using h.2)
    simpa [writes_output] using this

/-! ## Zero-padded fields -/

/-- The `w` low decimal digits of `n`, most significant first. -/
theorem pad_digits (w : Nat) : ∀ n, n < 10 ^ (w + 1) →
    List.replicate (w + 1 - (Nat.toDigits 10 n).length) '0' ++ Nat.toDigits 10 n
      = (List.range (w + 1)).reverse.map (fun i => digit (n / 10 ^ i)) := by
  induction w with
  | zero =>
    intro n hn
    have hn2 : n < 10 := by simpa using hn
    rw [toDigits_lt n hn2, digitChar_eq n hn2]
    simp [digit, Nat.mod_eq_of_lt hn2, List.range_succ]
  | succ w ih =>
    intro n hn
    have hdiv : n / 10 < 10 ^ (w + 1) := by
      rw [Nat.div_lt_iff_lt_mul (by decide)]
      calc n < 10 ^ (w + 1 + 1) := hn
        _ = 10 ^ (w + 1) * 10 := by rw [Nat.pow_succ]
    have hrec := ih (n / 10) hdiv
    have hrange : (List.range (w + 1 + 1)).reverse.map (fun i => digit (n / 10 ^ i))
        = (List.range (w + 1)).reverse.map (fun i => digit (n / 10 / 10 ^ i)) ++ [digit n] := by
      rw [List.range_succ_eq_map, List.reverse_cons, List.map_append, ← List.map_reverse,
        List.map_map]
      simp only [List.map_cons, List.map_nil, Nat.pow_zero, Nat.div_one]
      congr 1
      apply List.map_congr_left
      intro i _
      simp only [Function.comp, Nat.pow_succ, Nat.div_div_eq_div_mul]
      rw [Nat.mul_comm]
    rw [hrange, ← hrec]
    by_cases h10 : n < 10
    · have hz : n / 10 = 0 := by omega
      rw [toDigits_lt n h10, hz, toDigits_lt 0 (by decide), digitChar_eq n h10]
      have hd : digit n = Char.ofNat (48 + n) := by simp [digit, Nat.mod_eq_of_lt h10]
      rw [hd]
      have hr : List.replicate (w + 1 + 1 - [Char.ofNat (48 + n)].length) '0'
          = List.replicate (w + 1 - [Nat.digitChar 0].length) '0' ++ [Nat.digitChar 0] := by
        simp only [List.length_singleton, Nat.add_sub_cancel]
        rw [show Nat.digitChar 0 = '0' from rfl, ← List.replicate_succ']
      rw [hr]
    · rw [toDigits_ge n (by omega), digitChar_eq _ (Nat.mod_lt _ (by decide))]
      have hd : digit n = Char.ofNat (48 + n % 10) := rfl
      rw [hd, List.length_append, List.length_singleton, Nat.add_sub_add_right,
        List.append_assoc]

theorem fmt_0d_two (x : Int) (h0 : 0 ≤ x) (h1 : x < 100) : fmt_0d 2 x = two_digits x.toNat := by
  obtain ⟨n, rfl⟩ := Int.eq_ofNat_of_zero_le h0
  have hn : n < 10 ^ (1 + 1) := by norm_num; omega
  have := pad_digits 1 n hn
  unfold fmt_0d
  rw [if_neg (by omega)]
  simp only [Int.natAbs_ofNat, Int.toNat_ofNat]
  rw [this]
  simp [two_digits, List.range_succ]

theorem fmt_0d_three (x : Int) (h0 : 0 ≤ x) (h1 : x < 1000) :
    fmt_0d 3 x = three_digits x.toNat := by
  obtain ⟨n, rfl⟩ := Int.eq_ofNat_of_zero_le h0
  have hn : n < 10 ^ (2 + 1) := by norm_num; omega
  have := pad_digits 2 n hn
  unfold fmt_0d
  rw [if_neg (by omega)]
  simp only [Int.natAbs_ofNat, Int.toNat_ofNat]
  rw [this]
  simp [three_digits, List.range_succ]

theorem fmt_0d_four (x : Int) (h0 : 0 ≤ x) (h1 : x < 10000) :
    fmt_0d 4 x = four_digits x.toNat := by
  obtain ⟨n, rfl⟩ := Int.eq_ofNat_of_zero_le h0
  have hn : n < 10 ^ (3 + 1) := by norm_num; omega
  have := pad_digits 3 n hn
  unfold fmt_0d
  rw [if_neg (by omega)]
  simp only [Int.natAbs_ofNat, Int.toNat_ofNat]
  rw [this]
  simp [four_digits, List.range_succ]

theorem spec_timestamp_length (ms : Bool) (y mo d h mi s u : Nat) :
    (spec_timestamp ms y mo d h mi s u).length = if ms then 23 else 19 := by
  cases ms <;> simp [spec_timestamp, four_digits, two_digits, three_digits]

theorem int_of_unsigned_small (u : Nat) (h : u < 2 ^ 31) : int_of_unsigned u = (u : Int) := by
  unfold int_of_unsigned
  have h2 : u % 2 ^ 32 = u := Nat.mod_eq_of_lt (by omega)
  rw [h2, if_pos h]

/-- The text of the format of `make_timestamp` is the fixed-width text of the
specification when every field is in its calendar range. -/
theorem timestamp_text_eq_spec (options : Nat) (env : Env)
    (hyear : 0 ≤ env.TM.tm_year + 1900 ∧ env.TM.tm_year + 1900 ≤ 9999)
    (hmon : 0 ≤ env.TM.tm_mon ∧ env.TM.tm_mon ≤ 11)
    (hday : 1 ≤ env.TM.tm_mday ∧ env.TM.tm_mday ≤ 31)
    (hhour : 0 ≤ env.TM.tm_hour ∧ env.TM.tm_hour ≤ 23)
    (hmin : 0 ≤ env.TM.tm_min ∧ env.TM.tm_min ≤ 59)
    (hsec : 0 ≤ env.TM.tm_sec ∧ env.TM.tm_sec ≤ 60)
    (husec : env.tv_usec ≤ 999999) :
    timestamp_text options env.TM (env.tv_usec / 1000)
      = spec_timestamp (has_option options LOGGER_OPTION_MILLISECONDS)
          (env.TM.tm_year + 1900).toNat (env.TM.tm_mon + 1).toNat env.TM.tm_mday.toNat
          env.TM.tm_hour.toNat env.TM.tm_min.toNat env.TM.tm_sec.toNat env.tv_usec := by
  have hms : env.tv_usec / 1000 < 1000 := by omega
  have e1 := fmt_0d_four (env.TM.tm_year + 1900) hyear.1 (by omega)
  have e2 := fmt_0d_two (env.TM.tm_mon + 1) (by omega) (by omega)
  have e3 := fmt_0d_two env.TM.tm_mday (by omega) (by omega)
  have e4 := fmt_0d_two env.TM.tm_hour (by omega) (by omega)
  have e5 := fmt_0d_two env.TM.tm_min (by omega) (by omega)
  have e6 := fmt_0d_two env.TM.tm_sec (by omega) (by omega)
  have e7 : fmt_0d 3 (int_of_unsigned (env.tv_usec / 1000)) = three_digits (env.tv_usec / 1000) := by
    rw [int_of_unsigned_small _ (by omega), fmt_0d_three _ (by omega) (by omega)]
    rfl
  unfold timestamp_text spec_timestamp
  rw [e1, e2, e3, e4, e5, e6, e7]
  cases has_option options LOGGER_OPTION_MILLISECONDS <;> simp

/-! ## Lengths of printed integers -/

theorem toDigits_length_int (x : Int) (h : int_range x) : (Nat.toDigits 10 x.natAbs).length ≤ 10 := by
  apply toDigits_length_le _ 10 (by decide)
  unfold int_range at h
  have : x.natAbs ≤ 2 ^ 31 := by omega
  have h2 : (2 : Nat) ^ 31 < 10 ^ 10 := by norm_num
  omega

theorem fmt_0d_length_le (w : Nat) (x : Int) (h : int_range x) (hw : w ≤ 11) :
    (fmt_0d w x).length ≤ 11 := by
  have := toDigits_length_int x h
  unfold fmt_0d
  split
  · simp only [List.length_cons, List.length_append, List.length_replicate]; omega
  · simp only [List.length_append, List.length_replicate]; omega

theorem int_of_unsigned_range (u : Nat) : int_range (int_of_unsigned u) := by
  unfold int_range int_of_unsigned
  have := Nat.mod_lt u (show 0 < 2 ^ 32 by norm_num)
  split <;> omega

theorem timestamp_text_length_le (options : Nat) (TM : Tm) (ms : Nat) (h : tm_in_range TM) :
    (timestamp_text options TM ms).length ≤ 83 := by
  obtain ⟨_, hy, _, hm, hd, hh, hmi, hs⟩ := h
  have a := fmt_0d_length_le 4 _ hy (by decide)
  have b := fmt_0d_length_le 2 _ hm (by decide)
  have c := fmt_0d_length_le 2 _ hd (by decide)
  have d := fmt_0d_length_le 2 _ hh (by decide)
  have e := fmt_0d_length_le 2 _ hmi (by decide)
  have f := fmt_0d_length_le 2 _ hs (by decide)
  have g := fmt_0d_length_le 3 _ (int_of_unsigned_range ms) (by decide)
  unfold timestamp_text
  split
  · simp only [List.length_append, List.length_cons]; omega
  · simp only [List.length_append, List.length_cons]; omega

/-! ## The sinks, by kind of write -/

theorem file_writes_append (a b : List Event) :
    file_writes (a ++ b) = file_writes a ++ file_writes b := by
  unfold file_writes
  rw [List.filterMap_append]

theorem syslog_writes_append (a b : List Event) :
    syslog_writes (a ++ b) = syslog_writes a ++ syslog_writes b := by
  unfold syslog_writes
  rw [List.filterMap_append]

theorem file_writes_lock (l : List Event) : file_writes (Event.lock :: l) = file_writes l := rfl

theorem syslog_writes_lock (l : List Event) :
    syslog_writes (Event.lock :: l) = syslog_writes l := rfl

theorem file_writes_stderr_sink (st : LoggerState) (text : List Char) :
    file_writes (stderr_sink st text) = [] := by
  unfold stderr_sink
  split <;> rfl

theorem syslog_writes_stderr_sink (st : LoggerState) (text : List Char) :
    syslog_writes (stderr_sink st text) = [] := by
  unfold stderr_sink
  split <;> rfl

theorem syslog_writes_file_sink (st : LoggerState) (env : Env) (text : List Char) :
    syslog_writes (file_sink st env text).2 = [] := by
  unfold file_sink
  split
  · split
    · split <;> split <;> rfl
    · rfl
    · split
      · rfl
      · split <;> split <;> rfl
  · rfl

/-- With the file sink enabled and the file open or openable, the file sink makes one
write, of the whole text. -/
theorem file_writes_file_sink (st : LoggerState) (env : Env) (text : List Char)
    (hf : has_option st.logger_options_ LOGGER_OPTION_FILE = true)
    (hr : (st.fp.isSome || (st.log_file.isSome && env.fopen_result.isSome)) = true) :
    file_writes (file_sink st env text).2 = [text] := by
  unfold file_sink
  rw [if_pos hf]
  cases hfp : st.fp with
  | some h =>
    simp only []
    split <;> split <;> rfl
  | none =>
    rw [hfp] at hr
    cases hlf : st.log_file with
    | none => rw [hlf] at hr; simp at hr
    | some path =>
      rw [hlf] at hr
      cases hfo : env.fopen_result with
      | none => rw [hfo] at hr; simp at hr
      | some h =>
        simp only []
        split <;> split <;> rfl

theorem stderr_writes_append (a b : List Event) :
    stderr_writes (a ++ b) = stderr_writes a ++ stderr_writes b := by
  unfold stderr_writes
  rw [List.filterMap_append]

theorem stderr_writes_lock (l : List Event) :
    stderr_writes (Event.lock :: l) = stderr_writes l := rfl

theorem stderr_writes_file_sink (st : LoggerState) (env : Env) (text : List Char) :
    stderr_writes (file_sink st env text).2 = [] := by
  unfold file_sink
  split
  · split
    · split <;> split <;> rfl
    · rfl
    · split
      · rfl
      · split <;> split <;> rfl
  · rfl

theorem stderr_writes_syslog_open (st : LoggerState) :
    stderr_writes (logger_syslog_open_ st).2 = [] := by
  unfold logger_syslog_open_
  split <;> rfl

theorem sample_buffer_length : sample_buffer.length = 512 :=
  List.length_replicate 512 'x'

/-! ## strrchr and the prefix of logger_open_ex -/

theorem strrchr_none (s : List Char) (c : Char) (h : c ∉ s) : strrchr s c = none := by
  induction s with
  | nil => rfl
  | cons x xs ih =>
    simp only [List.mem_cons, not_or] at h
    unfold strrchr
    rw [ih h.2]
    simp only []
    rw [if_neg (fun e => h.1 e.symm)]

theorem strrchr_append_of_not_mem (d r : List Char) (c : Char) (h : c ∉ r) :
    strrchr (d ++ r) c = strrchr d c := by
  induction d with
  | nil => rw [List.nil_append, strrchr_none r c h]; rfl
  | cons x xs ih =>
    rw [List.cons_append]
    unfold strrchr
    rw [ih]

theorem strrchr_lt (s : List Char) (c : Char) (i : Nat) (h : strrchr s c = some i) :
    i < s.length := by
  induction s generalizing i with
  | nil => simp [strrchr] at h
  | cons x xs ih =>
    unfold strrchr at h
    cases hr : strrchr xs c with
    | some j =>
      rw [hr] at h
      simp only [Option.some.injEq] at h
      have := ih j hr
      simp only [List.length_cons]
      omega
    | none =>
      rw [hr] at h
      simp only [] at h
      split at h
      · simp only [Option.some.injEq] at h
        simp only [List.length_cons]
        omega
      · simp at h

theorem strrchr_last (d post : List Char) (c : Char) (h : c ∉ post) :
    strrchr (d ++ c :: post) c = some d.length := by
  induction d with
  | nil =>
    rw [List.nil_append]
    unfold strrchr
    rw [strrchr_none post c h]
    simp
  | cons x xs ih =>
    rw [List.cons_append]
    unfold strrchr
    rw [ih]
    rfl

/-- The array `logger_open_ex` makes of the copy of an init-site whose last separator is
`sep`: a `NUL` is stored right after that separator. -/
theorem cut_at_separator_eq (d post : List Char) (sep : Char)
    (hsep : sep = '/' ∨ sep = '\\') (h1 : '/' ∉ post) (h2 : '\\' ∉ post)
    (hNd : NUL ∉ d) (hNp : NUL ∉ post) :
    cut_at_separator (d ++ sep :: post ++ [NUL])
      = .ok (d ++ [sep] ++ NUL :: (post ++ [NUL]).tail) := by
  have hsepN : NUL ≠ sep := by rcases hsep with rfl | rfl <;> decide
  have hN : NUL ∉ d ++ sep :: post := by
    simp only [List.mem_append, List.mem_cons, not_or]
    exact ⟨hNd, hsepN, hNp⟩
  have hc : cstr (d ++ sep :: post ++ [NUL]) = d ++ sep :: post := cstr_append_NUL _ [] hN
  have hset : (d ++ sep :: post ++ [NUL]).set (d.length + 1) NUL
      = d ++ [sep] ++ NUL :: (post ++ [NUL]).tail := by
    have e : d ++ sep :: post ++ [NUL] = (d ++ [sep]) ++ (post ++ [NUL]) := by simp
    rw [e, List.set_append_right _ _ (by simp)]
    have e2 : d.length + 1 - (d ++ [sep]).length = 0 := by simp
    rw [e2]
    cases post <;> rfl
  unfold cut_at_separator
  rw [hc]
  rcases hsep with rfl | rfl
  · rw [strrchr_last d post '/' h1]
    have hp2 : strrchr (d ++ '/' :: post) '\\' = strrchr d '\\' :=
      strrchr_append_of_not_mem d ('/' :: post) '\\' (by
        simp only [List.mem_cons, not_or]
        exact ⟨by decide, h2⟩)
    rw [hp2]
    cases hd : strrchr d '\\' with
    | none => simp only []; rw [hset]
    | some i =>
      have := strrchr_lt d '\\' i hd
      simp only []
      rw [if_pos (by omega), hset]
  · rw [strrchr_last d post '\\' h2]
    have hp1 : strrchr (d ++ '\\' :: post) '/' = strrchr d '/' :=
      strrchr_append_of_not_mem d ('\\' :: post) '/' (by
        simp only [List.mem_cons, not_or]
        exact ⟨by decide, h1⟩)
    rw [hp1]
    cases hd : strrchr d '/' with
    | none => simp only []; rw [hset]
    | some i =>
      have := strrchr_lt d '/' i hd
      simp only []
      rw [if_neg (by omega), hset]

/-- A string with a separator splits at its last separator. -/
theorem exists_last_separator (file : List Char)
    (h : '/' ∈ file ∨ '\\' ∈ file) :
    ∃ d sep post, file = d ++ sep :: post ∧ (sep = '/' ∨ sep = '\\')
      ∧ '/' ∉ post ∧ '\\' ∉ post := by
  induction file with
  | nil => simp at h
  | cons x xs ih =>
    by_cases hx : '/' ∈ xs ∨ '\\' ∈ xs
    · obtain ⟨d, sep, post, e, hs, h1, h2⟩ := ih hx
      exact ⟨x :: d, sep, post, by rw [e]; rfl, hs, h1, h2⟩
    · simp only [not_or] at hx
      refine ⟨[], x, xs, rfl, ?_, hx.1, hx.2⟩
      simp only [List.mem_cons] at h
      rcases h with h | h
      · rcases h with h | h
        · exact Or.inl h.symm
        · exact absurd h hx.1
      · rcases h with h | h
        · exact Or.inr h.symm
        · exact absurd h hx.2

/-- The state and the effects of `logger_open_ex` once the prefix array is `pfx`. -/
theorem logger_open_ex_of_cut (st : LoggerState) (env : Env) (path : List Char) (options : Nat)
    (file pfx : List Char) (hdup : env.strdup_ok = true)
    (hcut : cut_at_separator (file ++ [NUL]) = .ok pfx) :
    ∃ st2 evs, logger_open_ex st env (some path) options file = .ok (st2, evs)
      ∧ st2.file_name_prefix = some pfx := by
  have hso : ∀ s : LoggerState, LoggerState.file_name_prefix (logger_syslog_open_ s).1
      = s.file_name_prefix := by
    intro s
    unfold logger_syslog_open_
    split <;> rfl
  unfold logger_open_ex open_file_eagerly
  rw [hdup, if_pos rfl, hcut]
  by_cases hk : has_option options LOGGER_OPTION_KEEP_FILE_OPEN = true
  · by_cases hf : has_option options LOGGER_OPTION_FILE = true
    · by_cases hs : has_option options LOGGER_OPTION_SYSLOG = true
      · simp only [Except.map, hk, hf, hs, if_true]
        exact ⟨_, _, rfl, by rw [hso]⟩
      · simp only [Except.map, hk, hf, hs, if_true, if_false]
        exact ⟨_, _, rfl, rfl⟩
    · by_cases hs : has_option options LOGGER_OPTION_SYSLOG = true
      · simp only [Except.map, hk, hf, hs, if_true, if_false]
        exact ⟨_, _, rfl, by rw [hso]⟩
      · simp only [Except.map, hk, hf, hs, if_true, if_false]
        exact ⟨_, _, rfl, rfl⟩
  · simp only [Except.map, hk, if_false]
    exact ⟨_, _, rfl, rfl⟩

/-! ## logger_stripfile -/

theorem stripfile_loop_common (c p f : List Char) :
    stripfile_loop (c ++ p) (c ++ f) = stripfile_loop p f := by
  induction c with
  | nil => rfl
  | cons x xs ih =>
    simp only [List.cons_append]
    rw [stripfile_loop, if_pos rfl, ih]

theorem stralpha_loop_no_NUL (name : List Char) (h : NUL ∉ name) :
    ∀ rest, NUL ∉ rest → NUL ∉ stralpha_loop name rest := by
  intro rest
  induction rest with
  | nil => intro _; exact h
  | cons c cs ih =>
    intro hr
    simp only [List.mem_cons, not_or] at hr
    unfold stralpha_loop
    split
    · exact ih hr.2
    · simp only [List.mem_cons, not_or]
      exact hr

theorem logger_stripfile_no_NUL (p file fn : Option (List Char))
    (h : logger_stripfile p file = .ok fn) : NUL ∉ fn.getD [] := by
  unfold logger_stripfile at h
  cases file with
  | none =>
    simp only [Except.ok.injEq] at h
    rw [← h]
    simp
  | some f =>
    cases p with
    | none => simp at h
    | some pb =>
      simp only [] at h
      split at h
      · simp at h
      · simp only [Except.ok.injEq] at h
        rw [← h]
        exact cstr_no_NUL _

set_option maxRecDepth 100000

/-! ## The claims -/

/-- C1: after `logger_set_log_level(T)`, each of `log_error`, `log_warn` and `log_info`
calls `logger_msg_ex_` exactly when the rank of its severity (1, 2, 3) is at most `T`; and
when a sink is ready (stderr enabled, or the file enabled and open or openable) the entry
point returns normally and writes output exactly when that rank is at most `T`. -/
theorem severity_threshold_gate (st : LoggerState) (T : Nat) (env : Env) (buff m : List Char)
    (hbuf : buff.length = 512) (hsink : sink_ready st env = true) :
    ((log_error (logger_set_log_level st T) m).isSome = true ↔ LOGGER_LEVEL_ERROR ≤ T)
    ∧ ((log_warn (logger_set_log_level st T) m).isSome = true ↔ LOGGER_LEVEL_WARN ≤ T)
    ∧ ((log_info (logger_set_log_level st T) m).isSome = true ↔ LOGGER_LEVEL_INFO ≤ T)
    ∧ (∃ st2 evs, run_call (logger_set_log_level st T) env buff
          (log_error (logger_set_log_level st T) m) = .ok (st2, evs)
        ∧ (writes_output evs = true ↔ LOGGER_LEVEL_ERROR ≤ T))
    ∧ (∃ st2 evs, run_call (logger_set_log_level st T) env buff
          (log_warn (logger_set_log_level st T) m) = .ok (st2, evs)
        ∧ (writes_output evs = true ↔ LOGGER_LEVEL_WARN ≤ T))
    ∧ (∃ st2 evs, run_call (logger_set_log_level st T) env buff
          (log_info (logger_set_log_level st T) m) = .ok (st2, evs)
        ∧ (writes_output evs = true ↔ LOGGER_LEVEL_INFO ≤ T)) := by
  have hsink2 : sink_ready (logger_set_log_level st T) env = true := hsink
  have hlen : 26 ≤ buff.length := by omega
  refine ⟨?_, ?_, ?_, ?_, ?_, ?_⟩
  · unfold log_error logger_is_error logger_set_log_level
    by_cases h : LOGGER_LEVEL_ERROR ≤ T <;> simp [h]
  · unfold log_warn logger_is_warn logger_set_log_level
    by_cases h : LOGGER_LEVEL_WARN ≤ T <;> simp [h]
  · unfold log_info logger_is_info logger_set_log_level
    by_cases h : LOGGER_LEVEL_INFO ≤ T <;> simp [h]
  · by_cases h : LOGGER_LEVEL_ERROR ≤ T
    · have hc : log_error (logger_set_log_level st T) m
          = some ⟨1, "[ERROR]".toList, none, none, none, 0, line_format m⟩ := by
        unfold log_error logger_is_error logger_set_log_level
        simp [h]
      obtain ⟨st2, evs, h1, h2⟩ := plain_call_writes (logger_set_log_level st T) env buff 1
        "[ERROR]".toList (line_format m) hlen (by decide) hsink2
      exact ⟨st2, evs, by rw [hc]; exact h1, by simp [h2, h]⟩
    · have hc : log_error (logger_set_log_level st T) m = none := by
        unfold log_error logger_is_error logger_set_log_level
        simp [h]
      exact ⟨_, [], by rw [hc]; rfl, by simp [writes_output, h]⟩
  · by_cases h : LOGGER_LEVEL_WARN ≤ T
    · have hc : log_warn (logger_set_log_level st T) m
          = some ⟨2, "[WARN]".toList, none, none, none, 0, line_format m⟩ := by
        unfold log_warn logger_is_warn logger_set_log_level
        simp [h]
      obtain ⟨st2, evs, h1, h2⟩ := plain_call_writes (logger_set_log_level st T) env buff 2
        "[WARN]".toList (line_format m) hlen (by decide) hsink2
      exact ⟨st2, evs, by rw [hc]; exact h1, by simp [h2, h]⟩
    · have hc : log_warn (logger_set_log_level st T) m = none := by
        unfold log_warn logger_is_warn logger_set_log_level
        simp [h]
      exact ⟨_, [], by rw [hc]; rfl, by simp [writes_output, h]⟩
  · by_cases h : LOGGER_LEVEL_INFO ≤ T
    · have hc : log_info (logger_set_log_level st T) m
          = some ⟨2, "[INFO]".toList, none, none, none, 0, line_format m⟩ := by
        unfold log_info logger_is_info logger_set_log_level
        simp [h]
      obtain ⟨st2, evs, h1, h2⟩ := plain_call_writes (logger_set_log_level st T) env buff 2
        "[INFO]".toList (line_format m) hlen (by decide) hsink2
      exact ⟨st2, evs, by rw [hc]; exact h1, by simp [h2, h]⟩
    · have hc : log_info (logger_set_log_level st T) m = none := by
        unfold log_info logger_is_info logger_set_log_level
        simp [h]
      exact ⟨_, [], by rw [hc]; rfl, by simp [writes_output, h]⟩

theorem severity_threshold_gate_witness :
    sample_buffer.length = 512 ∧ sink_ready stderr_state sample_env = true
    ∧ (∃ st2 evs, run_call (logger_set_log_level stderr_state LOGGER_LEVEL_ERROR) sample_env
          sample_buffer (log_warn (logger_set_log_level stderr_state LOGGER_LEVEL_ERROR)
            "disk almost full".toList) = .ok (st2, evs)
        ∧ (writes_output evs = true ↔ LOGGER_LEVEL_WARN ≤ LOGGER_LEVEL_ERROR)) :=
  ⟨sample_buffer_length, by decide,
    (severity_threshold_gate stderr_state LOGGER_LEVEL_ERROR sample_env sample_buffer
      "disk almost full".toList sample_buffer_length (by decide)).2.2.2.2.1⟩

/-- C2: whatever the threshold, the debug mask and the trace mask are, `log_fatal` calls
`logger_msg_ex_`; with the stderr sink enabled the call returns normally and makes exactly
one write to stderr, the rendered prefix followed by a space, the message and a newline. -/
theorem fatal_never_filtered (st : LoggerState) (T M Mt : Nat) (env : Env) (buff m : List Char)
    (hbuf : buff.length = 512)
    (hstderr : has_option st.logger_options_ LOGGER_OPTION_STDERR = true) :
    (log_fatal (logger_set_trace_mask (logger_set_debug_mask (logger_set_log_level st T) M) Mt)
        m).isSome = true
    ∧ ∃ st2 evs,
      run_call (logger_set_trace_mask (logger_set_debug_mask (logger_set_log_level st T) M) Mt)
          env buff
          (log_fatal (logger_set_trace_mask (logger_set_debug_mask (logger_set_log_level st T) M) Mt)
            m) = .ok (st2, evs)
      ∧ stderr_writes evs
        = [rendered st env 512 "[FATAL]".toList none none none 0 ++ ' ' :: m ++ ['\n']] := by
  refine ⟨rfl, ?_⟩
  have hopt : has_option st.logger_options_ (LOGGER_OPTION_FILE ||| LOGGER_OPTION_STDERR) = true := by
    rw [has_option_or, hstderr, Bool.or_true]
  have hmd : NUL ∉ metadata_text (env.tid % 2 ^ 32) "[FATAL]".toList none none
      ((logger_stralpha none).getD []) ((none : Option (List Char)).getD []) 0 :=
    metadata_text_no_NUL _ _ _ _ _ _ _ (by decide) (by simp [logger_stralpha]) (by simp) (by simp)
  refine ⟨_, _, logger_msg_ex_eq
    (logger_set_trace_mask (logger_set_debug_mask (logger_set_log_level st T) M) Mt) env buff 0
    "[FATAL]".toList none none none 0 (line_format m) none hopt (by omega) rfl hmd, ?_⟩
  rw [hbuf]
  have h1 : stderr_sink (logger_set_trace_mask (logger_set_debug_mask (logger_set_log_level st T) M) Mt)
      (line_format m (rendered (logger_set_trace_mask (logger_set_debug_mask
        (logger_set_log_level st T) M) Mt) env 512 "[FATAL]".toList none none none 0))
      = [Event.stderr_write (rendered st env 512 "[FATAL]".toList none none none 0
          ++ ' ' :: m ++ ['\n'])] := by
    have hs : has_option (logger_set_trace_mask (logger_set_debug_mask
        (logger_set_log_level st T) M) Mt).logger_options_ LOGGER_OPTION_STDERR = true := hstderr
    unfold stderr_sink
    rw [if_pos hs]
    rfl
  rw [h1]
  simp only [stderr_writes_append, stderr_writes_lock, stderr_writes_file_sink, List.nil_append]
  split
  · rw [stderr_writes_append, stderr_writes_syslog_open]
    rfl
  · rfl

theorem fatal_never_filtered_witness :
    sample_buffer.length = 512
    ∧ has_option stderr_state.logger_options_ LOGGER_OPTION_STDERR = true
    ∧ ∃ st2 evs,
      run_call (logger_set_trace_mask (logger_set_debug_mask (logger_set_log_level stderr_state 0)
          0) 0) sample_env sample_buffer
          (log_fatal (logger_set_trace_mask (logger_set_debug_mask
            (logger_set_log_level stderr_state 0) 0) 0) "out of memory".toList) = .ok (st2, evs)
      ∧ stderr_writes evs
        = [rendered stderr_state sample_env 512 "[FATAL]".toList none none none 0
            ++ ' ' :: "out of memory".toList ++ ['\n']] :=
  ⟨sample_buffer_length, by decide,
    (fatal_never_filtered stderr_state 0 0 0 sample_env sample_buffer "out of memory".toList
      sample_buffer_length (by decide)).2⟩

/-- C3 (as stated, refuted): with feature 1, debug mask 1 and threshold DEBUG, a
`log_debug` call makes no call of `logger_msg_ex_` when only the syslog sink is enabled,
and none when the static mask lacks the feature bit; the same holds for
`log_condtrace_enter` at threshold TRACE. -/
theorem feature_gate_counterexample :
    ¬ ((log_debug 0xFFFFFFFF
          { initial_state with logger_log_level_ := LOGGER_LEVEL_DEBUG, logger_debug_mask_ := 1,
                               logger_options_ := LOGGER_OPTION_SYSLOG }
          1 "CSVDEBUG".toList ⟨"main".toList, "main.c".toList, 40⟩ "value".toList).isSome = true
        ↔ (1 &&& 1 ≠ 0 ∧ LOGGER_LEVEL_DEBUG ≥ LOGGER_LEVEL_DEBUG))
    ∧ ¬ ((log_debug 2
          { initial_state with logger_log_level_ := LOGGER_LEVEL_DEBUG, logger_debug_mask_ := 1 }
          1 "CSVDEBUG".toList ⟨"main".toList, "main.c".toList, 40⟩ "value".toList).isSome = true
        ↔ (1 &&& 1 ≠ 0 ∧ LOGGER_LEVEL_DEBUG ≥ LOGGER_LEVEL_DEBUG))
    ∧ ¬ ((log_condtrace_enter 0xFFFFFFFF
          { initial_state with logger_log_level_ := LOGGER_LEVEL_TRACE, logger_trace_mask_ := 1,
                               logger_options_ := LOGGER_OPTION_SYSLOG }
          1 ⟨"main".toList, "main.c".toList, 40⟩ "args".toList).isSome = true
        ↔ (1 &&& 1 ≠ 0 ∧ LOGGER_LEVEL_TRACE ≥ LOGGER_LEVEL_TRACE)) := by
  decide

/-- C3 (amended): a `log_debug(F, ...)` call calls `logger_msg_ex_` exactly when F has a
bit of `DEBUG_STATIC_MASK`, the threshold is at least DEBUG, F has a bit of the debug
mask, and the file or the stderr sink is enabled; `log_condtrace_enter` and
`log_condtrace_exit` likewise with `TRACE_STATIC_MASK`, TRACE and the trace mask. -/
theorem feature_gate (dmask tmask : Nat) (st : LoggerState) (F : Nat) (feature_text : List Char)
    (site : Site) (m : List Char) :
    ((log_debug dmask st F feature_text site m).isSome = true
      ↔ (F &&& dmask ≠ 0 ∧ st.logger_log_level_ ≥ LOGGER_LEVEL_DEBUG
        ∧ F &&& st.logger_debug_mask_ ≠ 0
        ∧ (has_option st.logger_options_ LOGGER_OPTION_FILE = true
          ∨ has_option st.logger_options_ LOGGER_OPTION_STDERR = true)))
    ∧ ((log_condtrace_enter tmask st F site m).isSome = true
      ↔ (F &&& tmask ≠ 0 ∧ st.logger_log_level_ ≥ LOGGER_LEVEL_TRACE
        ∧ F &&& st.logger_trace_mask_ ≠ 0
        ∧ (has_option st.logger_options_ LOGGER_OPTION_FILE = true
          ∨ has_option st.logger_options_ LOGGER_OPTION_STDERR = true)))
    ∧ ((log_condtrace_exit tmask st F site m).isSome = true
      ↔ (F &&& tmask ≠ 0 ∧ st.logger_log_level_ ≥ LOGGER_LEVEL_TRACE
        ∧ F &&& st.logger_trace_mask_ ≠ 0
        ∧ (has_option st.logger_options_ LOGGER_OPTION_FILE = true
          ∨ has_option st.logger_options_ LOGGER_OPTION_STDERR = true))) := by
  refine ⟨?_, ?_, ?_⟩
  · unfold log_debug logger_is_debug logger_is_debug_feature
    rw [has_option_or, Nat.land_comm st.logger_debug_mask_ F]
    split <;> rename_i h
    · simpa [and_assoc] using h
    · simpa [and_assoc] using h
  · unfold log_condtrace_enter logger_is_trace logger_is_trace_feature
    rw [has_option_or, Nat.land_comm st.logger_trace_mask_ F]
    split <;> rename_i h
    · simpa [and_assoc] using h
    · simpa [and_assoc] using h
  · unfold log_condtrace_exit logger_is_trace logger_is_trace_feature
    rw [has_option_or, Nat.land_comm st.logger_trace_mask_ F]
    split <;> rename_i h
    · simpa [and_assoc] using h
    · simpa [and_assoc] using h

/-- C4: an active `log_info` call with the file and stderr sinks enabled, syslog disabled
and the file open or openable returns normally; it makes one write to the file and one
to stderr, both of the text timestamp, ` (`, the decimal thread id, `) [INFO] `, the
message and a newline, where the timestamp is the C string `make_timestamp` leaves in the
array; nothing is submitted to syslog. -/
theorem log_info_line (st : LoggerState) (env : Env) (buff m : List Char)
    (hbuf : buff.length = 512)
    (hactive : st.logger_log_level_ ≥ LOGGER_LEVEL_INFO)
    (hfile : has_option st.logger_options_ LOGGER_OPTION_FILE = true)
    (hstderr : has_option st.logger_options_ LOGGER_OPTION_STDERR = true)
    (hsyslog : has_option st.logger_options_ LOGGER_OPTION_SYSLOG = false)
    (hopen : (st.fp.isSome || (st.log_file.isSome && env.fopen_result.isSome)) = true)
    (htime : tm_in_range env.TM) (htid : env.tid < 2 ^ 31) :
    ∃ st2 evs, run_call st env buff (log_info st m) = .ok (st2, evs)
      ∧ file_writes evs
        = [cstr (make_timestamp st.logger_options_ env buff 512) ++ [' ', '(']
            ++ Nat.toDigits 10 env.tid ++ [')', ' ', '[', 'I', 'N', 'F', 'O', ']', ' '] ++ m ++ ['\n']]
      ∧ stderr_writes evs = file_writes evs
      ∧ syslog_writes evs = [] := by
  have hc : log_info st m = some ⟨2, "[INFO]".toList, none, none, none, 0, line_format m⟩ := by
    unfold log_info logger_is_info
    simp [hactive]
  have hopt : has_option st.logger_options_ (LOGGER_OPTION_FILE ||| LOGGER_OPTION_STDERR) = true := by
    rw [has_option_or, hstderr, Bool.or_true]
  have hmd : NUL ∉ metadata_text (env.tid % 2 ^ 32) "[INFO]".toList none none
      ((logger_stralpha none).getD []) ((none : Option (List Char)).getD []) 0 :=
    metadata_text_no_NUL _ _ _ _ _ _ _ (by decide) (by simp [logger_stralpha]) (by simp) (by simp)
  have htsl := timestamp_text_length_le st.logger_options_ env.TM (env.tv_usec / 1000) htime
  have htsN := timestamp_text_no_NUL st.logger_options_ env.TM (env.tv_usec / 1000)
  have hts : cstr (make_timestamp st.logger_options_ env buff 512)
      = timestamp_text st.logger_options_ env.TM (env.tv_usec / 1000) := by
    unfold make_timestamp snprintf
    rw [if_neg (by omega), List.take_zero, List.nil_append,
      List.take_of_length_le (show (timestamp_text st.logger_options_ env.TM
        (env.tv_usec / 1000)).length ≤ 512 - 1 by omega)]
    exact cstr_append_NUL _ _ htsN
  have hpid : fmt_d (int_of_unsigned (env.tid % 2 ^ 32)) = Nat.toDigits 10 env.tid := by
    have e : env.tid % 2 ^ 32 = env.tid := Nat.mod_eq_of_lt (by omega)
    rw [e, int_of_unsigned_small _ htid]
    unfold fmt_d
    rw [if_neg (by omega)]
    rfl
  have hdl : (Nat.toDigits 10 env.tid).length ≤ 10 :=
    toDigits_length_le _ 10 (by decide) (by
      have h2 : (2 : Nat) ^ 31 < 10 ^ 10 := by norm_num
      omega)
  have hrend : rendered st env 512 "[INFO]".toList none none none 0
      = cstr (make_timestamp st.logger_options_ env buff 512) ++ [' ', '(']
          ++ Nat.toDigits 10 env.tid ++ [')', ' ', '[', 'I', 'N', 'F', 'O', ']'] := by
    unfold rendered metadata_text
    simp only []
    rw [hpid, hts, List.take_of_length_le]
    · simp
    · simp only [List.length_append, List.length_cons, List.length_nil, String.toList]
      have : "[INFO]".data.length = 6 := rfl
      omega
  have hrun := logger_msg_ex_eq st env buff 2 "[INFO]".toList none none none 0
    (line_format m) none hopt (by omega) rfl hmd
  rw [hc]
  refine ⟨_, _, hrun, ?_, ?_, ?_⟩
  · rw [hbuf, hsyslog]
    simp only [file_writes_append, file_writes_lock, file_writes_stderr_sink, List.append_nil,
      Bool.false_eq_true, if_false]
    rw [file_writes_file_sink st env _ hfile hopen, hrend]
    simp [line_format, file_writes]
  · rw [hbuf, hsyslog]
    simp only [file_writes_append, file_writes_lock, file_writes_stderr_sink, List.append_nil,
      stderr_writes_append, stderr_writes_lock, stderr_writes_file_sink, List.nil_append,
      Bool.false_eq_true, if_false]
    rw [file_writes_file_sink st env _ hfile hopen]
    unfold stderr_sink
    rw [if_pos hstderr]
    rfl
  · rw [hbuf, hsyslog]
    simp only [syslog_writes_append, syslog_writes_lock, syslog_writes_stderr_sink,
      syslog_writes_file_sink, List.append_nil, Bool.false_eq_true, if_false]
    rfl

theorem log_info_line_witness :
    sample_buffer.length = 512
    ∧ ∃ st2 evs,
      run_call
        { initial_state with
          logger_log_level_ := LOGGER_LEVEL_INFO
          logger_options_ := LOGGER_OPTION_FILE ||| LOGGER_OPTION_STDERR ||| LOGGER_OPTION_MILLISECONDS
          log_file := some "t.log".toList }
        sample_env sample_buffer
        (log_info
          { initial_state with
            logger_log_level_ := LOGGER_LEVEL_INFO
            logger_options_ := LOGGER_OPTION_FILE ||| LOGGER_OPTION_STDERR ||| LOGGER_OPTION_MILLISECONDS
            log_file := some "t.log".toList }
          "x=5".toList) = .ok (st2, evs)
      ∧ file_writes evs = ["2024-01-05 07:08:09.045 (4242) [INFO] x=5\n".toList]
      ∧ stderr_writes evs = file_writes evs
      ∧ syslog_writes evs = [] :=
  ⟨sample_buffer_length,
    (log_info_line
      { initial_state with
        logger_log_level_ := LOGGER_LEVEL_INFO
        logger_options_ := LOGGER_OPTION_FILE ||| LOGGER_OPTION_STDERR ||| LOGGER_OPTION_MILLISECONDS
        log_file := some "t.log".toList }
      sample_env sample_buffer "x=5".toList sample_buffer_length (by decide) (by decide)
      (by decide) (by decide) (by decide) (by unfold tm_in_range int_range; decide)
      (by decide)).imp
      (fun _ h => h.imp (fun _ h2 => ⟨h2.1, h2.2.1.trans (by decide), h2.2.2⟩))⟩

/-- C5: for a local time with year 0..9999, month 1..12, day 1..31, hour 0..23, minute
0..59, second 0..60 and a microsecond part up to 999999, `make_timestamp` on an array of
at least 24 bytes leaves the C string `YYYY-MM-DD HH:MM:SS` (19 characters, every field
zero-padded) without the milliseconds option, and that text followed by `.` and the three
digits of the microseconds divided by 1000 (23 characters) with it. -/
theorem make_timestamp_format (options : Nat) (env : Env) (buffer : List Char) (buff_size : Nat)
    (hsize : 24 ≤ buff_size)
    (hyear : 0 ≤ env.TM.tm_year + 1900 ∧ env.TM.tm_year + 1900 ≤ 9999)
    (hmon : 0 ≤ env.TM.tm_mon ∧ env.TM.tm_mon ≤ 11)
    (hday : 1 ≤ env.TM.tm_mday ∧ env.TM.tm_mday ≤ 31)
    (hhour : 0 ≤ env.TM.tm_hour ∧ env.TM.tm_hour ≤ 23)
    (hmin : 0 ≤ env.TM.tm_min ∧ env.TM.tm_min ≤ 59)
    (hsec : 0 ≤ env.TM.tm_sec ∧ env.TM.tm_sec ≤ 60)
    (husec : env.tv_usec ≤ 999999) :
    cstr (make_timestamp options env buffer buff_size)
      = spec_timestamp (has_option options LOGGER_OPTION_MILLISECONDS)
          (env.TM.tm_year + 1900).toNat (env.TM.tm_mon + 1).toNat env.TM.tm_mday.toNat
          env.TM.tm_hour.toNat env.TM.tm_min.toNat env.TM.tm_sec.toNat env.tv_usec
    ∧ (cstr (make_timestamp options env buffer buff_size)).length
      = (if has_option options LOGGER_OPTION_MILLISECONDS then 23 else 19) := by
  have hN := timestamp_text_no_NUL options env.TM (env.tv_usec / 1000)
  have heq := timestamp_text_eq_spec options env hyear hmon hday hhour hmin hsec husec
  have hl := spec_timestamp_length (has_option options LOGGER_OPTION_MILLISECONDS)
    (env.TM.tm_year + 1900).toNat (env.TM.tm_mon + 1).toNat env.TM.tm_mday.toNat
    env.TM.tm_hour.toNat env.TM.tm_min.toNat env.TM.tm_sec.toNat env.tv_usec
  have hle : (timestamp_text options env.TM (env.tv_usec / 1000)).length ≤ buff_size - 1 := by
    rw [heq, hl]
    split <;> omega
  have hc : cstr (make_timestamp options env buffer buff_size)
      = timestamp_text options env.TM (env.tv_usec / 1000) := by
    unfold make_timestamp snprintf
    rw [if_neg (by omega), List.take_of_length_le hle, List.take_zero, List.nil_append]
    exact cstr_append_NUL _ _ hN
  rw [hc, heq]
  exact ⟨rfl, hl⟩

theorem make_timestamp_format_witness :
    24 ≤ 24
    ∧ cstr (make_timestamp LOGGER_OPTION_MILLISECONDS sample_env (List.replicate 24 'x') 24)
      = spec_timestamp (has_option LOGGER_OPTION_MILLISECONDS LOGGER_OPTION_MILLISECONDS)
          (sample_env.TM.tm_year + 1900).toNat (sample_env.TM.tm_mon + 1).toNat
          sample_env.TM.tm_mday.toNat sample_env.TM.tm_hour.toNat sample_env.TM.tm_min.toNat
          sample_env.TM.tm_sec.toNat sample_env.tv_usec
    ∧ spec_timestamp true 2024 1 5 7 8 9 45678 = "2024-01-05 07:08:09.045".toList :=
  ⟨by decide,
    (make_timestamp_format LOGGER_OPTION_MILLISECONDS sample_env (List.replicate 24 'x') 24
      (by decide) (by decide) (by decide) (by decide) (by decide) (by decide) (by decide)
      (by decide)).1,
    by decide⟩

/-- C6 (as stated, refuted): a trace call from a file whose path has 602 characters, with
the 512-byte array of the entry points: the array holds 511 characters, not the timestamp
followed by the whole suffix ` (4242) [CSVDEBUG] main @ path:40`. -/
theorem metadata_suffix_counterexample :
    ∃ b, render_prefix opened_state sample_env sample_buffer "[CSVDEBUG]".toList none
        (some "main".toList) (some long_path) 40 = .ok b
      ∧ logger_stripfile opened_state.file_name_prefix (some long_path) = .ok (some long_path)
      ∧ (cstr b).length = 511
      ∧ cstr b ≠ cstr (make_timestamp opened_state.logger_options_ sample_env sample_buffer 512)
          ++ " (4242) [CSVDEBUG] main @ ".toList ++ long_path ++ ":40".toList :=
  ⟨_, rfl, rfl, by decide, by decide⟩

/-- C6 (amended): `logger_msg_ex_` leaves in the array of `len` bytes the first `len - 1`
characters of the timestamp followed by the suffix, so the whole suffix when it fits. The
suffix is ` (n) s` when the function is absent, ` (n) s func @ file:line` when the
function is present and the type absent, and ` (n) s Type::func @ file:line` when both are
present, with `file` the result of `logger_stripfile` and `Type` that of
`logger_stralpha`. -/
theorem metadata_suffix (st : LoggerState) (env : Env) (buff severity : List Char)
    (theclass func file : Option (List Char)) (line : Int) (fn : Option (List Char))
    (hlen : 1 ≤ buff.length) (htid : env.tid < 2 ^ 31)
    (hstrip : logger_stripfile st.file_name_prefix file = .ok fn)
    (hsev : NUL ∉ severity)
    (hfunc : ∀ f, func = some f → NUL ∉ f)
    (hclass : ∀ c, theclass = some c → NUL ∉ c) :
    ∃ b, render_prefix st env buff severity theclass func file line = .ok b
      ∧ (func = none →
          cstr b = (timestamp_text st.logger_options_ env.TM (env.tv_usec / 1000)
            ++ [' ', '('] ++ Nat.toDigits 10 env.tid ++ [')', ' '] ++ severity).take
              (buff.length - 1))
      ∧ (∀ f, func = some f → theclass = none →
          cstr b = (timestamp_text st.logger_options_ env.TM (env.tv_usec / 1000)
            ++ [' ', '('] ++ Nat.toDigits 10 env.tid ++ [')', ' '] ++ severity ++ [' '] ++ f
            ++ [' ', '@', ' '] ++ fn.getD [] ++ [':'] ++ fmt_d line).take (buff.length - 1))
      ∧ (∀ f c, func = some f → theclass = some c →
          cstr b = (timestamp_text st.logger_options_ env.TM (env.tv_usec / 1000)
            ++ [' ', '('] ++ Nat.toDigits 10 env.tid ++ [')', ' '] ++ severity ++ [' ']
            ++ (logger_stralpha (some c)).getD [] ++ [':', ':'] ++ f
            ++ [' ', '@', ' '] ++ fn.getD [] ++ [':'] ++ fmt_d line).take (buff.length - 1)) := by
  have hpid : fmt_d (int_of_unsigned (env.tid % 2 ^ 32)) = Nat.toDigits 10 env.tid := by
    have e : env.tid % 2 ^ 32 = env.tid := Nat.mod_eq_of_lt (by omega)
    rw [e, int_of_unsigned_small _ htid]
    unfold fmt_d
    rw [if_neg (by omega)]
    rfl
  have hcn : NUL ∉ (logger_stralpha theclass).getD [] := by
    cases theclass with
    | none => simp [logger_stralpha]
    | some c => exact stralpha_loop_no_NUL c (hclass c rfl) c (hclass c rfl)
  have hmd := metadata_text_no_NUL (env.tid % 2 ^ 32) severity theclass func
    ((logger_stralpha theclass).getD []) (fn.getD []) line hsev hcn
    (logger_stripfile_no_NUL _ _ _ hstrip) hfunc
  obtain ⟨r, hr⟩ := render_prefix_eq st env buff severity theclass func file line fn hlen
    hstrip hmd
  have hN : NUL ∉ (timestamp_text st.logger_options_ env.TM (env.tv_usec / 1000)
      ++ metadata_text (env.tid % 2 ^ 32) severity theclass func
        ((logger_stralpha theclass).getD []) (fn.getD []) line).take (buff.length - 1) :=
    rendered_no_NUL st env buff.length severity theclass func fn line hmd
  refine ⟨_, hr, ?_, ?_, ?_⟩
  · intro hf
    rw [cstr_append_NUL _ _ hN, hf]
    unfold metadata_text
    simp only [hpid, List.append_assoc]
  · intro f hf hc
    rw [cstr_append_NUL _ _ hN, hf, hc]
    unfold metadata_text
    simp only [hpid, List.append_assoc]
  · intro f c hf hc
    rw [cstr_append_NUL _ _ hN, hf, hc]
    unfold metadata_text
    simp only [hpid, List.append_assoc]

theorem metadata_suffix_witness :
    1 ≤ sample_buffer.length ∧ sample_env.tid < 2 ^ 31
    ∧ logger_stripfile opened_state.file_name_prefix (some "/src/io/csv.c".toList)
        = .ok (some "io/csv.c".toList)
    ∧ ∃ b, render_prefix opened_state sample_env sample_buffer "[CSVDEBUG]".toList
          (some "7CsvFile".toList) (some "read".toList) (some "/src/io/csv.c".toList) 40 = .ok b
      ∧ cstr b = "2024-01-05 07:08:09 (4242) [CSVDEBUG] CsvFile::read @ io/csv.c:40".toList :=
  ⟨by rw [sample_buffer_length]; decide, by decide, rfl,
    (metadata_suffix opened_state sample_env sample_buffer "[CSVDEBUG]".toList
      (some "7CsvFile".toList) (some "read".toList) (some "/src/io/csv.c".toList) 40
      (some "io/csv.c".toList) (by rw [sample_buffer_length]; decide) (by decide) rfl
      (by decide) (by intro f hf; cases hf; decide) (by intro c hc; cases hc; decide)).imp
      (fun b h => ⟨h.1, (h.2.2.2 "read".toList "7CsvFile".toList rfl rfl).trans (by decide)⟩)⟩

/-- C7: for an init-site with at least one `/` or `\`, `logger_open_ex` returns normally
and the prefix it stores is the init-site cut right after its last separator: the
init-site is `d ++ sep :: post` with `sep` a separator and none in `post`, and the prefix
is `d ++ [sep]`, a prefix of the init-site that ends with a separator. -/
theorem source_base_prefix_directory (st : LoggerState) (env : Env) (path : List Char)
    (options : Nat) (file : List Char)
    (hsep : '/' ∈ file ∨ '\\' ∈ file) (hN : NUL ∉ file) (hdup : env.strdup_ok = true) :
    ∃ st2 evs bytes d sep post,
      logger_open_ex st env (some path) options file = .ok (st2, evs)
      ∧ st2.file_name_prefix = some bytes
      ∧ file = d ++ sep :: post ∧ (sep = '/' ∨ sep = '\\') ∧ '/' ∉ post ∧ '\\' ∉ post
      ∧ cstr bytes = d ++ [sep]
      ∧ cstr bytes <+: file
      ∧ (cstr bytes).getLast? = some sep := by
  obtain ⟨d, sep, post, hfile, hs, h1, h2⟩ := exists_last_separator file hsep
  subst hfile
  simp only [List.mem_append, List.mem_cons, not_or] at hN
  have hcut := cut_at_separator_eq d post sep hs h1 h2 hN.1 hN.2.2
  obtain ⟨st2, evs, hopen, hp⟩ := logger_open_ex_of_cut st env path options (d ++ sep :: post)
    _ hdup hcut
  have hNd : NUL ∉ d ++ [sep] := by
    simp only [List.mem_append, List.mem_singleton, not_or]
    exact ⟨hN.1, hN.2.1⟩
  have hc : cstr (d ++ [sep] ++ NUL :: (post ++ [NUL]).tail) = d ++ [sep] :=
    cstr_append_NUL _ _ hNd
  refine ⟨st2, evs, _, d, sep, post, hopen, hp, rfl, hs, h1, h2, hc, ?_, ?_⟩
  · rw [hc]
    exact ⟨post, by simp⟩
  · rw [hc]
    simp

theorem source_base_prefix_directory_witness :
    ('/' ∈ "C:\\work/src\\main.c".toList ∨ '\\' ∈ "C:\\work/src\\main.c".toList)
    ∧ NUL ∉ "C:\\work/src\\main.c".toList ∧ sample_env.strdup_ok = true
    ∧ ∃ st2 evs bytes d sep post,
      logger_open_ex initial_state sample_env (some "t.log".toList) LOGGER_OPTION_FILE
        "C:\\work/src\\main.c".toList = .ok (st2, evs)
      ∧ st2.file_name_prefix = some bytes
      ∧ "C:\\work/src\\main.c".toList = d ++ sep :: post ∧ (sep = '/' ∨ sep = '\\')
      ∧ '/' ∉ post ∧ '\\' ∉ post
      ∧ cstr bytes = d ++ [sep]
      ∧ cstr bytes <+: "C:\\work/src\\main.c".toList
      ∧ (cstr bytes).getLast? = some sep :=
  ⟨by decide, by decide, by decide,
    source_base_prefix_directory initial_state sample_env "t.log".toList LOGGER_OPTION_FILE
      "C:\\work/src\\main.c".toList (by decide) (by decide) (by decide)⟩

/-- C8 (the code at the failing input): with the init-site `main.c`, which has no
separator, both `strrchr` results are null and `logger_open_ex` stores through the null
pointer `p2`; it does not return with an empty prefix. -/
theorem open_without_separator_faults :
    logger_open_ex initial_state sample_env (some "t.log".toList) LOGGER_OPTION_FILE
      "main.c".toList = .error Fault.null_deref :=
  rfl

/-- For every init-site without a separator, whatever the state, the path and the
options, `logger_open_ex` stores through the null pointer. -/
theorem open_without_separator_faults_always (st : LoggerState) (env : Env)
    (log_file_name : Option (List Char)) (options : Nat) (file : List Char)
    (h1 : '/' ∉ file) (h2 : '\\' ∉ file) (hN : NUL ∉ file) (hdup : env.strdup_ok = true) :
    logger_open_ex st env log_file_name options file = .error Fault.null_deref := by
  have hc : cstr (file ++ [NUL]) = file := cstr_append_NUL file [] hN
  unfold logger_open_ex cut_at_separator
  rw [hdup, if_pos rfl, hc, strrchr_none file '/' h1, strrchr_none file '\\' h2]
  rfl

/-- C9: after `logger_open_ex` with the init-site `d ++ a`, where `d` ends in a separator
and `a` has none, `logger_stripfile` maps the path `d ++ b` of a file with a non-empty
name `b` to exactly `b`. -/
theorem stripfile_inside_prefix (st : LoggerState) (env : Env) (path : List Char) (options : Nat)
    (d0 a b : List Char) (sep : Char)
    (hsep : sep = '/' ∨ sep = '\\') (ha1 : '/' ∉ a) (ha2 : '\\' ∉ a)
    (hb : b ≠ []) (hNd : NUL ∉ d0) (hNa : NUL ∉ a) (hNb : NUL ∉ b)
    (hdup : env.strdup_ok = true) :
    ∃ st2 evs, logger_open_ex st env (some path) options ((d0 ++ [sep]) ++ a) = .ok (st2, evs)
      ∧ logger_stripfile st2.file_name_prefix (some ((d0 ++ [sep]) ++ b)) = .ok (some b) := by
  have hcut := cut_at_separator_eq d0 a sep hsep ha1 ha2 hNd hNa
  have he : d0 ++ sep :: a ++ [NUL] = ((d0 ++ [sep]) ++ a) ++ [NUL] := by simp
  rw [he] at hcut
  obtain ⟨st2, evs, hopen, hp⟩ := logger_open_ex_of_cut st env path options _ _ hdup hcut
  refine ⟨st2, evs, hopen, ?_⟩
  rw [hp]
  unfold logger_stripfile
  simp only []
  rw [List.append_assoc (d0 ++ [sep]) b [NUL], stripfile_loop_common]
  obtain ⟨c, cs, rfl⟩ := List.exists_cons_of_ne_nil hb
  simp only [List.mem_cons, not_or] at hNb
  rw [List.cons_append, stripfile_loop, if_neg hNb.1]
  simp only []
  have : cstr (c :: cs ++ [NUL]) = c :: cs :=
    cstr_append_NUL (c :: cs) [] (by simp only [List.mem_cons, not_or]; exact hNb)
  rw [List.cons_append] at this
  rw [this]

theorem stripfile_inside_prefix_witness :
    ('/' = '/' ∨ '/' = '\\') ∧ '/' ∉ "init.ext".toList ∧ '\\' ∉ "init.ext".toList
    ∧ "other.ext".toList ≠ []
    ∧ ∃ st2 evs, logger_open_ex initial_state sample_env (some "t.log".toList) LOGGER_OPTION_FILE
          (("/a/b/c".toList ++ ['/']) ++ "init.ext".toList) = .ok (st2, evs)
        ∧ logger_stripfile st2.file_name_prefix (some (("/a/b/c".toList ++ ['/'])
            ++ "other.ext".toList)) = .ok (some "other.ext".toList) :=
  ⟨by decide, by decide, by decide, by decide,
    stripfile_inside_prefix initial_state sample_env "t.log".toList LOGGER_OPTION_FILE
      "/a/b/c".toList "init.ext".toList "other.ext".toList '/' (by decide) (by decide) (by decide)
      (by decide) (by decide) (by decide) (by decide) (by decide)⟩

/-- C10 (the code at the failing input): after `logger_open_ex` with the init-site
`/a/b/c/init.ext` the prefix is `/a/b/c/`; the paths `/a/b/cat/x.c` and
`/usr/include/stdio.h` do not start with it, yet `logger_stripfile` returns `at/x.c` and
`usr/include/stdio.h`: the characters shared with the prefix are dropped. -/
theorem stripfile_outside_prefix_shortens :
    ∃ st2 evs bytes,
      logger_open_ex initial_state sample_env (some "t.log".toList) LOGGER_OPTION_FILE
        "/a/b/c/init.ext".toList = .ok (st2, evs)
      ∧ st2.file_name_prefix = some bytes
      ∧ cstr bytes = "/a/b/c/".toList
      ∧ ¬ (cstr bytes <+: "/a/b/cat/x.c".toList)
      ∧ logger_stripfile st2.file_name_prefix (some "/a/b/cat/x.c".toList)
          = .ok (some "at/x.c".toList)
      ∧ ¬ (cstr bytes <+: "/usr/include/stdio.h".toList)
      ∧ logger_stripfile st2.file_name_prefix (some "/usr/include/stdio.h".toList)
          = .ok (some "usr/include/stdio.h".toList) :=
  ⟨_, _, _, rfl, rfl, by decide, by decide, rfl, by decide, rfl⟩

/-! ## logger_stralpha -/

theorem digit_test_iff (c : Char) : (c ≥ '0' ∧ c ≤ '9') ↔ c.isDigit = true := by
  unfold Char.isDigit
  simp only [Bool.and_eq_true, decide_eq_true_eq, ge_iff_le]
  exact Iff.rfl

theorem stralpha_loop_eq (name : List Char) : ∀ rest : List Char,
    stralpha_loop name rest
      = if rest.all Char.isDigit = true then name else rest.dropWhile Char.isDigit := by
  intro rest
  induction rest with
  | nil => rfl
  | cons c cs ih =>
    unfold stralpha_loop
    by_cases hc : c.isDigit = true
    · rw [if_pos ((digit_test_iff c).2 hc), ih]
      simp [hc]
    · rw [if_neg (fun h => hc ((digit_test_iff c).1 h))]
      simp [hc]

theorem dropWhile_digits_append (digits rest : List Char)
    (hd : ∀ x ∈ digits, x.isDigit = true)
    (hh : ∀ c, rest.head? = some c → c.isDigit = false) :
    (digits ++ rest).dropWhile Char.isDigit = rest := by
  induction digits with
  | nil =>
    cases rest with
    | nil => rfl
    | cons c cs =>
      have := hh c rfl
      simp [List.dropWhile_cons, this]
  | cons d ds ih =>
    have h1 := hd d (List.mem_cons_self _ _)
    rw [List.cons_append, List.dropWhile_cons, h1, if_pos rfl]
    exact ih (fun x hx => hd x (List.mem_cons_of_mem _ hx))

theorem stralpha_of_non_digit (name : List Char) (c : Char) (hc : c ∈ name)
    (hn : c.isDigit = false) :
    logger_stralpha (some name) = some (name.dropWhile Char.isDigit) := by
  unfold logger_stralpha
  simp only []
  rw [stralpha_loop_eq, if_neg]
  intro hall
  rw [List.all_eq_true] at hall
  have := hall c hc
  rw [hn] at this
  exact Bool.noConfusion this

/-- C11 (as stated, refuted): the name `777` consists only of digits and the remainder
after its digits is empty, but `logger_stralpha` returns `777`. -/
theorem stralpha_all_digits_counterexample :
    "777".toList.dropWhile Char.isDigit = []
    ∧ logger_stralpha (some "777".toList) = some "777".toList
    ∧ logger_stralpha (some "777".toList) ≠ some ("777".toList.dropWhile Char.isDigit) := by
  decide

/-- C11 (amended): for every name with a character that is not a decimal digit,
`logger_stralpha` returns the remainder after the maximal leading run of decimal digits;
a name that consists only of decimal digits (the empty name included) is returned
unchanged. -/
theorem stralpha_remainder (name : List Char) (h : ∃ c ∈ name, c.isDigit = false) :
    logger_stralpha (some name) = some (name.dropWhile Char.isDigit)
    ∧ ∀ ds : List Char, (∀ c ∈ ds, c.isDigit = true) → logger_stralpha (some ds) = some ds := by
  obtain ⟨c, hc, hn⟩ := h
  refine ⟨stralpha_of_non_digit name c hc hn, ?_⟩
  intro ds hds
  unfold logger_stralpha
  simp only []
  rw [stralpha_loop_eq, if_pos (List.all_eq_true.2 hds)]

theorem stralpha_remainder_witness :
    (∃ c ∈ "12ab3".toList, c.isDigit = false)
    ∧ logger_stralpha (some "12ab3".toList) = some "ab3".toList
    ∧ logger_stralpha (some "2024".toList) = some "2024".toList :=
  ⟨⟨'a', by decide, by decide⟩,
    (stralpha_remainder "12ab3".toList ⟨'a', by decide, by decide⟩).1.trans (by decide),
    (stralpha_remainder "12ab3".toList ⟨'a', by decide, by decide⟩).2 "2024".toList (by decide)⟩

/-- C12: for a name made of decimal digits followed by a non-empty rest that does not
start with a decimal digit, `logger_stralpha` returns the rest; a name that does not start
with a decimal digit is returned unchanged; the null name is returned as null. -/
theorem stralpha_strips_leading_digits (digits rest : List Char)
    (hd : ∀ x ∈ digits, x.isDigit = true) (hr : rest ≠ [])
    (hh : ∀ c, rest.head? = some c → c.isDigit = false) :
    logger_stralpha (some (digits ++ rest)) = some rest
    ∧ (∀ name : List Char, (∀ c, name.head? = some c → c.isDigit = false) →
        logger_stralpha (some name) = some name)
    ∧ logger_stralpha none = none := by
  refine ⟨?_, ?_, rfl⟩
  · obtain ⟨c, cs, rfl⟩ := List.exists_cons_of_ne_nil hr
    rw [stralpha_of_non_digit (digits ++ c :: cs) c (by simp) (hh c rfl)]
    rw [dropWhile_digits_append digits (c :: cs) hd hh]
  · intro name hn
    cases name with
    | nil => rfl
    | cons c cs =>
      rw [stralpha_of_non_digit (c :: cs) c (List.mem_cons_self _ _) (hn c rfl)]
      have := dropWhile_digits_append [] (c :: cs) (by simp) hn
      rw [List.nil_append] at this
      rw [this]

theorem stralpha_strips_leading_digits_witness :
    (∀ x ∈ "7".toList, x.isDigit = true) ∧ "MyClass".toList ≠ []
    ∧ logger_stralpha (some ("7".toList ++ "MyClass".toList)) = some "MyClass".toList
    ∧ logger_stralpha (some "MyClass".toList) = some "MyClass".toList :=
  ⟨by decide, by decide,
    (stralpha_strips_leading_digits "7".toList "MyClass".toList (by decide) (by decide)
      (by intro c hc; cases hc; decide)).1,
    (stralpha_strips_leading_digits "7".toList "MyClass".toList (by decide) (by decide)
      (by intro c hc; cases hc; decide)).2.1 "MyClass".toList (by intro c hc; cases hc; decide)⟩

/-! ## One emission -/

/-- The metadata printed for well-formed arguments holds no `NUL`. -/
theorem metadata_no_NUL_of_ready (p : Option (List Char)) (env : Env)
    (c : MsgCall) (fn : Option (List Char))
    (hsev : NUL ∉ c.severity) (hfunc : ∀ f, c.func = some f → NUL ∉ f)
    (hclass : ∀ t, c.theclass = some t → NUL ∉ t)
    (hstrip : logger_stripfile p c.file = .ok fn) :
    NUL ∉ metadata_text (env.tid % 2 ^ 32) c.severity c.theclass c.func
      ((logger_stralpha c.theclass).getD []) (fn.getD []) c.line := by
  have hcn : NUL ∉ (logger_stralpha c.theclass).getD [] := by
    cases hc : c.theclass with
    | none => simp [logger_stralpha]
    | some t => exact stralpha_loop_no_NUL t (hclass t hc) t (hclass t hc)
  exact metadata_text_no_NUL _ _ _ _ _ _ _ hsev hcn (logger_stripfile_no_NUL _ _ _ hstrip) hfunc

/-- The result of one call of `logger_msg_ex_` with well-formed arguments while the file
or the stderr sink is enabled. -/
theorem run_call_eq (st : LoggerState) (env : Env) (buff : List Char) (c : MsgCall)
    (fn : Option (List Char))
    (hopt : has_option st.logger_options_ (LOGGER_OPTION_FILE ||| LOGGER_OPTION_STDERR) = true)
    (hlen : 26 ≤ buff.length) (hsev : NUL ∉ c.severity)
    (hfunc : ∀ f, c.func = some f → NUL ∉ f) (hclass : ∀ t, c.theclass = some t → NUL ∉ t)
    (hstrip : logger_stripfile st.file_name_prefix c.file = .ok fn) :
    run_call st env buff (some c)
      = .ok (
        if has_option st.logger_options_ LOGGER_OPTION_SYSLOG then
          (logger_syslog_open_ (file_sink st env
            (c.format (rendered st env buff.length c.severity c.theclass c.func fn c.line))).1).1
        else (file_sink st env
          (c.format (rendered st env buff.length c.severity c.theclass c.func fn c.line))).1,
        Event.lock :: (file_sink st env
            (c.format (rendered st env buff.length c.severity c.theclass c.func fn c.line))).2
          ++ stderr_sink st
            (c.format (rendered st env buff.length c.severity c.theclass c.func fn c.line))
          ++ [Event.unlock]
          ++ (if has_option st.logger_options_ LOGGER_OPTION_SYSLOG then
            (logger_syslog_open_ (file_sink st env
              (c.format (rendered st env buff.length c.severity c.theclass c.func fn c.line))).1).2
              ++ [Event.syslog (syslog_priority c.nseverity)
                (c.format (((rendered st env buff.length c.severity c.theclass c.func fn
                  c.line).drop (syslog_strip_len st.logger_options_)).take
                    ((rendered st env buff.length c.severity c.theclass c.func fn c.line).length
                      - syslog_strip_len st.logger_options_ - 1)))]
          else [])) :=
  logger_msg_ex_eq st env buff c.nseverity c.severity c.theclass c.func c.file c.line c.format fn
    hopt hlen hstrip (metadata_no_NUL_of_ready _ env c fn hsev hfunc hclass hstrip)

theorem has_option_file_or (options : Nat)
    (h : has_option options LOGGER_OPTION_FILE = true) :
    has_option options (LOGGER_OPTION_FILE ||| LOGGER_OPTION_STDERR) = true := by
  rw [has_option_or, h, Bool.true_or]

/-! ## The file sink, case by case -/

/-- Without keep-open, with no open handle, a path and an openable file: the file is
opened, written, flushed if asked, and closed; the state is unchanged. -/
theorem file_sink_reopen (st : LoggerState) (env : Env) (text path : List Char) (h : Nat)
    (hf : has_option st.logger_options_ LOGGER_OPTION_FILE = true)
    (hk : has_option st.logger_options_ LOGGER_OPTION_KEEP_FILE_OPEN = false)
    (hfp : st.fp = none) (hpath : st.log_file = some path)
    (hopen : env.fopen_result = some h) :
    file_sink st env text
      = (st, Event.fopen path (some h) :: Event.fwrite h text ::
          (if has_option st.logger_options_ LOGGER_OPTION_FLUSH_FILE then [Event.fflush h] else [])
            ++ [Event.fclose h]) := by
  unfold file_sink
  rw [if_pos hf, hfp, hpath, hopen]
  simp only [hk, Bool.false_eq_true, if_false]
  congr 1
  cases st
  simp only [LoggerState.mk.injEq, true_and, and_true] at hfp ⊢
  simp_all

/-- With keep-open and an open handle: the text is written to it, flushed if asked, and
the handle stays; nothing is opened or closed. -/
theorem file_sink_kept (st : LoggerState) (env : Env) (text : List Char) (h : Nat)
    (hf : has_option st.logger_options_ LOGGER_OPTION_FILE = true)
    (hk : has_option st.logger_options_ LOGGER_OPTION_KEEP_FILE_OPEN = true)
    (hfp : st.fp = some h) :
    file_sink st env text
      = (st, Event.fwrite h text ::
          (if has_option st.logger_options_ LOGGER_OPTION_FLUSH_FILE then [Event.fflush h]
            else [])) := by
  unfold file_sink
  rw [if_pos hf, hfp]
  simp only [hk, if_true]

/-- With no open handle, a path and a file that cannot be opened: the open is attempted,
nothing is written, the state is unchanged. -/
theorem file_sink_open_fails (st : LoggerState) (env : Env) (text path : List Char)
    (hf : has_option st.logger_options_ LOGGER_OPTION_FILE = true)
    (hfp : st.fp = none) (hpath : st.log_file = some path)
    (hopen : env.fopen_result = none) :
    file_sink st env text = (st, [Event.fopen path none]) := by
  unfold file_sink
  rw [if_pos hf, hfp, hpath, hopen]

/-! ## The effects on the file among all effects -/

theorem file_events_append (a b : List Event) :
    file_events (a ++ b) = file_events a ++ file_events b := by
  unfold file_events
  rw [List.filter_append]

theorem file_events_stderr_sink (st : LoggerState) (text : List Char) :
    file_events (stderr_sink st text) = [] := by
  unfold stderr_sink
  split <;> rfl

theorem file_events_syslog_open (st : LoggerState) :
    file_events (logger_syslog_open_ st).2 = [] := by
  unfold logger_syslog_open_
  split <;> rfl

theorem file_events_syslog_part (c : Bool) (st : LoggerState) (p : Priority) (t : List Char) :
    file_events (if c = true then (logger_syslog_open_ st).2 ++ [Event.syslog p t] else []) = [] := by
  cases c
  · rfl
  · simp only [if_true, file_events_append, file_events_syslog_open]
    rfl

theorem file_events_lock (l : List Event) : file_events (Event.lock :: l) = file_events l := rfl

theorem fopen_count_file_events (evs : List Event) :
    fopen_count (file_events evs) = fopen_count evs := by
  induction evs with
  | nil => rfl
  | cons e l ih =>
    cases e <;> simp_all [fopen_count, file_events, List.filter_cons, List.countP_cons]

theorem fclose_count_file_events (evs : List Event) :
    fclose_count (file_events evs) = fclose_count evs := by
  induction evs with
  | nil => rfl
  | cons e l ih =>
    cases e <;> simp_all [fclose_count, file_events, List.filter_cons, List.countP_cons]

theorem fwrite_count_file_events (evs : List Event) :
    fwrite_count (file_events evs) = fwrite_count evs := by
  induction evs with
  | nil => rfl
  | cons e l ih =>
    cases e <;> simp_all [fwrite_count, file_events, List.filter_cons, List.countP_cons]

theorem fopen_count_append (a b : List Event) :
    fopen_count (a ++ b) = fopen_count a + fopen_count b := by
  unfold fopen_count
  rw [List.countP_append]

theorem fclose_count_append (a b : List Event) :
    fclose_count (a ++ b) = fclose_count a + fclose_count b := by
  unfold fclose_count
  rw [List.countP_append]

theorem fwrite_count_append (a b : List Event) :
    fwrite_count (a ++ b) = fwrite_count a + fwrite_count b := by
  unfold fwrite_count
  rw [List.countP_append]

/-- The effects of one emission on the file are those of the file sink. -/
theorem file_events_emission (st : LoggerState) (fs : LoggerState × List Event)
    (text : List Char) (c : Bool) (s : LoggerState) (p : Priority) (t : List Char) :
    file_events (Event.lock :: fs.2 ++ stderr_sink st text ++ [Event.unlock]
      ++ (if c = true then (logger_syslog_open_ s).2 ++ [Event.syslog p t] else []))
      = file_events fs.2 := by
  rw [file_events_append, file_events_append, file_events_append, file_events_syslog_part,
    file_events_stderr_sink, file_events_lock]
  have hu : file_events [Event.unlock] = [] := rfl
  rw [hu]
  simp only [List.append_nil]

theorem syslog_open_fields (s : LoggerState) :
    (logger_syslog_open_ s).1.logger_options_ = s.logger_options_
    ∧ (logger_syslog_open_ s).1.log_file = s.log_file
    ∧ (logger_syslog_open_ s).1.fp = s.fp
    ∧ LoggerState.file_name_prefix (logger_syslog_open_ s).1 = LoggerState.file_name_prefix s := by
  unfold logger_syslog_open_
  split <;> exact ⟨rfl, rfl, rfl, rfl⟩

/-- The state after an emission whose file sink left the state as it was: only
`syslog_open` can differ. -/
theorem after_emission_fields (st : LoggerState) (c : Bool) :
    (if c = true then (logger_syslog_open_ st).1 else st).logger_options_ = st.logger_options_
    ∧ (if c = true then (logger_syslog_open_ st).1 else st).log_file = st.log_file
    ∧ (if c = true then (logger_syslog_open_ st).1 else st).fp = st.fp
    ∧ LoggerState.file_name_prefix (if c = true then (logger_syslog_open_ st).1 else st)
      = LoggerState.file_name_prefix st := by
  cases c
  · exact ⟨rfl, rfl, rfl, rfl⟩
  · exact syslog_open_fields st

/-- One emission without keep-open from a state with no open handle. -/
theorem reopen_step (st : LoggerState) (x : Env × List Char × MsgCall) (path : List Char)
    (h : Nat)
    (hf : has_option st.logger_options_ LOGGER_OPTION_FILE = true)
    (hk : has_option st.logger_options_ LOGGER_OPTION_KEEP_FILE_OPEN = false)
    (hfp : st.fp = none) (hpath : st.log_file = some path)
    (hready : call_ready st.file_name_prefix x) (hopen : x.1.fopen_result = some h) :
    ∃ st2 evs text, run_call st x.1 x.2.1 (some x.2.2) = .ok (st2, evs)
      ∧ file_events evs
        = Event.fopen path (some h) :: Event.fwrite h text ::
          (if has_option st.logger_options_ LOGGER_OPTION_FLUSH_FILE then [Event.fflush h] else [])
            ++ [Event.fclose h]
      ∧ st2.fp = none ∧ st2.logger_options_ = st.logger_options_ ∧ st2.log_file = st.log_file
      ∧ LoggerState.file_name_prefix st2 = LoggerState.file_name_prefix st := by
  obtain ⟨hlen, hsev, hfunc, hclass, fn, hstrip⟩ := hready
  have hrun := run_call_eq st x.1 x.2.1 x.2.2 fn (has_option_file_or _ hf) hlen hsev hfunc hclass
    hstrip
  have hfs := file_sink_reopen st x.1
    (x.2.2.format (rendered st x.1 x.2.1.length x.2.2.severity x.2.2.theclass x.2.2.func fn
      x.2.2.line)) path h hf hk hfp hpath hopen
  have hfl := after_emission_fields st (has_option st.logger_options_ LOGGER_OPTION_SYSLOG)
  rw [hfs] at hrun
  simp only [] at hrun
  refine ⟨_, _, x.2.2.format (rendered st x.1 x.2.1.length x.2.2.severity x.2.2.theclass
    x.2.2.func fn x.2.2.line), hrun, ?_, ?_, hfl.1, hfl.2.1, hfl.2.2.2⟩
  · rw [file_events_emission st (st, _)]
    simp only []
    split <;> rfl
  · rw [hfl.2.2.1, hfp]

theorem reopen_many (calls : List (Env × List Char × MsgCall)) :
    ∀ (st : LoggerState) (path : List Char),
      has_option st.logger_options_ LOGGER_OPTION_FILE = true →
      has_option st.logger_options_ LOGGER_OPTION_KEEP_FILE_OPEN = false →
      st.fp = none → st.log_file = some path →
      (∀ x ∈ calls, call_ready st.file_name_prefix x ∧ x.1.fopen_result.isSome = true) →
      ∃ st2 evs, run_calls st calls = .ok (st2, evs) ∧ st2.fp = none
        ∧ fopen_count evs = calls.length ∧ fwrite_count evs = calls.length
        ∧ fclose_count evs = calls.length := by
  induction calls with
  | nil =>
    intro st path _ _ hfp _ _
    exact ⟨st, [], rfl, hfp, rfl, rfl, rfl⟩
  | cons x rest ih =>
    intro st path hf hk hfp hpath hall
    obtain ⟨hready, hop⟩ := hall x (List.mem_cons_self _ _)
    obtain ⟨h, hh⟩ := Option.isSome_iff_exists.1 hop
    obtain ⟨st1, ev1, text, hrun, hfe, hfp1, ho1, hl1, hp1⟩ :=
      reopen_step st x path h hf hk hfp hpath hready hh
    obtain ⟨st2, ev2, hrest, hfp2, c1, c2, c3⟩ := ih st1 path (by rw [ho1]; exact hf)
      (by rw [ho1]; exact hk) hfp1 (by rw [hl1]; exact hpath)
      (fun y hy => by rw [hp1]; exact hall y (List.mem_cons_of_mem _ hy))
    refine ⟨st2, ev1 ++ ev2, ?_, hfp2, ?_, ?_, ?_⟩
    · obtain ⟨env, buff, c⟩ := x
      simp only [] at hrun
      rw [run_calls, hrun]
      simp only []
      rw [hrest]
    · rw [fopen_count_append, c1, ← fopen_count_file_events ev1, hfe]
      simp only [List.length_cons]
      split <;> simp [fopen_count, List.countP_cons] <;> omega
    · rw [fwrite_count_append, c2, ← fwrite_count_file_events ev1, hfe]
      simp only [List.length_cons]
      split <;> simp [fwrite_count, List.countP_cons] <;> omega
    · rw [fclose_count_append, c3, ← fclose_count_file_events ev1, hfe]
      simp only [List.length_cons]
      split <;> simp [fclose_count, List.countP_cons] <;> omega

/-- C13: with the file sink enabled, keep-open unset, a path, no open handle and an
openable file, an emission returns normally; its effects on the file are one `fopen`, one
write, a flush if the flush flag is set, and one `fclose`, in this order, and the handle is
absent afterwards. N consecutive emissions make N opens, N writes and N closes. -/
theorem reopen_each_emission (st : LoggerState) (path : List Char)
    (calls : List (Env × List Char × MsgCall))
    (hf : has_option st.logger_options_ LOGGER_OPTION_FILE = true)
    (hk : has_option st.logger_options_ LOGGER_OPTION_KEEP_FILE_OPEN = false)
    (hfp : st.fp = none) (hpath : st.log_file = some path)
    (hall : ∀ x ∈ calls, call_ready st.file_name_prefix x ∧ x.1.fopen_result.isSome = true) :
    (∀ x ∈ calls, ∀ h, x.1.fopen_result = some h →
      ∃ st2 evs text, run_call st x.1 x.2.1 (some x.2.2) = .ok (st2, evs)
        ∧ file_events evs
          = Event.fopen path (some h) :: Event.fwrite h text ::
            (if has_option st.logger_options_ LOGGER_OPTION_FLUSH_FILE then [Event.fflush h]
              else []) ++ [Event.fclose h]
        ∧ st2.fp = none)
    ∧ ∃ st2 evs, run_calls st calls = .ok (st2, evs) ∧ st2.fp = none
        ∧ fopen_count evs = calls.length ∧ fwrite_count evs = calls.length
        ∧ fclose_count evs = calls.length := by
  refine ⟨?_, reopen_many calls st path hf hk hfp hpath hall⟩
  intro x hx h hh
  obtain ⟨st2, evs, text, h1, h2, h3, _⟩ :=
    reopen_step st x path h hf hk hfp hpath (hall x hx).1 hh
  exact ⟨st2, evs, text, h1, h2, h3⟩

/-! ## Keep-open -/

/-- The function `logger_open_ex` with keep-open and the file sink: the file is opened
once and the handle returned by `fopen` is stored. -/
theorem logger_open_ex_keep (st : LoggerState) (env : Env) (path : List Char) (options : Nat)
    (file pfx : List Char)
    (hk : has_option options LOGGER_OPTION_KEEP_FILE_OPEN = true)
    (hf : has_option options LOGGER_OPTION_FILE = true)
    (hdup : env.strdup_ok = true)
    (hcut : cut_at_separator (file ++ [NUL]) = .ok pfx) :
    ∃ st1 ev1, logger_open_ex st env (some path) options file = .ok (st1, ev1)
      ∧ fopen_count ev1 = 1 ∧ st1.fp = env.fopen_result ∧ st1.logger_options_ = options
      ∧ st1.log_file = some path ∧ st1.file_name_prefix = some pfx := by
  unfold logger_open_ex open_file_eagerly
  rw [hdup, if_pos rfl, hcut]
  by_cases hs : has_option options LOGGER_OPTION_SYSLOG = true
  · simp only [Except.map, hk, hf, hs, if_true]
    refine ⟨_, _, rfl, ?_, ?_, ?_, ?_, ?_⟩
    · have hm : ∀ l, fopen_count (Event.mutex_init :: l) = fopen_count l := fun _ => rfl
      rw [fopen_count_append, hm, fopen_count_append]
      unfold logger_syslog_open_
      cases st.fp <;> cases st.syslog_open <;> rfl
    · exact (syslog_open_fields _).2.2.1
    · exact (syslog_open_fields _).1
    · exact (syslog_open_fields _).2.1
    · exact (syslog_open_fields _).2.2.2
  · simp only [Except.map, hk, hf, hs, if_true, if_false]
    refine ⟨_, _, rfl, ?_, rfl, rfl, rfl, rfl⟩
    cases st.fp <;> rfl

/-- One emission with keep-open and an open handle. -/
theorem kept_step (st : LoggerState) (x : Env × List Char × MsgCall) (h : Nat)
    (hf : has_option st.logger_options_ LOGGER_OPTION_FILE = true)
    (hk : has_option st.logger_options_ LOGGER_OPTION_KEEP_FILE_OPEN = true)
    (hfp : st.fp = some h) (hready : call_ready st.file_name_prefix x) :
    ∃ st2 evs text, run_call st x.1 x.2.1 (some x.2.2) = .ok (st2, evs)
      ∧ file_events evs
        = Event.fwrite h text ::
          (if has_option st.logger_options_ LOGGER_OPTION_FLUSH_FILE then [Event.fflush h] else [])
      ∧ st2.fp = some h ∧ st2.logger_options_ = st.logger_options_
      ∧ LoggerState.file_name_prefix st2 = LoggerState.file_name_prefix st := by
  obtain ⟨hlen, hsev, hfunc, hclass, fn, hstrip⟩ := hready
  have hrun := run_call_eq st x.1 x.2.1 x.2.2 fn (has_option_file_or _ hf) hlen hsev hfunc hclass
    hstrip
  have hfs := file_sink_kept st x.1
    (x.2.2.format (rendered st x.1 x.2.1.length x.2.2.severity x.2.2.theclass x.2.2.func fn
      x.2.2.line)) h hf hk hfp
  have hfl := after_emission_fields st (has_option st.logger_options_ LOGGER_OPTION_SYSLOG)
  rw [hfs] at hrun
  simp only [] at hrun
  refine ⟨_, _, x.2.2.format (rendered st x.1 x.2.1.length x.2.2.severity x.2.2.theclass
    x.2.2.func fn x.2.2.line), hrun, ?_, ?_, hfl.1, hfl.2.2.2⟩
  · rw [file_events_emission st (st, _)]
    simp only []
    split <;> rfl
  · rw [hfl.2.2.1, hfp]

theorem kept_many (calls : List (Env × List Char × MsgCall)) :
    ∀ (st : LoggerState) (h : Nat),
      has_option st.logger_options_ LOGGER_OPTION_FILE = true →
      has_option st.logger_options_ LOGGER_OPTION_KEEP_FILE_OPEN = true →
      st.fp = some h →
      (∀ x ∈ calls, call_ready st.file_name_prefix x) →
      ∃ st2 evs, run_calls st calls = .ok (st2, evs) ∧ st2.fp = some h
        ∧ fopen_count evs = 0 ∧ fclose_count evs = 0 ∧ fwrite_count evs = calls.length := by
  induction calls with
  | nil =>
    intro st h _ _ hfp _
    exact ⟨st, [], rfl, hfp, rfl, rfl, rfl⟩
  | cons x rest ih =>
    intro st h hf hk hfp hall
    obtain ⟨st1, ev1, text, hrun, hfe, hfp1, ho1, hp1⟩ :=
      kept_step st x h hf hk hfp (hall x (List.mem_cons_self _ _))
    obtain ⟨st2, ev2, hrest, hfp2, c1, c2, c3⟩ := ih st1 h (by rw [ho1]; exact hf)
      (by rw [ho1]; exact hk) hfp1
      (fun y hy => by rw [hp1]; exact hall y (List.mem_cons_of_mem _ hy))
    refine ⟨st2, ev1 ++ ev2, ?_, hfp2, ?_, ?_, ?_⟩
    · obtain ⟨env, buff, c⟩ := x
      simp only [] at hrun
      rw [run_calls, hrun]
      simp only []
      rw [hrest]
    · rw [fopen_count_append, c1, ← fopen_count_file_events ev1, hfe]
      split <;> simp [fopen_count, List.countP_cons]
    · rw [fclose_count_append, c2, ← fclose_count_file_events ev1, hfe]
      split <;> simp [fclose_count, List.countP_cons]
    · rw [fwrite_count_append, c3, ← fwrite_count_file_events ev1, hfe]
      simp only [List.length_cons]
      split <;> simp [fwrite_count, List.countP_cons] <;> omega

theorem logger_close_open_handle (st : LoggerState) (h : Nat) (hfp : st.fp = some h) :
    (logger_close st).1.fp = none ∧ fclose_count (logger_close st).2 = 1
      ∧ Event.fclose h ∈ (logger_close st).2 := by
  unfold logger_close
  rw [hfp]
  refine ⟨rfl, ?_, by simp⟩
  simp only [fclose_count_append]
  cases LoggerState.file_name_prefix st <;> cases st.syslog_open <;> rfl

/-- C14: with keep-open and the file sink set and the file openable, `logger_open_ex`
opens the file once and stores the handle; after any number of emissions that handle is
still the stored one, and the emissions made no `fopen` and no `fclose`, only one write
each; `logger_close` then closes that handle. -/
theorem keep_open_one_handle (st : LoggerState) (env : Env) (path : List Char) (options : Nat)
    (file : List Char) (h : Nat)
    (hk : has_option options LOGGER_OPTION_KEEP_FILE_OPEN = true)
    (hf : has_option options LOGGER_OPTION_FILE = true)
    (hopen : env.fopen_result = some h)
    (hsep : '/' ∈ file ∨ '\\' ∈ file) (hN : NUL ∉ file) (hdup : env.strdup_ok = true) :
    ∃ st1 ev1, logger_open_ex st env (some path) options file = .ok (st1, ev1)
      ∧ fopen_count ev1 = 1 ∧ st1.fp = some h
      ∧ ∀ calls : List (Env × List Char × MsgCall),
        (∀ x ∈ calls, call_ready st1.file_name_prefix x) →
        ∃ st2 evs, run_calls st1 calls = .ok (st2, evs) ∧ st2.fp = some h
          ∧ fopen_count evs = 0 ∧ fclose_count evs = 0 ∧ fwrite_count evs = calls.length
          ∧ (logger_close st2).1.fp = none ∧ fclose_count (logger_close st2).2 = 1
          ∧ Event.fclose h ∈ (logger_close st2).2 := by
  obtain ⟨d, sep, post, hfile, hs, h1, h2⟩ := exists_last_separator file hsep
  subst hfile
  simp only [List.mem_append, List.mem_cons, not_or] at hN
  have hcut := cut_at_separator_eq d post sep hs h1 h2 hN.1 hN.2.2
  obtain ⟨st1, ev1, hop, hc, hfp, ho, _, _⟩ :=
    logger_open_ex_keep st env path options (d ++ sep :: post) _ hk hf hdup hcut
  refine ⟨st1, ev1, hop, hc, by rw [hfp, hopen], ?_⟩
  intro calls hall
  obtain ⟨st2, evs, hrun, hfp2, c1, c2, c3⟩ := kept_many calls st1 h (by rw [ho]; exact hf)
    (by rw [ho]; exact hk) (by rw [hfp, hopen]) hall
  exact ⟨st2, evs, hrun, hfp2, c1, c2, c3, logger_close_open_handle st2 h hfp2⟩

/-- C15: `logger_close` leaves the file handle absent, the prefix absent and the syslog
session closed; a second `logger_close` right after makes no `fclose`, no `free` and no
`closelog` (only the mutex is destroyed again) and leaves the state as the first one left
it. -/
theorem close_twice (st : LoggerState) :
    (logger_close st).1.fp = none
    ∧ LoggerState.file_name_prefix (logger_close st).1 = none
    ∧ (logger_close st).1.syslog_open = false
    ∧ (logger_close (logger_close st).1).2 = [Event.mutex_destroy]
    ∧ (logger_close (logger_close st).1).1 = (logger_close st).1 :=
  ⟨rfl, rfl, rfl, rfl, rfl⟩

/-! ## A failed open -/

theorem file_writes_syslog_open (st : LoggerState) :
    file_writes (logger_syslog_open_ st).2 = [] := by
  unfold logger_syslog_open_
  split <;> rfl

/-- C16: with the file and stderr sinks enabled, no open handle and a path, an emission
during which `fopen` fails returns normally: nothing is written to a file, the whole line
is written to stderr, and the handle stays absent; the next emission calls `fopen` on the
path again. -/
theorem open_failure_is_silent (st : LoggerState) (x y : Env × List Char × MsgCall)
    (path : List Char)
    (hf : has_option st.logger_options_ LOGGER_OPTION_FILE = true)
    (hs : has_option st.logger_options_ LOGGER_OPTION_STDERR = true)
    (hfp : st.fp = none) (hpath : st.log_file = some path)
    (hfail : x.1.fopen_result = none)
    (hx : call_ready st.file_name_prefix x) (hy : call_ready st.file_name_prefix y) :
    ∃ st2 evs fn, run_call st x.1 x.2.1 (some x.2.2) = .ok (st2, evs)
      ∧ logger_stripfile st.file_name_prefix x.2.2.file = .ok fn
      ∧ file_writes evs = []
      ∧ stderr_writes evs = [x.2.2.format (rendered st x.1 x.2.1.length x.2.2.severity
          x.2.2.theclass x.2.2.func fn x.2.2.line)]
      ∧ st2.fp = none
      ∧ ∃ st3 evs2, run_call st2 y.1 y.2.1 (some y.2.2) = .ok (st3, evs2)
        ∧ Event.fopen path y.1.fopen_result ∈ evs2 := by
  obtain ⟨hlen, hsev, hfunc, hclass, fn, hstrip⟩ := hx
  have hrun := run_call_eq st x.1 x.2.1 x.2.2 fn (has_option_file_or _ hf) hlen hsev hfunc hclass
    hstrip
  have hfs := file_sink_open_fails st x.1
    (x.2.2.format (rendered st x.1 x.2.1.length x.2.2.severity x.2.2.theclass x.2.2.func fn
      x.2.2.line)) path hf hfp hpath hfail
  have hfl := after_emission_fields st (has_option st.logger_options_ LOGGER_OPTION_SYSLOG)
  rw [hfs] at hrun
  simp only [] at hrun
  refine ⟨_, _, fn, hrun, hstrip, ?_, ?_, by rw [hfl.2.2.1, hfp], ?_⟩
  · simp only [file_writes_append, file_writes_lock, file_writes_stderr_sink, List.append_nil]
    split
    · rw [file_writes_append, file_writes_syslog_open]
      rfl
    · rfl
  · simp only [stderr_writes_append, stderr_writes_lock]
    unfold stderr_sink
    rw [if_pos hs]
    split
    · rw [stderr_writes_append, stderr_writes_syslog_open]
      rfl
    · rfl
  · obtain ⟨hlen2, hsev2, hfunc2, hclass2, fn2, hstrip2⟩ := hy
    have hrun2 := run_call_eq
      (if has_option st.logger_options_ LOGGER_OPTION_SYSLOG = true then (logger_syslog_open_ st).1
        else st) y.1 y.2.1 y.2.2 fn2
      (by rw [hfl.1]; exact has_option_file_or _ hf) hlen2 hsev2 hfunc2 hclass2
      (by rw [hfl.2.2.2]; exact hstrip2)
    refine ⟨_, _, hrun2, ?_⟩
    have hmem : ∀ t, Event.fopen path y.1.fopen_result
        ∈ (file_sink (if has_option st.logger_options_ LOGGER_OPTION_SYSLOG = true then
            (logger_syslog_open_ st).1 else st) y.1 t).2 := by
      intro t
      unfold file_sink
      rw [hfl.1, if_pos hf, hfl.2.2.1, hfl.2.1, hfp, hpath]
      simp only []
      cases y.1.fopen_result with
      | none => simp
      | some h =>
        simp only []
        split <;> simp
    simp only [List.cons_append, List.mem_cons, List.mem_append]
    exact Or.inr (Or.inl (Or.inl (Or.inl (hmem _))))

/-! ## The syslog priority -/

theorem syslog_priorities_append (a b : List Event) :
    syslog_priorities (a ++ b) = syslog_priorities a ++ syslog_priorities b := by
  unfold syslog_priorities
  rw [List.filterMap_append]

theorem syslog_priorities_syslog_open (st : LoggerState) :
    syslog_priorities (logger_syslog_open_ st).2 = [] := by
  unfold logger_syslog_open_
  split <;> rfl

theorem syslog_priorities_stderr_sink (st : LoggerState) (text : List Char) :
    syslog_priorities (stderr_sink st text) = [] := by
  unfold stderr_sink
  split <;> rfl

theorem syslog_priorities_file_sink (st : LoggerState) (env : Env) (text : List Char) :
    syslog_priorities (file_sink st env text).2 = [] := by
  unfold file_sink
  split
  · split
    · split <;> split <;> rfl
    · rfl
    · split
      · rfl
      · split <;> split <;> rfl
  · rfl

/-- A syslog part that returns makes one submission, at the priority of the switch. -/
theorem syslog_sink_priorities (st st2 : LoggerState) (buff : List Char) (n : Int)
    (format : List Char → List Char) (ev : List Event)
    (hsys : has_option st.logger_options_ LOGGER_OPTION_SYSLOG = true)
    (h : syslog_sink st buff n format = .ok (st2, ev)) :
    syslog_priorities ev = [syslog_priority n] := by
  unfold syslog_sink at h
  rw [if_pos hsys] at h
  split at h
  · exact Except.noConfusion h
  · simp only [Except.ok.injEq, Prod.mk.injEq] at h
    rw [← h.2, syslog_priorities_append, syslog_priorities_syslog_open]
    rfl

/-- C17: with the syslog sink enabled, whenever `logger_msg_ex_` returns it has made one
syslog submission, at LOG_CRIT for severity 0, LOG_ERR for 1, LOG_WARNING for 2, LOG_INFO
for 3 and LOG_DEBUG for every other integer; and it does return when the file or the
stderr sink is enabled too and the arguments are well formed. -/
theorem syslog_priority_mapping (st : LoggerState) (env : Env) (buff : List Char) (n : Int)
    (c : MsgCall) (hsys : has_option st.logger_options_ LOGGER_OPTION_SYSLOG = true) :
    (∀ st2 evs, logger_msg_ex_ st env buff n c.severity c.theclass c.func c.file c.line c.format
        = .ok (st2, evs) →
      syslog_priorities evs
        = [if n = 0 then Priority.LOG_CRIT
           else if n = 1 then Priority.LOG_ERR
           else if n = 2 then Priority.LOG_WARNING
           else if n = 3 then Priority.LOG_INFO
           else Priority.LOG_DEBUG])
    ∧ (has_option st.logger_options_ (LOGGER_OPTION_FILE ||| LOGGER_OPTION_STDERR) = true →
        call_ready st.file_name_prefix (env, buff, c) →
        ∃ st2 evs, logger_msg_ex_ st env buff n c.severity c.theclass c.func c.file c.line
          c.format = .ok (st2, evs)) := by
  constructor
  · intro st2 evs h
    unfold logger_msg_ex_ at h
    split at h
    · split at h
      · exact Except.noConfusion h
      · rename_i b _
        split at h
        · exact Except.noConfusion h
        · rename_i s2 ev2 hss
          simp only [Except.ok.injEq, Prod.mk.injEq] at h
          have hp := syslog_sink_priorities _ s2 b n c.format ev2
            (by rw [file_sink_options]; exact hsys) hss
          have hl : ∀ l, syslog_priorities (Event.lock :: l) = syslog_priorities l :=
            fun _ => rfl
          rw [← h.2]
          simp only [syslog_priorities_append, hl, syslog_priorities_file_sink,
            syslog_priorities_stderr_sink, hp]
          rfl
    · exact syslog_sink_priorities st st2 buff n c.format evs hsys h
  · intro hopt hready
    obtain ⟨hlen, hsev, hfunc, hclass, fn, hstrip⟩ := hready
    exact ⟨_, _, logger_msg_ex_eq st env buff n c.severity c.theclass c.func c.file c.line
      c.format fn hopt hlen hstrip (metadata_no_NUL_of_ready _ env c fn hsev hfunc hclass hstrip)⟩

/-! ## Sample calls -/

theorem sample_call_ready (p : Option (List Char)) (env : Env) :
    call_ready p (env, sample_buffer, sample_call) := by
  refine ⟨?_, ?_, ?_, ?_, none, rfl⟩
  · show 26 ≤ sample_buffer.length
    rw [sample_buffer_length]
    decide
  · show NUL ∉ sample_call.severity
    decide
  · intro f hf
    exact Option.noConfusion hf
  · intro t ht
    exact Option.noConfusion ht

theorem reopen_each_emission_witness :
    has_option reopen_state.logger_options_ LOGGER_OPTION_FILE = true
    ∧ has_option reopen_state.logger_options_ LOGGER_OPTION_KEEP_FILE_OPEN = false
    ∧ reopen_state.fp = none ∧ reopen_state.log_file = some "t.log".toList
    ∧ ∃ st2 evs, run_calls reopen_state
          [(sample_env, sample_buffer, sample_call), (sample_env, sample_buffer, sample_call)]
        = .ok (st2, evs)
      ∧ st2.fp = none ∧ fopen_count evs = 2 ∧ fwrite_count evs = 2 ∧ fclose_count evs = 2 :=
  ⟨by decide, by decide, rfl, rfl,
    (reopen_each_emission reopen_state "t.log".toList
      [(sample_env, sample_buffer, sample_call), (sample_env, sample_buffer, sample_call)]
      (by decide) (by decide) rfl rfl
      (fun x hx => by
        simp only [List.mem_cons, List.mem_singleton, List.mem_nil_iff, or_false, or_self] at hx
        subst hx
        exact ⟨sample_call_ready _ _, rfl⟩)).2⟩

theorem keep_open_one_handle_witness :
    has_option (LOGGER_OPTION_KEEP_FILE_OPEN ||| LOGGER_OPTION_FILE) LOGGER_OPTION_KEEP_FILE_OPEN
      = true
    ∧ sample_env.fopen_result = some 3
    ∧ ∃ st1 ev1, logger_open_ex initial_state sample_env (some "t.log".toList)
          (LOGGER_OPTION_KEEP_FILE_OPEN ||| LOGGER_OPTION_FILE) "/src/main.c".toList
        = .ok (st1, ev1)
      ∧ fopen_count ev1 = 1 ∧ st1.fp = some 3
      ∧ ∃ st2 evs, run_calls st1
            [(sample_env, sample_buffer, sample_call), (sample_env, sample_buffer, sample_call)]
          = .ok (st2, evs)
        ∧ st2.fp = some 3 ∧ fopen_count evs = 0 ∧ fclose_count evs = 0 ∧ fwrite_count evs = 2 :=
  ⟨by decide, rfl,
    (keep_open_one_handle initial_state sample_env "t.log".toList
      (LOGGER_OPTION_KEEP_FILE_OPEN ||| LOGGER_OPTION_FILE) "/src/main.c".toList 3
      (by decide) (by decide) rfl (by decide) (by decide) rfl).imp
      (fun st1 h1 => h1.imp (fun _ h2 => ⟨h2.1, h2.2.1, h2.2.2.1,
        (h2.2.2.2
          [(sample_env, sample_buffer, sample_call), (sample_env, sample_buffer, sample_call)]
          (fun x hx => by
            simp only [List.mem_cons, List.mem_singleton, List.mem_nil_iff, or_false,
              or_self] at hx
            subst hx
            exact sample_call_ready _ _)).imp
          (fun _ h3 => h3.imp (fun _ h4 => ⟨h4.1, h4.2.1, h4.2.2.1, h4.2.2.2.1, h4.2.2.2.2.1⟩))⟩))⟩

theorem open_failure_is_silent_witness :
    has_option file_stderr_state.logger_options_ LOGGER_OPTION_FILE = true
    ∧ has_option file_stderr_state.logger_options_ LOGGER_OPTION_STDERR = true
    ∧ failing_env.fopen_result = none
    ∧ ∃ st2 evs, run_call file_stderr_state failing_env sample_buffer (some sample_call)
          = .ok (st2, evs)
      ∧ file_writes evs = []
      ∧ stderr_writes evs = ["2024-01-05 07:08:09 (4242) [WARN] disk almost full\n".toList]
      ∧ st2.fp = none
      ∧ ∃ st3 evs2, run_call st2 sample_env sample_buffer (some sample_call) = .ok (st3, evs2)
        ∧ Event.fopen "t.log".toList (some 3) ∈ evs2 :=
  ⟨by decide, by decide, rfl,
    (open_failure_is_silent file_stderr_state (failing_env, sample_buffer, sample_call)
      (sample_env, sample_buffer, sample_call) "t.log".toList (by decide) (by decide) rfl rfl rfl
      (sample_call_ready _ _) (sample_call_ready _ _)).imp
      (fun _ h1 => h1.elim (fun _ h2 => h2.elim (fun fn h3 =>
        ⟨_, h3.1, h3.2.2.1,
          h3.2.2.2.1.trans (by
            have hfn : fn = none := by
              have := h3.2.1
              exact (Except.ok.inj this).symm
            subst hfn
            rw [sample_buffer_length]
            decide),
          h3.2.2.2.2.1, h3.2.2.2.2.2⟩)))⟩

theorem syslog_priority_mapping_witness :
    has_option syslog_state.logger_options_ LOGGER_OPTION_SYSLOG = true
    ∧ ∃ st2 evs, logger_msg_ex_ syslog_state sample_env sample_buffer 3 sample_call.severity
          sample_call.theclass sample_call.func sample_call.file sample_call.line
          sample_call.format = .ok (st2, evs)
      ∧ syslog_priorities evs = [Priority.LOG_INFO] :=
  ⟨by decide,
    ((syslog_priority_mapping syslog_state sample_env sample_buffer 3 sample_call
      (by decide)).2 (by decide) (sample_call_ready _ _)).imp
      (fun st2 h1 => h1.imp (fun evs h2 =>
        ⟨h2, ((syslog_priority_mapping syslog_state sample_env sample_buffer 3 sample_call
          (by decide)).1 st2 evs h2).trans (by decide)⟩))⟩

/-- C18 (the code at the failing input): at level INFO with the syslog sink enabled,
`log_info` passes the severity 2, the rank of WARN, not `LOGGER_LEVEL_INFO`, and its
record is submitted to syslog at LOG_WARNING, the priority `log_warn` gets; `log_error`
passes 1 and `log_warn` 2, and severity 3 would give LOG_INFO. -/
theorem log_info_submits_at_warning :
    (log_info syslog_state "started".toList).map MsgCall.nseverity = some 2
    ∧ (2 : Int) ≠ LOGGER_LEVEL_INFO
    ∧ (∃ st2 evs, run_call syslog_state sample_env sample_buffer
          (log_info syslog_state "started".toList) = .ok (st2, evs)
        ∧ syslog_priorities evs = [Priority.LOG_WARNING])
    ∧ (∃ st2 evs, run_call syslog_state sample_env sample_buffer
          (log_warn syslog_state "started".toList) = .ok (st2, evs)
        ∧ syslog_priorities evs = [Priority.LOG_WARNING])
    ∧ (log_error syslog_state "started".toList).map MsgCall.nseverity = some 1
    ∧ (log_warn syslog_state "started".toList).map MsgCall.nseverity = some 2
    ∧ syslog_priority 3 = Priority.LOG_INFO :=
  ⟨by decide, by decide, ⟨_, _, rfl, by decide⟩, ⟨_, _, rfl, by decide⟩, by decide, by decide,
    by decide⟩

/-- C19 (the code at the failing input): from the initial state, `logger_open_ex` with
keep-open and the file sink opens the file; a second `logger_open_ex` with only the
stderr sink returns with the handle still present and never closed, while the file flag
of the current options is unset. -/
theorem handle_survives_reopen :
    ∃ st1 ev1 st2 ev2,
      logger_open_ex initial_state sample_env (some "t.log".toList)
        (LOGGER_OPTION_KEEP_FILE_OPEN ||| LOGGER_OPTION_FILE) "/src/main.c".toList
        = .ok (st1, ev1)
      ∧ logger_open_ex st1 sample_env (some "t.log".toList) LOGGER_OPTION_STDERR
        "/src/main.c".toList = .ok (st2, ev2)
      ∧ st2.fp = some 3
      ∧ has_option st2.logger_options_ LOGGER_OPTION_FILE = false
      ∧ fclose_count (ev1 ++ ev2) = 0 :=
  ⟨_, _, _, _, rfl, rfl, by decide, by decide, by decide⟩

/-! ## The feature masks -/

theorem bitnot32_testBit (x i : Nat) :
    (bitnot32 x).testBit i = (decide (i < 32) && !x.testBit i) := by
  unfold bitnot32
  rw [Nat.testBit_xor, Nat.testBit_two_pow_sub_one, Nat.testBit_mod_two_pow]
  by_cases h : i < 32 <;> simp [h]

theorem and_bitnot32_and_self (m F : Nat) : (m &&& bitnot32 F) &&& F = 0 := by
  apply Nat.eq_of_testBit_eq
  intro i
  rw [Nat.testBit_and, Nat.testBit_and, bitnot32_testBit, Nat.zero_testBit]
  cases F.testBit i <;> simp

theorem or_and_self (m F : Nat) : (m ||| F) &&& F = F := by
  apply Nat.eq_of_testBit_eq
  intro i
  rw [Nat.testBit_and, Nat.testBit_or]
  cases F.testBit i <;> simp

/-- C20: `logger_enable_debug(F)` makes the debug mask `old | F` and
`logger_disable_debug(F)` makes it `old & ~F`, where `~F` has, among the 32 bits, exactly
those not in F; afterwards the feature test of F is true (for F other than 0)
respectively false; a bit outside F keeps its value, and putting the old mask back gives
the old state, so the other mask, the threshold, the options and every other global are
unchanged. The same holds for `logger_enable_trace` and `logger_disable_trace` on the
trace mask. -/
theorem mask_setters (st : LoggerState) (F : Nat) :
    ((logger_enable_debug st F).logger_debug_mask_ = st.logger_debug_mask_ ||| F
      ∧ (logger_disable_debug st F).logger_debug_mask_ = st.logger_debug_mask_ &&& bitnot32 F
      ∧ (F ≠ 0 → logger_is_debug_feature (logger_enable_debug st F) F = true)
      ∧ logger_is_debug_feature (logger_disable_debug st F) F = false
      ∧ (∀ i, F.testBit i = false →
          (logger_enable_debug st F).logger_debug_mask_.testBit i
            = st.logger_debug_mask_.testBit i)
      ∧ (∀ i, i < 32 → F.testBit i = false →
          (logger_disable_debug st F).logger_debug_mask_.testBit i
            = st.logger_debug_mask_.testBit i)
      ∧ { logger_enable_debug st F with logger_debug_mask_ := st.logger_debug_mask_ } = st
      ∧ { logger_disable_debug st F with logger_debug_mask_ := st.logger_debug_mask_ } = st)
    ∧ ((logger_enable_trace st F).logger_trace_mask_ = st.logger_trace_mask_ ||| F
      ∧ (logger_disable_trace st F).logger_trace_mask_ = st.logger_trace_mask_ &&& bitnot32 F
      ∧ (F ≠ 0 → logger_is_trace_feature (logger_enable_trace st F) F = true)
      ∧ logger_is_trace_feature (logger_disable_trace st F) F = false
      ∧ (∀ i, F.testBit i = false →
          (logger_enable_trace st F).logger_trace_mask_.testBit i
            = st.logger_trace_mask_.testBit i)
      ∧ (∀ i, i < 32 → F.testBit i = false →
          (logger_disable_trace st F).logger_trace_mask_.testBit i
            = st.logger_trace_mask_.testBit i)
      ∧ { logger_enable_trace st F with logger_trace_mask_ := st.logger_trace_mask_ } = st
      ∧ { logger_disable_trace st F with logger_trace_mask_ := st.logger_trace_mask_ } = st)
    ∧ ∀ i, (bitnot32 F).testBit i = (decide (i < 32) && !F.testBit i) := by
  refine ⟨⟨rfl, rfl, ?_, ?_, ?_, ?_, rfl, rfl⟩, ⟨rfl, rfl, ?_, ?_, ?_, ?_, rfl, rfl⟩,
    bitnot32_testBit F⟩
  · intro hF
    show (((st.logger_debug_mask_ ||| F) &&& F) != 0) = true
    rw [or_and_self]
    simpa using hF
  · show (((st.logger_debug_mask_ &&& bitnot32 F) &&& F) != 0) = false
    rw [and_bitnot32_and_self]
    rfl
  · intro i hi
    show (st.logger_debug_mask_ ||| F).testBit i = _
    rw [Nat.testBit_or, hi, Bool.or_false]
  · intro i hlt hi
    show (st.logger_debug_mask_ &&& bitnot32 F).testBit i = _
    rw [Nat.testBit_and, bitnot32_testBit, hi]
    simp [hlt]
  · intro hF
    show (((st.logger_trace_mask_ ||| F) &&& F) != 0) = true
    rw [or_and_self]
    simpa using hF
  · show (((st.logger_trace_mask_ &&& bitnot32 F) &&& F) != 0) = false
    rw [and_bitnot32_and_self]
    rfl
  · intro i hi
    show (st.logger_trace_mask_ ||| F).testBit i = _
    rw [Nat.testBit_or, hi, Bool.or_false]
  · intro i hlt hi
    show (st.logger_trace_mask_ &&& bitnot32 F).testBit i = _
    rw [Nat.testBit_and, bitnot32_testBit, hi]
    simp [hlt]

/-! ## The packed word of loggerux.c -/

theorem and_two_pow_ne_zero (y j : Nat) : y &&& 2 ^ j ≠ 0 ↔ y.testBit j = true := by
  have h : y &&& 2 ^ j = if y.testBit j = true then 2 ^ j else 0 := by
    apply Nat.eq_of_testBit_eq
    intro i
    rw [Nat.testBit_and, Nat.testBit_two_pow]
    by_cases hij : j = i
    · subst hij
      cases hy : y.testBit j <;> simp [Nat.testBit_two_pow]
    · cases hy : y.testBit j <;> simp [hij, Nat.testBit_two_pow]
  rw [h]
  cases hy : y.testBit j
  · simp
  · simp only [if_true, ne_eq, iff_true]
    exact Nat.ne_of_gt (Nat.pow_pos (by decide))

theorem testBit_seven (i : Nat) : (7 : Nat).testBit i = decide (i < 3) := by
  have h := Nat.testBit_two_pow_sub_one 3 i
  simpa using h

/-- A bit of the packed word after the level bits were replaced by `k`. -/
theorem testBit_level_replaced (x k i : Nat) :
    ((x &&& bitnot32 Ux.LEVEL_BITS_MASK) ||| k).testBit i
      = ((x.testBit i && (decide (i < 32) && !decide (i < 3))) || k.testBit i) := by
  have hm : Ux.LEVEL_BITS_MASK = 7 := rfl
  rw [Nat.testBit_or, Nat.testBit_and, bitnot32_testBit, hm, testBit_seven]

theorem small_testBit (k i : Nat) (hk : k < 8) (hi : 3 ≤ i) : k.testBit i = false := by
  apply Nat.testBit_lt_two_pow
  calc k < 2 ^ 3 := hk
    _ ≤ 2 ^ i := Nat.pow_le_pow_right (by decide) hi

theorem shiftRight_level_replaced (x k : Nat) (hx : x < 2 ^ 32) (hk : k < 8) :
    ((x &&& bitnot32 Ux.LEVEL_BITS_MASK) ||| k) >>> Ux.LEVEL_BITS = x >>> Ux.LEVEL_BITS := by
  have hb : Ux.LEVEL_BITS = 3 := rfl
  apply Nat.eq_of_testBit_eq
  intro i
  rw [Nat.testBit_shiftRight, Nat.testBit_shiftRight, testBit_level_replaced, hb,
    small_testBit k (3 + i) hk (by omega)]
  by_cases h32 : 3 + i < 32
  · have h3 : ¬ (3 + i < 3) := by omega
    simp [h32, h3]
  · have hx2 : x.testBit (3 + i) = false := by
      apply Nat.testBit_lt_two_pow
      calc x < 2 ^ 32 := hx
        _ ≤ 2 ^ (3 + i) := Nat.pow_le_pow_right (by decide) (by omega)
    simp [hx2]

theorem level_bit_replaced (x k j : Nat) (hj : j < 3) :
    ((x &&& bitnot32 Ux.LEVEL_BITS_MASK) ||| k).testBit j = k.testBit j := by
  rw [testBit_level_replaced]
  simp [hj]

/-- C22: in loggerux, for a 32-bit packed word and a level L among FATAL, ERROR, WARN and
INFO, after `logger_set_level(L)` the test `logger_is_error()` is non-zero iff L is at
least ERROR, `logger_is_warn()` iff L is at least WARN, `logger_is_info()` iff L is at
least INFO, and `logger_get_debug_mask()` returns what it returned before. -/
theorem ux_set_level (st : Ux.State) (L : Nat) (hL : L ≤ LOGGER_LEVEL_INFO)
    (hst : st._logger_log_level < 2 ^ 32) :
    (Ux.logger_is_error (Ux.logger_set_level st L) ≠ 0 ↔ L ≥ LOGGER_LEVEL_ERROR)
    ∧ (Ux.logger_is_warn (Ux.logger_set_level st L) ≠ 0 ↔ L ≥ LOGGER_LEVEL_WARN)
    ∧ (Ux.logger_is_info (Ux.logger_set_level st L) ≠ 0 ↔ L ≥ LOGGER_LEVEL_INFO)
    ∧ Ux.logger_get_debug_mask (Ux.logger_set_level st L) = Ux.logger_get_debug_mask st := by
  have h0 : (1 : Nat) <<< 0 = 2 ^ 0 := rfl
  have h1 : (1 : Nat) <<< 1 = 2 ^ 1 := rfl
  have h2 : (1 : Nat) <<< 2 = 2 ^ 2 := rfl
  have hL3 : L ≤ 3 := hL
  unfold Ux.logger_is_error Ux.logger_is_warn Ux.logger_is_info Ux.logger_get_debug_mask
  rw [h0, h1, h2, and_two_pow_ne_zero, and_two_pow_ne_zero, and_two_pow_ne_zero]
  interval_cases L
  · have e : (Ux.logger_set_level st 0)._logger_log_level
        = (st._logger_log_level &&& bitnot32 Ux.LEVEL_BITS_MASK) ||| 0 := rfl
    rw [e, level_bit_replaced _ _ 0 (by decide), level_bit_replaced _ _ 1 (by decide),
      level_bit_replaced _ _ 2 (by decide)]
    exact ⟨by decide, by decide, by decide, shiftRight_level_replaced _ 0 hst (by decide)⟩
  · have e : (Ux.logger_set_level st 1)._logger_log_level
        = (st._logger_log_level &&& bitnot32 Ux.LEVEL_BITS_MASK) ||| 1 := rfl
    rw [e, level_bit_replaced _ _ 0 (by decide), level_bit_replaced _ _ 1 (by decide),
      level_bit_replaced _ _ 2 (by decide)]
    exact ⟨by decide, by decide, by decide, shiftRight_level_replaced _ 1 hst (by decide)⟩
  · have e : (Ux.logger_set_level st 2)._logger_log_level
        = (st._logger_log_level &&& bitnot32 Ux.LEVEL_BITS_MASK) ||| 3 := rfl
    rw [e, level_bit_replaced _ _ 0 (by decide), level_bit_replaced _ _ 1 (by decide),
      level_bit_replaced _ _ 2 (by decide)]
    exact ⟨by decide, by decide, by decide, shiftRight_level_replaced _ 3 hst (by decide)⟩
  · have e : (Ux.logger_set_level st 3)._logger_log_level
        = (st._logger_log_level &&& bitnot32 Ux.LEVEL_BITS_MASK) ||| 7 := rfl
    rw [e, level_bit_replaced _ _ 0 (by decide), level_bit_replaced _ _ 1 (by decide),
      level_bit_replaced _ _ 2 (by decide)]
    exact ⟨by decide, by decide, by decide, shiftRight_level_replaced _ 7 hst (by decide)⟩

theorem ux_set_level_witness :
    LOGGER_LEVEL_WARN ≤ LOGGER_LEVEL_INFO ∧ (0xFFFFFFFF : Nat) < 2 ^ 32
    ∧ (Ux.logger_is_error (Ux.logger_set_level ⟨0xFFFFFFFF, LOGGER_OPTION_FILE⟩ LOGGER_LEVEL_WARN)
        ≠ 0 ↔ LOGGER_LEVEL_WARN ≥ LOGGER_LEVEL_ERROR)
    ∧ (Ux.logger_is_warn (Ux.logger_set_level ⟨0xFFFFFFFF, LOGGER_OPTION_FILE⟩ LOGGER_LEVEL_WARN)
        ≠ 0 ↔ LOGGER_LEVEL_WARN ≥ LOGGER_LEVEL_WARN)
    ∧ (Ux.logger_is_info (Ux.logger_set_level ⟨0xFFFFFFFF, LOGGER_OPTION_FILE⟩ LOGGER_LEVEL_WARN)
        ≠ 0 ↔ LOGGER_LEVEL_WARN ≥ LOGGER_LEVEL_INFO)
    ∧ Ux.logger_get_debug_mask (Ux.logger_set_level ⟨0xFFFFFFFF, LOGGER_OPTION_FILE⟩
        LOGGER_LEVEL_WARN) = Ux.logger_get_debug_mask ⟨0xFFFFFFFF, LOGGER_OPTION_FILE⟩ :=
  ⟨by decide, by decide,
    ux_set_level ⟨0xFFFFFFFF, LOGGER_OPTION_FILE⟩ LOGGER_LEVEL_WARN (by decide) (by decide)⟩

/-- A bit of the packed word after `logger_set_debug_mask(m)`. -/
theorem testBit_mask_set (x m i : Nat) :
    ((x &&& Ux.LEVEL_BITS_MASK) ||| ((m % 2 ^ 32) <<< Ux.LEVEL_BITS) % 2 ^ 32).testBit i
      = ((x.testBit i && decide (i < 3))
        || (decide (i < 32) && (decide (i ≥ 3) && (decide (i - 3 < 32) && m.testBit (i - 3))))) := by
  have hm : Ux.LEVEL_BITS_MASK = 7 := rfl
  have hb : Ux.LEVEL_BITS = 3 := rfl
  rw [Nat.testBit_or, Nat.testBit_and, hm, hb, testBit_seven, Nat.testBit_mod_two_pow,
    Nat.testBit_shiftLeft, Nat.testBit_mod_two_pow]

/-- C23: in loggerux, after `logger_set_debug_mask(m)` the function
`logger_get_debug_mask()` returns m modulo 2^29, so m itself when m is below 2^29; the
three level bits are as before; `logger_is_debug(f)` is non-zero iff bit f of m is set,
for every feature f up to 28, and zero for every f from 29 on. -/
theorem ux_set_debug_mask (st : Ux.State) (m : Nat) :
    Ux.logger_get_debug_mask (Ux.logger_set_debug_mask st m) = m % 2 ^ 29
    ∧ (m < 2 ^ 29 → Ux.logger_get_debug_mask (Ux.logger_set_debug_mask st m) = m)
    ∧ (Ux.logger_set_debug_mask st m)._logger_log_level &&& Ux.LEVEL_BITS_MASK
      = st._logger_log_level &&& Ux.LEVEL_BITS_MASK
    ∧ (∀ f, f < 29 →
        (Ux.logger_is_debug (Ux.logger_set_debug_mask st m) f ≠ 0 ↔ m.testBit f = true))
    ∧ (∀ f, 29 ≤ f → Ux.logger_is_debug (Ux.logger_set_debug_mask st m) f = 0) := by
  have hb : Ux.LEVEL_BITS = 3 := rfl
  have hm : Ux.LEVEL_BITS_MASK = 7 := rfl
  have hget : Ux.logger_get_debug_mask (Ux.logger_set_debug_mask st m) = m % 2 ^ 29 := by
    unfold Ux.logger_get_debug_mask Ux.logger_set_debug_mask
    apply Nat.eq_of_testBit_eq
    intro i
    simp only []
    rw [Nat.testBit_shiftRight, testBit_mask_set, hb, Nat.testBit_mod_two_pow]
    have h3 : ¬ (3 + i < 3) := by omega
    have h4 : 3 + i - 3 = i := by omega
    by_cases h : i < 29
    · have h5 : 3 + i < 32 := by omega
      have h6 : i < 32 := by omega
      simp [h, h3, h4, h5, h6]
    · have h5 : ¬ (3 + i < 32) := by omega
      simp [h, h3, h5]
  refine ⟨hget, ?_, ?_, ?_, ?_⟩
  · intro hlt
    rw [hget, Nat.mod_eq_of_lt hlt]
  · unfold Ux.logger_set_debug_mask
    apply Nat.eq_of_testBit_eq
    intro i
    simp only []
    rw [Nat.testBit_and, testBit_mask_set, Nat.testBit_and, hm, testBit_seven]
    by_cases h : i < 3
    · have h2 : ¬ (i ≥ 3) := by omega
      simp [h, h2]
    · simp [h]
  · intro f hf
    unfold Ux.logger_is_debug Ux.logger_set_debug_mask
    simp only []
    have h8 : (8 <<< f) % 2 ^ 32 = 2 ^ (f + 3) := by
      rw [Nat.shiftLeft_eq, show (8 : Nat) = 2 ^ 3 from rfl, ← Nat.pow_add, Nat.add_comm 3 f]
      apply Nat.mod_eq_of_lt
      exact Nat.pow_lt_pow_right (by decide) (by omega)
    have hcond : ((st._logger_log_level &&& Ux.LEVEL_BITS_MASK
        ||| (m % 2 ^ 32) <<< Ux.LEVEL_BITS % 2 ^ 32) &&& ((8 <<< f) % 2 ^ 32) ≠ 0)
        ↔ m.testBit f = true := by
      rw [h8, and_two_pow_ne_zero, testBit_mask_set]
      have e1 : ¬ (f + 3 < 3) := by omega
      have e2 : f + 3 < 32 := by omega
      have e3 : f + 3 - 3 = f := by omega
      have e4 : f < 32 := by omega
      have e5 : f + 3 ≥ 3 := by omega
      simp [e1, e2, e3, e4, e5]
    by_cases hbit : m.testBit f = true
    · rw [if_pos ⟨hf, hcond.2 hbit⟩]
      simp [hbit]
    · rw [if_neg (fun h => hbit (hcond.1 h.2))]
      simp [hbit]
  · intro f hf
    unfold Ux.logger_is_debug
    rw [if_neg]
    intro h
    omega

/-! ## The variant loggerex at the setup of its test program -/

/-- C21 (the code at the failing input): in loggerex, after `logger_open` with the options
of the test program and `logger_set_log_level(LOGGER_LEVEL_TRACE)`, the predicate
`logger_is_warn()` holds but `log_warn` has no effect at all, because its test is
`_logger_log_level & (1 << 1)` and 5 has no bit 1; `log_fatal`, `log_error` and `log_info`
write. At level WARN, `logger_is_error()` holds and `log_error` has no effect. -/
theorem ex_log_warn_silent_at_trace :
    ∃ st1 ev1, Ex.logger_open Ex.initial_state sample_env (some "loggerex.log".toList)
        test_options = .ok (st1, ev1)
      ∧ Ex.logger_is_warn (Ex.logger_set_log_level st1 LOGGER_LEVEL_TRACE) = true
      ∧ (Ex.log_warn (Ex.logger_set_log_level st1 LOGGER_LEVEL_TRACE) sample_env sample_stamp
          "Warning: 345".toList).2 = []
      ∧ writes_output (Ex.log_fatal (Ex.logger_set_log_level st1 LOGGER_LEVEL_TRACE) sample_env
          sample_stamp "Fatal error: 123".toList).2 = true
      ∧ writes_output (Ex.log_error (Ex.logger_set_log_level st1 LOGGER_LEVEL_TRACE) sample_env
          sample_stamp "Error: 234".toList).2 = true
      ∧ writes_output (Ex.log_info (Ex.logger_set_log_level st1 LOGGER_LEVEL_TRACE) sample_env
          sample_stamp "Status: 456".toList).2 = true
      ∧ Ex.logger_is_error (Ex.logger_set_log_level st1 LOGGER_LEVEL_WARN) = true
      ∧ (Ex.log_error (Ex.logger_set_log_level st1 LOGGER_LEVEL_WARN) sample_env sample_stamp
          "Error: 234".toList).2 = [] :=
  ⟨_, _, rfl, by decide, by decide, by decide, by decide, by decide, by decide, by decide⟩

/-- In loggerex each of `log_error`, `log_warn` and `log_info` has an effect only if the
level has bit 0, bit 1, bit 2. -/
theorem ex_gate_is_bit_test (st : Ex.State) (env : Env) (stamp m : List Char) :
    (st._logger_log_level &&& 1 = 0 → Ex.log_error st env stamp m = (st, []))
    ∧ (st._logger_log_level &&& 2 = 0 → Ex.log_warn st env stamp m = (st, []))
    ∧ (st._logger_log_level &&& 4 = 0 → Ex.log_info st env stamp m = (st, [])) := by
  refine ⟨?_, ?_, ?_⟩
  · intro h
    unfold Ex.log_error
    have e : (1 : Nat) <<< 0 = 1 := rfl
    rw [e, h]
    rfl
  · intro h
    unfold Ex.log_warn
    have e : (1 : Nat) <<< 1 = 2 := rfl
    rw [e, h]
    rfl
  · intro h
    unfold Ex.log_info
    have e : (1 : Nat) <<< 2 = 4 := rfl
    rw [e, h]
    rfl

/-! ## The syslog part of logger_msg_ex_ -/

/-- C26 (the code at the failing input): a `log_warn` record with the stderr and syslog
sinks: stderr gets the line with the tag `[WARN]`, while the text submitted to syslog is
made from the array after the strip, whose last character, the `]`, is gone: the store
`buff[slen - len - 1] = 0` lands on the last character moved. -/
theorem syslog_strip_loses_last_character :
    ∃ st2 evs, run_call syslog_state sample_env sample_buffer (some sample_call) = .ok (st2, evs)
      ∧ stderr_writes evs = ["2024-01-05 07:08:09 (4242) [WARN] disk almost full\n".toList]
      ∧ syslog_writes evs = ["(4242) [WARN disk almost full\n".toList]
      ∧ ("2024-01-05 07:08:09 (4242) [WARN]".toList.drop 20) = "(4242) [WARN]".toList :=
  ⟨_, _, rfl, by decide, by decide, by decide⟩

/-- C27 (as stated, refuted): with the stderr and syslog sinks and keep-open unset, after
an emission the syslog session is open, and the emission made no `closelog`. -/
theorem syslog_session_counterexample :
    ∃ st2 evs, run_call syslog_state sample_env sample_buffer (some sample_call) = .ok (st2, evs)
      ∧ has_option syslog_state.logger_options_ LOGGER_OPTION_KEEP_FILE_OPEN = false
      ∧ syslog_state.syslog_open = false
      ∧ Event.openlog ∈ evs
      ∧ st2.syslog_open = true
      ∧ Event.closelog ∉ evs :=
  ⟨_, _, rfl, by decide, rfl, by decide, by decide, by decide⟩

/-- C29 (the code at the failing input): with only the syslog sink enabled `log_error`
calls `logger_msg_ex_`, which prints nothing into the array and submits what the array
held before: two calls of the same record at the same time and thread submit different
texts when the array held different strings, and an array without a `NUL` is read past
its end. -/
theorem syslog_only_reads_stale_array :
    has_option syslog_only_state.logger_options_ LOGGER_OPTION_SYSLOG = true
    ∧ (∃ st1 ev1, run_call syslog_only_state sample_env (stale_buffer 'a')
          (log_error syslog_only_state "disk full".toList) = .ok (st1, ev1)
        ∧ syslog_writes ev1 = ["aaaaaaaaa disk full\n".toList])
    ∧ (∃ st2 ev2, run_call syslog_only_state sample_env (stale_buffer 'b')
          (log_error syslog_only_state "disk full".toList) = .ok (st2, ev2)
        ∧ syslog_writes ev2 = ["bbbbbbbbb disk full\n".toList])
    ∧ run_call syslog_only_state sample_env sample_buffer
        (log_error syslog_only_state "disk full".toList) = .error Fault.out_of_bounds :=
  ⟨by decide, ⟨_, _, rfl, by decide⟩, ⟨_, _, rfl, by decide⟩, rfl⟩

/-! ## The syslog session over emissions -/

theorem file_sink_file_name_prefix (st : LoggerState) (env : Env) (text : List Char) :
    LoggerState.file_name_prefix (file_sink st env text).1 = LoggerState.file_name_prefix st := by
  unfold file_sink
  split
  · split
    · split <;> rfl
    · rfl
    · split
      · rfl
      · split <;> rfl
  · rfl

theorem file_sink_no_session_event (st : LoggerState) (env : Env) (text : List Char) :
    (file_sink st env text).2.count Event.closelog = 0
    ∧ (file_sink st env text).2.count Event.openlog = 0 := by
  unfold file_sink
  split
  · split
    · split <;> split <;> exact ⟨by simp, by simp⟩
    · exact ⟨rfl, rfl⟩
    · split
      · exact ⟨by simp, by simp⟩
      · split <;> split <;> exact ⟨by simp, by simp⟩
  · exact ⟨rfl, rfl⟩

theorem stderr_sink_no_session_event (st : LoggerState) (text : List Char) :
    (stderr_sink st text).count Event.closelog = 0
    ∧ (stderr_sink st text).count Event.openlog = 0 := by
  unfold stderr_sink
  split
  · exact ⟨by simp, by simp⟩
  · exact ⟨rfl, rfl⟩

theorem syslog_open_session (s : LoggerState) :
    (logger_syslog_open_ s).1.syslog_open = true
    ∧ (logger_syslog_open_ s).2.count Event.closelog = 0
    ∧ (logger_syslog_open_ s).2.count Event.openlog = (if s.syslog_open = true then 0 else 1) := by
  unfold logger_syslog_open_
  cases h : s.syslog_open
  · exact ⟨rfl, by simp, by simp⟩
  · exact ⟨h, by simp, by simp⟩

/-- One emission with the syslog sink and the file or the stderr sink: the session is
open afterwards, no `closelog` was made, and `openlog` was made iff the session was
closed. -/
theorem session_step (st : LoggerState) (x : Env × List Char × MsgCall)
    (hsys : has_option st.logger_options_ LOGGER_OPTION_SYSLOG = true)
    (hopt : has_option st.logger_options_ (LOGGER_OPTION_FILE ||| LOGGER_OPTION_STDERR) = true)
    (hready : call_ready st.file_name_prefix x) :
    ∃ st2 evs, run_call st x.1 x.2.1 (some x.2.2) = .ok (st2, evs)
      ∧ st2.logger_options_ = st.logger_options_
      ∧ LoggerState.file_name_prefix st2 = LoggerState.file_name_prefix st
      ∧ st2.syslog_open = true
      ∧ evs.count Event.closelog = 0
      ∧ evs.count Event.openlog = (if st.syslog_open = true then 0 else 1) := by
  obtain ⟨hlen, hsev, hfunc, hclass, fn, hstrip⟩ := hready
  refine ⟨_, _, run_call_eq st x.1 x.2.1 x.2.2 fn hopt hlen hsev hfunc hclass hstrip, ?_, ?_, ?_,
    ?_, ?_⟩
  · rw [if_pos hsys, (syslog_open_fields _).1, file_sink_options]
  · rw [if_pos hsys, (syslog_open_fields _).2.2.2, file_sink_file_name_prefix]
  · rw [if_pos hsys]
    exact (syslog_open_session _).1
  · rw [if_pos hsys]
    simp only [List.count_cons, List.count_append, List.count_nil,
      (file_sink_no_session_event _ _ _).1, (stderr_sink_no_session_event _ _).1,
      (syslog_open_session _).2.1]
    simp
  · rw [if_pos hsys]
    simp only [List.count_cons, List.count_append, List.count_nil,
      (file_sink_no_session_event _ _ _).2, (stderr_sink_no_session_event _ _).2,
      (syslog_open_session _).2.2, file_sink_syslog_open]
    simp

theorem session_many (calls : List (Env × List Char × MsgCall)) :
    ∀ (st : LoggerState),
      has_option st.logger_options_ LOGGER_OPTION_SYSLOG = true →
      has_option st.logger_options_ (LOGGER_OPTION_FILE ||| LOGGER_OPTION_STDERR) = true →
      (∀ x ∈ calls, call_ready st.file_name_prefix x) →
      ∃ st2 evs, run_calls st calls = .ok (st2, evs)
        ∧ st2.syslog_open = (st.syslog_open || !calls.isEmpty)
        ∧ evs.count Event.closelog = 0
        ∧ evs.count Event.openlog = (if (st.syslog_open || calls.isEmpty) = true then 0 else 1) := by
  induction calls with
  | nil =>
    intro st _ _ _
    exact ⟨st, [], rfl, by simp, rfl, by simp⟩
  | cons x rest ih =>
    intro st hsys hopt hready
    obtain ⟨st1, ev1, hrun, ho, hp, hs, hc, hopn⟩ :=
      session_step st x hsys hopt (hready x (List.mem_cons_self _ _))
    obtain ⟨st2, ev2, hrun2, hs2, hc2, hopn2⟩ := ih st1 (by rw [ho]; exact hsys)
      (by rw [ho]; exact hopt)
      (fun y hy => by rw [hp]; exact hready y (List.mem_cons_of_mem _ hy))
    obtain ⟨env, buff, c⟩ := x
    refine ⟨st2, ev1 ++ ev2, ?_, ?_, ?_, ?_⟩
    · simp only [] at hrun
      rw [run_calls, hrun]
      simp only []
      rw [hrun2]
    · rw [hs2, hs]
      simp
    · rw [List.count_append, hc, hc2]
    · rw [List.count_append, hopn, hopn2, hs]
      simp

/-- C27 (amended): with the syslog sink enabled (and the file or the stderr sink, so that
the text is rendered) the session is opened by the first emission that finds it closed and
no emission closes it, with keep-open set or unset: after any non-empty sequence of
emissions the session is open, no `closelog` was made, `openlog` was made once if the
session was closed before and not at all otherwise, and `logger_close` then makes the
one `closelog` and leaves the session closed. -/
theorem syslog_session_stays_open (st : LoggerState) (calls : List (Env × List Char × MsgCall))
    (hsys : has_option st.logger_options_ LOGGER_OPTION_SYSLOG = true)
    (hopt : has_option st.logger_options_ (LOGGER_OPTION_FILE ||| LOGGER_OPTION_STDERR) = true)
    (hready : ∀ x ∈ calls, call_ready st.file_name_prefix x)
    (hne : calls ≠ []) :
    ∃ st2 evs, run_calls st calls = .ok (st2, evs)
      ∧ st2.syslog_open = true
      ∧ evs.count Event.closelog = 0
      ∧ evs.count Event.openlog = (if st.syslog_open = true then 0 else 1)
      ∧ (logger_close st2).2.count Event.closelog = 1
      ∧ (logger_close st2).1.syslog_open = false := by
  obtain ⟨st2, evs, hrun, hs, hc, ho⟩ := session_many calls st hsys hopt hready
  have he : calls.isEmpty = false := by
    cases calls with
    | nil => exact absurd rfl hne
    | cons a b => rfl
  rw [he] at hs ho
  simp only [Bool.not_false, Bool.or_true, Bool.or_false] at hs ho
  refine ⟨st2, evs, hrun, hs, hc, ho, ?_, rfl⟩
  unfold logger_close
  rw [hs]
  simp only [if_true, List.count_append]
  cases st2.fp <;> cases LoggerState.file_name_prefix st2 <;> simp

theorem syslog_session_stays_open_witness :
    ∃ st2 evs, run_calls syslog_state
        [(sample_env, sample_buffer, sample_call), (sample_env, sample_buffer, sample_call)]
        = .ok (st2, evs)
      ∧ st2.syslog_open = true
      ∧ evs.count Event.closelog = 0
      ∧ evs.count Event.openlog = (if syslog_state.syslog_open = true then 0 else 1)
      ∧ (logger_close st2).2.count Event.closelog = 1
      ∧ (logger_close st2).1.syslog_open = false :=
  syslog_session_stays_open syslog_state
    [(sample_env, sample_buffer, sample_call), (sample_env, sample_buffer, sample_call)]
    (by decide) (by decide)
    (fun x hx => by
      simp only [List.mem_cons, List.mem_singleton, List.mem_nil_iff, or_false, or_self] at hx
      rw [hx]
      exact sample_call_ready _ _)
    (by simp)

/-! ## The slice the syslog part removes -/

theorem timestamp_text_length_calendar (options : Nat) (env : Env) (h : calendar_time env) :
    (timestamp_text options env.TM (env.tv_usec / 1000)).length + 1 = syslog_strip_len options := by
  obtain ⟨h1, h2, h3, h4, h5, h6, h7⟩ := h
  rw [timestamp_text_eq_spec options env h1 h2 h3 h4 h5 h6 h7, spec_timestamp_length]
  unfold syslog_strip_len
  cases has_option options LOGGER_OPTION_MILLISECONDS <;> rfl

theorem cstr_make_timestamp (options : Nat) (env : Env) (buffer : List Char)
    (h : (timestamp_text options env.TM (env.tv_usec / 1000)).length + 1 ≤ buffer.length) :
    cstr (make_timestamp options env buffer buffer.length)
      = timestamp_text options env.TM (env.tv_usec / 1000) := by
  rw [make_timestamp_eq _ _ _ (by omega), List.take_of_length_le (by omega)]
  exact cstr_append_NUL _ _ (timestamp_text_no_NUL _ _ _)

/-- The metadata starts with a space and the thread field, followed by a space. -/
theorem metadata_text_head (env : Env) (severity : List Char) (theclass func : Option (List Char))
    (class_name file_name : List Char) (line : Int) :
    ∃ rest, metadata_text (env.tid % 2 ^ 32) severity theclass func class_name file_name line
      = ' ' :: thread_field env ++ ' ' :: rest := by
  unfold metadata_text thread_field
  cases func with
  | none => exact ⟨severity, by simp⟩
  | some f =>
    cases theclass with
    | none => exact ⟨_, by simp; rfl⟩
    | some c => exact ⟨_, by simp; rfl⟩

/-- C30: at every calendar time with the year in 0..9999, for every thread id and every
array of at least 26 bytes, the number of characters the syslog part removes (20, or 24
with milliseconds) is the length of the timestamp that `make_timestamp` leaves in the
array plus one, and the characters removed from the rendered text are that timestamp and
the space after it, whatever the thread id. -/
theorem strip_length_is_timestamp_plus_one (st : LoggerState) (env : Env) (buff : List Char)
    (hcal : calendar_time env) (hlen : 26 ≤ buff.length) :
    syslog_strip_len st.logger_options_
        = (cstr (make_timestamp st.logger_options_ env buff buff.length)).length + 1
    ∧ syslog_strip_len st.logger_options_
        = (if has_option st.logger_options_ LOGGER_OPTION_MILLISECONDS then 24 else 20)
    ∧ ∀ (tid : Nat) (severity : List Char) (theclass func fn : Option (List Char)) (line : Int),
        (rendered st { env with tid := tid } buff.length severity theclass func fn line).take
            (syslog_strip_len st.logger_options_)
          = cstr (make_timestamp st.logger_options_ env buff buff.length) ++ [' '] := by
  have hts := timestamp_text_length_calendar st.logger_options_ env hcal
  have hsl : syslog_strip_len st.logger_options_ ≤ 24 := by
    unfold syslog_strip_len
    split <;> omega
  have hc := cstr_make_timestamp st.logger_options_ env buff (by omega)
  refine ⟨by rw [hc, hts], rfl, ?_⟩
  intro tid severity theclass func fn line
  obtain ⟨rest, hrest⟩ := metadata_text_head { env with tid := tid } severity theclass func
    ((logger_stralpha theclass).getD []) (fn.getD []) line
  rw [hc]
  unfold rendered
  rw [hrest]
  show List.take _ (List.take _ (timestamp_text st.logger_options_ env.TM (env.tv_usec / 1000)
    ++ _)) = _
  generalize timestamp_text st.logger_options_ env.TM (env.tv_usec / 1000) = ts at hts ⊢
  rw [List.take_take, ← hts]
  have e : ts ++ (' ' :: thread_field { env with tid := tid } ++ ' ' :: rest)
      = (ts ++ [' ']) ++ (thread_field { env with tid := tid } ++ ' ' :: rest) := by simp
  rw [e, List.take_append_eq_append_take]
  have hm : min (ts.length + 1) (buff.length - 1) = ts.length + 1 := by omega
  rw [hm, List.take_of_length_le (by simp)]
  simp

theorem strip_length_is_timestamp_plus_one_witness :
    syslog_strip_len syslog_state.logger_options_
        = (cstr (make_timestamp syslog_state.logger_options_ sample_env sample_buffer
            sample_buffer.length)).length + 1
    ∧ syslog_strip_len syslog_state.logger_options_
        = (if has_option syslog_state.logger_options_ LOGGER_OPTION_MILLISECONDS then 24 else 20)
    ∧ ∀ (tid : Nat) (severity : List Char) (theclass func fn : Option (List Char)) (line : Int),
        (rendered syslog_state { sample_env with tid := tid } sample_buffer.length severity
            theclass func fn line).take (syslog_strip_len syslog_state.logger_options_)
          = cstr (make_timestamp syslog_state.logger_options_ sample_env sample_buffer
              sample_buffer.length) ++ [' '] :=
  strip_length_is_timestamp_plus_one syslog_state sample_env sample_buffer
    ⟨by decide, by decide, by decide, by decide, by decide, by decide, by decide⟩
    (by rw [sample_buffer_length]; decide)

/-- The effects of the file sink when the file is open or can be opened. -/
theorem file_sink_order (st : LoggerState) (env : Env) (text path : List Char) (h : Nat)
    (hf : has_option st.logger_options_ LOGGER_OPTION_FILE = true)
    (hopen : st.fp = some h
      ∨ (st.fp = none ∧ st.log_file = some path ∧ env.fopen_result = some h)) :
    (file_sink st env text).2
      = (if st.fp.isSome = true then [] else [Event.fopen path (some h)])
        ++ [Event.fwrite h text]
        ++ (if has_option st.logger_options_ LOGGER_OPTION_FLUSH_FILE = true then [Event.fflush h]
          else [])
        ++ (if has_option st.logger_options_ LOGGER_OPTION_KEEP_FILE_OPEN = true then []
          else [Event.fclose h]) := by
  unfold file_sink
  rw [if_pos hf]
  rcases hopen with hfp | ⟨hfp, hpath, hres⟩
  · rw [hfp]
    simp only []
    split <;> simp
  · rw [hfp, hpath, hres]
    simp only []
    split <;> simp

/-- C28: one emission with the file, stderr and syslog sinks enabled and the file open or
openable makes its effects in this order: the mutex is locked, the file is opened if it
was not open, the line is written to the file, flushed if the flush flag is set, the file
is closed unless keep-open is set, the same line is written to stderr, the mutex is
unlocked, the syslog session is opened if it was closed, and the text is submitted to
syslog. There is one lock and one unlock, and the mutex is free when syslog is called and
when the emission returns. -/
theorem emission_order (st : LoggerState) (env : Env) (buff : List Char) (c : MsgCall)
    (fn : Option (List Char)) (path : List Char) (h : Nat)
    (hfile : has_option st.logger_options_ LOGGER_OPTION_FILE = true)
    (hstderr : has_option st.logger_options_ LOGGER_OPTION_STDERR = true)
    (hsys : has_option st.logger_options_ LOGGER_OPTION_SYSLOG = true)
    (hopen : st.fp = some h
      ∨ (st.fp = none ∧ st.log_file = some path ∧ env.fopen_result = some h))
    (hlen : 26 ≤ buff.length) (hsev : NUL ∉ c.severity)
    (hfunc : ∀ f, c.func = some f → NUL ∉ f) (hclass : ∀ t, c.theclass = some t → NUL ∉ t)
    (hstrip : logger_stripfile st.file_name_prefix c.file = .ok fn) :
    ∃ st2 evs stext, run_call st env buff (some c) = .ok (st2, evs)
      ∧ evs = [Event.lock]
          ++ (if st.fp.isSome = true then [] else [Event.fopen path (some h)])
          ++ [Event.fwrite h
            (c.format (rendered st env buff.length c.severity c.theclass c.func fn c.line))]
          ++ (if has_option st.logger_options_ LOGGER_OPTION_FLUSH_FILE = true then
            [Event.fflush h] else [])
          ++ (if has_option st.logger_options_ LOGGER_OPTION_KEEP_FILE_OPEN = true then []
            else [Event.fclose h])
          ++ [Event.stderr_write
            (c.format (rendered st env buff.length c.severity c.theclass c.func fn c.line)),
            Event.unlock]
          ++ (if st.syslog_open = true then [] else [Event.openlog])
          ++ [Event.syslog (syslog_priority c.nseverity) stext]
      ∧ evs.count Event.lock = 1 ∧ evs.count Event.unlock = 1
      ∧ mutex_held evs.dropLast = false ∧ mutex_held evs = false := by
  have hrun := run_call_eq st env buff c fn (has_option_file_or _ hfile) hlen hsev hfunc hclass
    hstrip
  rw [if_pos hsys, if_pos hsys] at hrun
  generalize c.format (rendered st env buff.length c.severity c.theclass c.func fn c.line)
    = text at hrun ⊢
  have hfs := file_sink_order st env text path h hfile hopen
  have hso : (logger_syslog_open_ (file_sink st env text).1).2
      = (if st.syslog_open = true then [] else [Event.openlog]) := by
    unfold logger_syslog_open_
    rw [file_sink_syslog_open]
    cases st.syslog_open <;> rfl
  have hse : stderr_sink st text = [Event.stderr_write text] := by
    unfold stderr_sink
    rw [if_pos hstderr]
  rw [hfs, hso, hse] at hrun
  refine ⟨_, _, c.format (((rendered st env buff.length c.severity c.theclass c.func fn
    c.line).drop (syslog_strip_len st.logger_options_)).take
      ((rendered st env buff.length c.severity c.theclass c.func fn c.line).length
        - syslog_strip_len st.logger_options_ - 1)), hrun, ?_, ?_, ?_, ?_, ?_⟩
  · simp
  · cases st.fp.isSome <;> cases has_option st.logger_options_ LOGGER_OPTION_FLUSH_FILE
      <;> cases has_option st.logger_options_ LOGGER_OPTION_KEEP_FILE_OPEN
      <;> cases st.syslog_open <;> simp
  · cases st.fp.isSome <;> cases has_option st.logger_options_ LOGGER_OPTION_FLUSH_FILE
      <;> cases has_option st.logger_options_ LOGGER_OPTION_KEEP_FILE_OPEN
      <;> cases st.syslog_open <;> simp
  · cases st.fp.isSome <;> cases has_option st.logger_options_ LOGGER_OPTION_FLUSH_FILE
      <;> cases has_option st.logger_options_ LOGGER_OPTION_KEEP_FILE_OPEN
      <;> cases st.syslog_open <;> simp [mutex_held]
  · cases st.fp.isSome <;> cases has_option st.logger_options_ LOGGER_OPTION_FLUSH_FILE
      <;> cases has_option st.logger_options_ LOGGER_OPTION_KEEP_FILE_OPEN
      <;> cases st.syslog_open <;> simp [mutex_held]

theorem emission_order_witness :
    ∃ st2 evs stext, run_call all_sinks_state sample_env sample_buffer (some sample_call)
        = .ok (st2, evs)
      ∧ evs = [Event.lock]
          ++ (if all_sinks_state.fp.isSome = true then []
            else [Event.fopen "t.log".toList (some 3)])
          ++ [Event.fwrite 3
            (sample_call.format (rendered all_sinks_state sample_env sample_buffer.length
              sample_call.severity sample_call.theclass sample_call.func none sample_call.line))]
          ++ (if has_option all_sinks_state.logger_options_ LOGGER_OPTION_FLUSH_FILE = true then
            [Event.fflush 3] else [])
          ++ (if has_option all_sinks_state.logger_options_ LOGGER_OPTION_KEEP_FILE_OPEN = true
            then [] else [Event.fclose 3])
          ++ [Event.stderr_write
            (sample_call.format (rendered all_sinks_state sample_env sample_buffer.length
              sample_call.severity sample_call.theclass sample_call.func none sample_call.line)),
            Event.unlock]
          ++ (if all_sinks_state.syslog_open = true then [] else [Event.openlog])
          ++ [Event.syslog (syslog_priority sample_call.nseverity) stext]
      ∧ evs.count Event.lock = 1 ∧ evs.count Event.unlock = 1
      ∧ mutex_held evs.dropLast = false ∧ mutex_held evs = false :=
  emission_order all_sinks_state sample_env sample_buffer sample_call none "t.log".toList 3
    (by decide) (by decide) (by decide) (Or.inr ⟨rfl, rfl, rfl⟩)
    (by rw [sample_buffer_length]; decide) (by decide)
    (fun f hf => Option.noConfusion hf) (fun t ht => Option.noConfusion ht) rfl

end Logger
